import Mathlib

/-! DualBootPatcher: the mbtool daemon (protocol version 3) and `mbtool/util`

A shallow embedding of `mbtool/daemon_v3.cpp`: the per-connection command
loop, its handlers and the table of opened descriptors; and of the recursive
visitors and the helpers of `mbtool/util` (`copy.cpp`, `chown.cpp`,
`selinux.cpp`, `mount.cpp`, `path.cpp`, `directory.cpp`, `fstab.cpp`).

* The process state touched by the handlers is the pair of statics `fd_map`
  and `fd_count`.  It is threaded explicitly as `State`, together with the
  ordered log `calls` of every system call and collaborator call made so far.
* The results of system calls and of the collaborators that live outside of
  `daemon_v3.cpp` are read from a record `Sys` of answer functions; one such
  record accompanies every incoming message.
* A handler that dereferences a null pointer or lets an exception escape
  aborts the process, as nothing in `daemon_v3.cpp` catches; such a handler
  returns an `Option`, `none` standing for the abort.
* C `int` values are `Int`; `uint32_t` values are `Nat` below `2 ^ 32`.
* The code of `mbtool/util` reads the answers of the filesystem from a record
  `Fs` and logs its calls as `FsCall` values.
-/

set_option autoImplicit false

namespace mb

/-! ## Wire schema: requests -/

structure FileChmodRequest where
  id : Int
  mode : Nat
deriving DecidableEq, Repr

structure FileCloseRequest where
  id : Int
deriving DecidableEq, Repr

structure FileOpenRequest where
  path : Option String
  flags : Option (List Int)
  perms : Nat
deriving DecidableEq, Repr

structure FileReadRequest where
  id : Int
  count : Nat
deriving DecidableEq, Repr

structure FileSeekRequest where
  id : Int
  offset : Int
  whence : Int
deriving DecidableEq, Repr

structure FileSELinuxGetLabelRequest where
  id : Int
deriving DecidableEq, Repr

structure FileSELinuxSetLabelRequest where
  id : Int
  label : Option String
deriving DecidableEq, Repr

structure FileStatRequest where
  id : Int
deriving DecidableEq, Repr

structure FileWriteRequest where
  id : Int
  data : Option (List Nat)
deriving DecidableEq, Repr

structure PathChmodRequest where
  path : Option String
  mode : Nat
deriving DecidableEq, Repr

structure PathCopyRequest where
  source : Option String
  target : Option String
deriving DecidableEq, Repr

structure PathSELinuxGetLabelRequest where
  path : Option String
  follow_symlinks : Bool
deriving DecidableEq, Repr

structure PathSELinuxSetLabelRequest where
  path : Option String
  label : Option String
  follow_symlinks : Bool
deriving DecidableEq, Repr

structure PathGetDirectorySizeRequest where
  path : Option String
  exclusions : Option (List String)
deriving DecidableEq, Repr

structure MbSetKernelRequest where
  rom_id : Option String
  boot_blockdev : Option String
deriving DecidableEq, Repr

structure MbSwitchRomRequest where
  rom_id : Option String
  boot_blockdev : Option String
  blockdev_base_dirs : Option (List String)
  force_update_checksums : Bool
deriving DecidableEq, Repr

structure MbWipeRomRequest where
  rom_id : Option String
  targets : Option (List Int)
deriving DecidableEq, Repr

structure MbGetPackagesCountRequest where
  rom_id : Option String
deriving DecidableEq, Repr

structure RebootRequest where
  arg : Option String
deriving DecidableEq, Repr

/-- A verified request: the `request_type` tag together with the payload of
that type.  `Other` stands for every tag the dispatcher does not list. -/
inductive Request where
  | FileChmodRequest (r : mb.FileChmodRequest)
  | FileCloseRequest (r : mb.FileCloseRequest)
  | FileOpenRequest (r : mb.FileOpenRequest)
  | FileReadRequest (r : mb.FileReadRequest)
  | FileSeekRequest (r : mb.FileSeekRequest)
  | FileSELinuxGetLabelRequest (r : mb.FileSELinuxGetLabelRequest)
  | FileSELinuxSetLabelRequest (r : mb.FileSELinuxSetLabelRequest)
  | FileStatRequest (r : mb.FileStatRequest)
  | FileWriteRequest (r : mb.FileWriteRequest)
  | PathChmodRequest (r : mb.PathChmodRequest)
  | PathCopyRequest (r : mb.PathCopyRequest)
  | PathSELinuxGetLabelRequest (r : mb.PathSELinuxGetLabelRequest)
  | PathSELinuxSetLabelRequest (r : mb.PathSELinuxSetLabelRequest)
  | PathGetDirectorySizeRequest (r : mb.PathGetDirectorySizeRequest)
  | MbGetBootedRomIdRequest
  | MbGetInstalledRomsRequest
  | MbGetVersionRequest
  | MbSetKernelRequest (r : mb.MbSetKernelRequest)
  | MbSwitchRomRequest (r : mb.MbSwitchRomRequest)
  | MbWipeRomRequest (r : mb.MbWipeRomRequest)
  | MbGetPackagesCountRequest (r : mb.MbGetPackagesCountRequest)
  | RebootRequest (r : mb.RebootRequest)
  | Other (tag : Nat)
deriving DecidableEq, Repr

/-! ## Wire schema: responses -/

/-- The fields `v3_file_stat` copies out of `struct stat`. -/
structure StructStat where
  st_dev : Nat
  st_ino : Nat
  st_mode : Nat
  st_nlink : Nat
  st_uid : Nat
  st_gid : Nat
  st_rdev : Nat
  st_size : Int
  st_blksize : Int
  st_blocks : Int
  st_atime : Int
  st_mtime : Int
  st_ctime : Int
deriving DecidableEq, Repr

structure MbRom where
  id : String
  system_path : String
  cache_path : String
  data_path : String
  version : Option String
  build : Option String
deriving DecidableEq, Repr

inductive MbSwitchRomResult where
  | SUCCEEDED
  | FAILED
  | CHECKSUM_NOT_FOUND
  | CHECKSUM_INVALID
deriving DecidableEq, Repr

/-- The `response_type` tag of a `Response`. -/
inductive ResponseType where
  | Invalid
  | Unsupported
  | FileChmodResponse
  | FileCloseResponse
  | FileOpenResponse
  | FileReadResponse
  | FileSeekResponse
  | FileSELinuxGetLabelResponse
  | FileSELinuxSetLabelResponse
  | FileStatResponse
  | FileWriteResponse
  | PathChmodResponse
  | PathCopyResponse
  | PathSELinuxGetLabelResponse
  | PathSELinuxSetLabelResponse
  | PathGetDirectorySizeResponse
  | MbGetBootedRomIdResponse
  | MbGetInstalledRomsResponse
  | MbGetVersionResponse
  | MbSetKernelResponse
  | MbSwitchRomResponse
  | MbWipeRomResponse
  | MbGetPackagesCountResponse
  | RebootResponse
deriving DecidableEq, Repr

/-- The object stored in the response union, one constructor per table the
handlers create.  A string or vector the handler leaves out (offset `0`) and a
scalar the handler does not pass (schema default) are `none`. -/
inductive Payload where
  | Invalid
  | Unsupported
  | FileChmodResponse (success : Bool) (error_msg : Option String)
  | FileCloseResponse (success : Bool) (error_msg : Option String)
  | FileOpenResponse (success : Bool) (error_msg : Option String) (id : Option Int)
  | FileReadResponse (success : Bool) (error_msg : Option String)
      (bytes_read : Option Int) (data : Option (List Nat))
  | FileSeekResponse (success : Bool) (error_msg : Option String) (offset : Option Int)
  | FileSELinuxGetLabelResponse (success : Bool) (error_msg : Option String)
      (label : Option String)
  | FileSELinuxSetLabelResponse (success : Bool) (error_msg : Option String)
  | FileStatResponse (success : Bool) (error_msg : Option String)
      (stat : Option StructStat)
  | FileWriteResponse (success : Bool) (error_msg : Option String)
      (bytes_written : Option Int)
  | PathChmodResponse (success : Bool) (error_msg : Option String)
  | PathCopyResponse (success : Bool) (error_msg : Option String)
  | PathSELinuxGetLabelResponse (success : Bool) (error_msg : Option String)
      (label : Option String)
  | PathSELinuxSetLabelResponse (success : Bool) (error_msg : Option String)
  | PathGetDirectorySizeResponse (success : Bool) (error_msg : Option String)
      (size : Option Nat)
  | MbGetBootedRomIdResponse (rom_id : Option String)
  | MbGetInstalledRomsResponse (roms : List MbRom)
  | MbGetVersionResponse (version : String)
  | MbSetKernelResponse (success : Bool)
  | MbSwitchRomResponse (success : Bool) (result : MbSwitchRomResult)
  | MbWipeRomResponse (succeeded : List Int) (failed : List Int)
  | MbGetPackagesCountResponse (success : Bool) (system_packages : Option Nat)
      (system_update_packages : Option Nat) (non_system_packages : Option Nat)
  | RebootResponse (success : Bool)
deriving DecidableEq, Repr

/-- The union member a payload object is an instance of. -/
def Payload.variant : Payload → ResponseType
  | .Invalid => .Invalid
  | .Unsupported => .Unsupported
  | .FileChmodResponse _ _ => .FileChmodResponse
  | .FileCloseResponse _ _ => .FileCloseResponse
  | .FileOpenResponse _ _ _ => .FileOpenResponse
  | .FileReadResponse _ _ _ _ => .FileReadResponse
  | .FileSeekResponse _ _ _ => .FileSeekResponse
  | .FileSELinuxGetLabelResponse _ _ _ => .FileSELinuxGetLabelResponse
  | .FileSELinuxSetLabelResponse _ _ => .FileSELinuxSetLabelResponse
  | .FileStatResponse _ _ _ => .FileStatResponse
  | .FileWriteResponse _ _ _ => .FileWriteResponse
  | .PathChmodResponse _ _ => .PathChmodResponse
  | .PathCopyResponse _ _ => .PathCopyResponse
  | .PathSELinuxGetLabelResponse _ _ _ => .PathSELinuxGetLabelResponse
  | .PathSELinuxSetLabelResponse _ _ => .PathSELinuxSetLabelResponse
  | .PathGetDirectorySizeResponse _ _ _ => .PathGetDirectorySizeResponse
  | .MbGetBootedRomIdResponse _ => .MbGetBootedRomIdResponse
  | .MbGetInstalledRomsResponse _ => .MbGetInstalledRomsResponse
  | .MbGetVersionResponse _ => .MbGetVersionResponse
  | .MbSetKernelResponse _ => .MbSetKernelResponse
  | .MbSwitchRomResponse _ _ => .MbSwitchRomResponse
  | .MbWipeRomResponse _ _ => .MbWipeRomResponse
  | .MbGetPackagesCountResponse _ _ _ _ => .MbGetPackagesCountResponse
  | .RebootResponse _ => .RebootResponse

/-- The root table written to the socket: `response_type` and `response`. -/
structure Response where
  response_type : ResponseType
  response : Payload
deriving DecidableEq, Repr

/-! ## Collaborators outside `daemon_v3.cpp` -/

/-- What the daemon reads of a `Rom` (`roms.h`): its id, whether the system
partition is an image, and the values of the three `full_*_path()` methods. -/
structure Rom where
  id : String
  system_is_image : Bool
  full_system_path : String
  full_cache_path : String
  full_data_path : String
deriving DecidableEq, Repr

/-- What the daemon reads of a `Package` (`packages.h`). -/
structure Package where
  pkg_flags : Nat
  pkg_public_flags : Nat
deriving DecidableEq, Repr

inductive SwitchRomResult where
  | SUCCEEDED
  | FAILED
  | CHECKSUM_NOT_FOUND
  | CHECKSUM_INVALID
deriving DecidableEq, Repr

/-- The entry `_curr` of the tree walk, reduced to the fields that
`DirectorySizeGetter` reads: `fts_level`, `fts_name` and, from `fts_statp`,
`st_dev`, `st_ino` and `st_size`. -/
structure FTSENT where
  fts_level : Int
  fts_name : String
  st_dev : Nat
  st_ino : Nat
  st_size : Int
deriving DecidableEq, Repr

/-- Answers of the operating system and of the collaborators while one
message is served.  Every field is the result the named function returns for
the given arguments; `strerror_errno` is the text of `strerror(errno)` where a
handler reads it. -/
structure Sys where
  socket_write_bytes : Int → Response → Bool
  strerror_errno : String
  fchmod : Int → Nat → Int
  close : Int → Int
  open_ : String → Nat → Nat → Int
  /-- Whether `operator new` provides the storage of
  `std::vector<unsigned char> buf(count)`; when it does not, the constructor
  throws `std::bad_alloc`. -/
  vector_alloc : Nat → Bool
  /-- The return value of `read(ffd, buf, count)` and the buffer afterwards. -/
  read : Int → Nat → Int × List Nat
  /-- The return value of `lseek` and the value of `errno` afterwards. -/
  lseek : Int → Int → Int → Int × Int
  /-- The return value of `fstat` and the structure it fills in. -/
  fstat : Int → Int × StructStat
  write : Int → List Nat → Int
  chmod : String → Nat → Int
  selinux_fget_context : Int → Option String
  selinux_fset_context : Int → String → Bool
  selinux_get_context : String → Option String
  selinux_lget_context : String → Option String
  selinux_set_context : String → String → Bool
  selinux_lset_context : String → String → Bool
  copy_contents : String → String → Bool
  /-- The walk of `FTSWrapper::run` for a `DirectorySizeGetter`: its result
  and the regular files it hands to `on_reached_file`, in order. -/
  fts_run : String → List String → Bool × List FTSENT
  get_current_rom : Option Rom
  add_installed : List Rom
  find_by_id : List Rom → String → Option Rom
  file_get_all_properties : String → List (String × String)
  get_mbtool_version : String
  set_kernel : String → String → Bool
  switch_rom : String → String → List String → Bool → SwitchRomResult
  get_raw_path : String → String
  mount : String → String → String → Nat → String → Int
  /-- The wipe functions: the first argument is the position, in the list of
  targets of the request, of the target being wiped, since a target that is
  listed twice is wiped twice and need not give the same result. -/
  wipe_system : Nat → Rom → Bool
  wipe_cache : Nat → Rom → Bool
  wipe_data : Nat → Rom → Bool
  wipe_dalvik_cache : Nat → Rom → Bool
  wipe_multiboot : Nat → Rom → Bool
  load_xml : String → Option (List Package)
  reboot_via_init : String → Bool
  FLAG_SYSTEM : Nat
  FLAG_UPDATED_SYSTEM_APP : Nat
  PUBLIC_FLAG_SYSTEM : Nat
  PUBLIC_FLAG_UPDATED_SYSTEM_APP : Nat

/-- One entry of the call log: a system call or collaborator call with the
arguments it was given.  `open_` also records the descriptor it returned. -/
inductive Call where
  | socket_write_bytes (fd : Int) (response : Response)
  | fchmod (ffd : Int) (mode : Nat)
  | close (ffd : Int)
  | open_ (path : String) (flags : Nat) (perms : Nat) (ret : Int)
  | read (ffd : Int) (count : Nat)
  | lseek (ffd : Int) (offset : Int) (whence : Int)
  | fstat (ffd : Int)
  | write (ffd : Int) (data : List Nat)
  | chmod (path : String) (mode : Nat)
  | selinux_fget_context (ffd : Int)
  | selinux_fset_context (ffd : Int) (label : String)
  | selinux_get_context (path : String)
  | selinux_lget_context (path : String)
  | selinux_set_context (path : String) (label : String)
  | selinux_lset_context (path : String) (label : String)
  | copy_contents (source : String) (target : String)
  | fts_run (path : String) (exclusions : List String)
  | get_current_rom
  | add_installed
  | find_by_id (id : String)
  | file_get_all_properties (path : String)
  | get_mbtool_version
  | set_kernel (rom_id : String) (boot_blockdev : String)
  | switch_rom (rom_id : String) (boot_blockdev : String)
      (block_dev_dirs : List String) (force_update_checksums : Bool)
  | get_raw_path (path : String)
  | mount (source : String) (target : String) (fstype : String)
      (mount_flags : Nat) (data : String)
  | wipe_system (rom : Rom)
  | wipe_cache (rom : Rom)
  | wipe_data (rom : Rom)
  | wipe_dalvik_cache (rom : Rom)
  | wipe_multiboot (rom : Rom)
  | load_xml (path : String)
  | reboot_via_init (arg : String)
deriving DecidableEq, Repr

/-! ## `std::unordered_map<int, int>` as an association list -/

namespace unordered_map

/-- Lookup, `m.find(k)`: the mapped value, or `none` for `m.end()`. -/
def find (m : List (Int × Int)) (k : Int) : Option Int :=
  match m with
  | [] => none
  | (k1, v) :: rest => if k1 = k then some v else find rest k

/-- Removal, `m.erase(k)`. -/
def erase (m : List (Int × Int)) (k : Int) : List (Int × Int) :=
  m.filter (fun p => decide (p.1 ≠ k))

/-- Assignment, `m[k] = v`: replaces the value of an existing key. -/
def set (m : List (Int × Int)) (k : Int) (v : Int) : List (Int × Int) :=
  (k, v) :: erase m k

end unordered_map

/-! ## Process state -/

/-- The statics `fd_map` and `fd_count`, and the log of calls made so far. -/
structure State where
  fd_map : List (Int × Int)
  fd_count : Int
  calls : List Call
deriving DecidableEq, Repr

/-- The state at process start: `fd_map` empty, `fd_count = 0`. -/
def State.init : State :=
  { fd_map := [], fd_count := 0, calls := [] }

/-- Append one entry to the call log. -/
def State.call (s : State) (c : Call) : State :=
  { s with calls := s.calls ++ [c] }

/-- The value an `int` holds after a computation with mathematical result
`n` (two's complement wrap-around). -/
def wrap_int (n : Int) : Int :=
  (n + 2 ^ 31) % 2 ^ 32 - 2 ^ 31

/-! ## Platform constants (Linux) -/

def S_IRWXU : Nat := 0o700
def S_IRWXG : Nat := 0o070
def S_IRWXO : Nat := 0o007

def O_RDONLY : Nat := 0o0
def O_WRONLY : Nat := 0o1
def O_RDWR : Nat := 0o2
def O_CREAT : Nat := 0o100
def O_EXCL : Nat := 0o200
def O_TRUNC : Nat := 0o1000
def O_APPEND : Nat := 0o2000
def O_CLOEXEC : Nat := 0o2000000

def SEEK_SET : Int := 0
def SEEK_CUR : Int := 1
def SEEK_END : Int := 2

def MS_REMOUNT : Nat := 32

/-! ## Enumerations of the generated protocol headers -/

/-- Modelled from the spec: enumerator `APPEND` of `FileOpenFlag`, one of the
portable open flags (append, create, exclusive, read-only, read-write,
truncate, write-only).  The generated header `protocol/file_open_generated.h`
is absent; the value is the position of the enumerator. -/
def FileOpenFlag_APPEND : Int := 0

/-- Modelled from the spec: enumerator `CREAT` of `FileOpenFlag`, one of the
portable open flags (append, create, exclusive, read-only, read-write,
truncate, write-only).  The generated header `protocol/file_open_generated.h`
is absent; the value is the position of the enumerator. -/
def FileOpenFlag_CREAT : Int := 1

/-- Modelled from the spec: enumerator `EXCL` of `FileOpenFlag`, one of the
portable open flags (append, create, exclusive, read-only, read-write,
truncate, write-only).  The generated header `protocol/file_open_generated.h`
is absent; the value is the position of the enumerator. -/
def FileOpenFlag_EXCL : Int := 2

/-- Modelled from the spec: enumerator `RDONLY` of `FileOpenFlag`, one of the
portable open flags (append, create, exclusive, read-only, read-write,
truncate, write-only).  The generated header `protocol/file_open_generated.h`
is absent; the value is the position of the enumerator. -/
def FileOpenFlag_RDONLY : Int := 3

/-- Modelled from the spec: enumerator `RDWR` of `FileOpenFlag`, one of the
portable open flags (append, create, exclusive, read-only, read-write,
truncate, write-only).  The generated header `protocol/file_open_generated.h`
is absent; the value is the position of the enumerator. -/
def FileOpenFlag_RDWR : Int := 4

/-- Modelled from the spec: enumerator `TRUNC` of `FileOpenFlag`, one of the
portable open flags (append, create, exclusive, read-only, read-write,
truncate, write-only).  The generated header `protocol/file_open_generated.h`
is absent; the value is the position of the enumerator. -/
def FileOpenFlag_TRUNC : Int := 5

/-- Modelled from the spec: enumerator `WRONLY` of `FileOpenFlag`, one of the
portable open flags (append, create, exclusive, read-only, read-write,
truncate, write-only).  The generated header `protocol/file_open_generated.h`
is absent; the value is the position of the enumerator. -/
def FileOpenFlag_WRONLY : Int := 6

/-- Modelled from the spec: enumerator `SEEK_SET` of `FileSeekWhence`, one of the
three seek origins.  The generated header `protocol/file_seek_generated.h` is
absent; the value is the position of the enumerator. -/
def FileSeekWhence_SEEK_SET : Int := 0

/-- Modelled from the spec: enumerator `SEEK_CUR` of `FileSeekWhence`, one of the
three seek origins.  The generated header `protocol/file_seek_generated.h` is
absent; the value is the position of the enumerator. -/
def FileSeekWhence_SEEK_CUR : Int := 1

/-- Modelled from the spec: enumerator `SEEK_END` of `FileSeekWhence`, one of the
three seek origins.  The generated header `protocol/file_seek_generated.h` is
absent; the value is the position of the enumerator. -/
def FileSeekWhence_SEEK_END : Int := 2

/-- Modelled from the spec: enumerator `SYSTEM` of `MbWipeTarget`, one of the
targets of a targeted wipe.  The generated header
`protocol/mb_wipe_rom_generated.h` is absent; the value is the position of the
enumerator. -/
def MbWipeTarget_SYSTEM : Int := 0

/-- Modelled from the spec: enumerator `CACHE` of `MbWipeTarget`, one of the
targets of a targeted wipe.  The generated header
`protocol/mb_wipe_rom_generated.h` is absent; the value is the position of the
enumerator. -/
def MbWipeTarget_CACHE : Int := 1

/-- Modelled from the spec: enumerator `DATA` of `MbWipeTarget`, one of the
targets of a targeted wipe.  The generated header
`protocol/mb_wipe_rom_generated.h` is absent; the value is the position of the
enumerator. -/
def MbWipeTarget_DATA : Int := 2

/-- Modelled from the spec: enumerator `DALVIK_CACHE` of `MbWipeTarget`, one of the
targets of a targeted wipe.  The generated header
`protocol/mb_wipe_rom_generated.h` is absent; the value is the position of the
enumerator. -/
def MbWipeTarget_DALVIK_CACHE : Int := 3

/-- Modelled from the spec: enumerator `MULTIBOOT` of `MbWipeTarget`, one of the
targets of a targeted wipe.  The generated header
`protocol/mb_wipe_rom_generated.h` is absent; the value is the position of the
enumerator. -/
def MbWipeTarget_MULTIBOOT : Int := 4

/-! ## Handlers -/

def v3_send_response (sys : Sys) (fd : Int) (response : Response) (s : State) :
    Bool × State :=
  (sys.socket_write_bytes fd response, s.call (Call.socket_write_bytes fd response))

def v3_send_response_invalid (sys : Sys) (fd : Int) (s : State) : Bool × State :=
  v3_send_response sys fd ⟨ResponseType.Invalid, Payload.Invalid⟩ s

def v3_send_response_unsupported (sys : Sys) (fd : Int) (s : State) : Bool × State :=
  v3_send_response sys fd ⟨ResponseType.Unsupported, Payload.Unsupported⟩ s

def v3_file_chmod (sys : Sys) (fd : Int) (request : FileChmodRequest) (s : State) :
    Bool × State :=
  match unordered_map.find s.fd_map request.id with
  | none => v3_send_response_invalid sys fd s
  | some ffd =>
    -- Don't allow setting setuid or setgid permissions
    let mode := request.mode
    let masked := mode &&& (S_IRWXU ||| S_IRWXG ||| S_IRWXO)
    if masked ≠ mode then
      v3_send_response_invalid sys fd s
    else
      let response :=
        if sys.fchmod ffd mode < 0 then
          Payload.FileChmodResponse false (some sys.strerror_errno)
        else
          Payload.FileChmodResponse true none
      v3_send_response sys fd ⟨ResponseType.FileChmodResponse, response⟩
        (s.call (Call.fchmod ffd mode))

def v3_file_close (sys : Sys) (fd : Int) (request : FileCloseRequest) (s : State) :
    Bool × State :=
  match unordered_map.find s.fd_map request.id with
  | none => v3_send_response_invalid sys fd s
  | some ffd =>
    -- Remove ID from map
    let s1 : State := { s with fd_map := unordered_map.erase s.fd_map request.id }
    let response :=
      if sys.close ffd < 0 then
        Payload.FileCloseResponse false (some sys.strerror_errno)
      else
        Payload.FileCloseResponse true none
    v3_send_response sys fd ⟨ResponseType.FileCloseResponse, response⟩
      (s1.call (Call.close ffd))

/-- The loop over `request->flags()` of `v3_file_open`. -/
def open_flags (flags : Nat) : List Int → Nat
  | [] => flags
  | openflag :: rest =>
    let flags1 :=
      if openflag = FileOpenFlag_APPEND then flags ||| O_APPEND
      else if openflag = FileOpenFlag_CREAT then flags ||| O_CREAT
      else if openflag = FileOpenFlag_EXCL then flags ||| O_EXCL
      else if openflag = FileOpenFlag_RDONLY then flags ||| O_RDONLY
      else if openflag = FileOpenFlag_RDWR then flags ||| O_RDWR
      else if openflag = FileOpenFlag_TRUNC then flags ||| O_TRUNC
      else if openflag = FileOpenFlag_WRONLY then flags ||| O_WRONLY
      else flags
    open_flags flags1 rest

/-- The value of `flags` that `v3_file_open` passes to `open()`: `O_CLOEXEC`,
and the loop when `request->flags()` is present. -/
def file_open_flags (flags : Option (List Int)) : Nat :=
  match flags with
  | none => O_CLOEXEC
  | some l => open_flags O_CLOEXEC l

def v3_file_open (sys : Sys) (fd : Int) (request : FileOpenRequest) (s : State) :
    Bool × State :=
  match request.path with
  | none => v3_send_response_invalid sys fd s
  | some path =>
    let flags := file_open_flags request.flags
    let ffd := sys.open_ path flags request.perms
    let s1 := s.call (Call.open_ path flags request.perms ffd)
    if ffd < 0 then
      v3_send_response sys fd
        ⟨ResponseType.FileOpenResponse,
          Payload.FileOpenResponse false (some sys.strerror_errno) none⟩ s1
    else
      -- Assign a new ID
      let id := s1.fd_count
      let s2 : State :=
        { s1 with fd_count := wrap_int (s1.fd_count + 1),
                  fd_map := unordered_map.set s1.fd_map id ffd }
      v3_send_response sys fd
        ⟨ResponseType.FileOpenResponse, Payload.FileOpenResponse true none (some id)⟩ s2

/-- The value of `max_size()` of a `std::vector<unsigned char>`, with a
`size_t` of 64 bits: the constructor throws `std::length_error` for a larger
size. -/
def vector_max_size : Nat := 2 ^ 63 - 1

/-- The result is `none` when the constructor of
`std::vector<unsigned char> buf(request->count())` throws, for a size above
`max_size()` or for want of memory: nothing catches the exception, so the
process is aborted where it stands, without a response and without the
teardown of the session. -/
def v3_file_read (sys : Sys) (fd : Int) (request : FileReadRequest) (s : State) :
    Option (Bool × State) :=
  match unordered_map.find s.fd_map request.id with
  | none => some (v3_send_response_invalid sys fd s)
  | some ffd =>
    if request.count ≤ vector_max_size ∧ sys.vector_alloc request.count = true then
      let r := sys.read ffd request.count
      let ret := r.1
      let buf := r.2
      let response :=
        if ret < 0 then
          Payload.FileReadResponse false (some sys.strerror_errno) none none
        else
          Payload.FileReadResponse true none (some ret) (some (buf.take ret.toNat))
      some (v3_send_response sys fd ⟨ResponseType.FileReadResponse, response⟩
        (s.call (Call.read ffd request.count)))
    else
      none

/-- The translation of `request->whence()` in `v3_file_seek`; `none` is the
branch that answers Invalid. -/
def seek_whence (whence : Int) : Option Int :=
  if whence = FileSeekWhence_SEEK_SET then some SEEK_SET
  else if whence = FileSeekWhence_SEEK_CUR then some SEEK_CUR
  else if whence = FileSeekWhence_SEEK_END then some SEEK_END
  else none

def v3_file_seek (sys : Sys) (fd : Int) (request : FileSeekRequest) (s : State) :
    Bool × State :=
  match unordered_map.find s.fd_map request.id with
  | none => v3_send_response_invalid sys fd s
  | some ffd =>
    let offset := request.offset
    match seek_whence request.whence with
    | none => v3_send_response_invalid sys fd s
    | some whence =>
      -- errno = 0 before the call
      let r := sys.lseek ffd offset whence
      let ret := r.1
      let errno := r.2
      let response :=
        if ret < 0 ∨ errno ≠ 0 then
          Payload.FileSeekResponse false (some sys.strerror_errno) none
        else
          Payload.FileSeekResponse true none (some ret)
      v3_send_response sys fd ⟨ResponseType.FileSeekResponse, response⟩
        (s.call (Call.lseek ffd offset whence))

def v3_file_selinux_get_label (sys : Sys) (fd : Int)
    (request : FileSELinuxGetLabelRequest) (s : State) : Bool × State :=
  match unordered_map.find s.fd_map request.id with
  | none => v3_send_response_invalid sys fd s
  | some ffd =>
    let response :=
      match sys.selinux_fget_context ffd with
      | none => Payload.FileSELinuxGetLabelResponse false (some sys.strerror_errno) none
      | some label => Payload.FileSELinuxGetLabelResponse true none (some label)
    v3_send_response sys fd ⟨ResponseType.PathSELinuxGetLabelResponse, response⟩
      (s.call (Call.selinux_fget_context ffd))

def v3_file_selinux_set_label (sys : Sys) (fd : Int)
    (request : FileSELinuxSetLabelRequest) (s : State) : Bool × State :=
  match unordered_map.find s.fd_map request.id, request.label with
  | some ffd, some label =>
    let response :=
      if ¬ sys.selinux_fset_context ffd label then
        Payload.FileSELinuxSetLabelResponse false (some sys.strerror_errno)
      else
        Payload.FileSELinuxSetLabelResponse true none
    v3_send_response sys fd ⟨ResponseType.FileSELinuxSetLabelResponse, response⟩
      (s.call (Call.selinux_fset_context ffd label))
  | _, _ => v3_send_response_invalid sys fd s

def v3_file_stat (sys : Sys) (fd : Int) (request : FileStatRequest) (s : State) :
    Bool × State :=
  match unordered_map.find s.fd_map request.id with
  | none => v3_send_response_invalid sys fd s
  | some ffd =>
    let r := sys.fstat ffd
    let response :=
      if r.1 < 0 then
        Payload.FileStatResponse false (some sys.strerror_errno) none
      else
        Payload.FileStatResponse true none (some r.2)
    v3_send_response sys fd ⟨ResponseType.FileStatResponse, response⟩
      (s.call (Call.fstat ffd))

def v3_file_write (sys : Sys) (fd : Int) (request : FileWriteRequest) (s : State) :
    Bool × State :=
  match unordered_map.find s.fd_map request.id, request.data with
  | some ffd, some data =>
    let ret := sys.write ffd data
    let response :=
      if ret < 0 then
        Payload.FileWriteResponse false (some sys.strerror_errno) none
      else
        Payload.FileWriteResponse true none (some ret)
    v3_send_response sys fd ⟨ResponseType.FileWriteResponse, response⟩
      (s.call (Call.write ffd data))
  | _, _ => v3_send_response_invalid sys fd s

def v3_path_chmod (sys : Sys) (fd : Int) (request : PathChmodRequest) (s : State) :
    Bool × State :=
  match request.path with
  | none => v3_send_response_invalid sys fd s
  | some path =>
    -- Don't allow setting setuid or setgid permissions
    let mode := request.mode
    let masked := mode &&& (S_IRWXU ||| S_IRWXG ||| S_IRWXO)
    if masked ≠ mode then
      v3_send_response_invalid sys fd s
    else
      let response :=
        if sys.chmod path mode < 0 then
          Payload.PathChmodResponse false (some sys.strerror_errno)
        else
          Payload.PathChmodResponse true none
      v3_send_response sys fd ⟨ResponseType.PathChmodResponse, response⟩
        (s.call (Call.chmod path mode))

def v3_path_copy (sys : Sys) (fd : Int) (request : PathCopyRequest) (s : State) :
    Bool × State :=
  match request.source, request.target with
  | some source, some target =>
    let response :=
      if sys.copy_contents source target then
        Payload.PathCopyResponse true none
      else
        Payload.PathCopyResponse false (some sys.strerror_errno)
    v3_send_response sys fd ⟨ResponseType.PathCopyResponse, response⟩
      (s.call (Call.copy_contents source target))
  | _, _ => v3_send_response_invalid sys fd s

def v3_path_selinux_get_label (sys : Sys) (fd : Int)
    (request : PathSELinuxGetLabelRequest) (s : State) : Bool × State :=
  match request.path with
  | none => v3_send_response_invalid sys fd s
  | some path =>
    let ret :=
      if request.follow_symlinks then sys.selinux_get_context path
      else sys.selinux_lget_context path
    let s1 :=
      if request.follow_symlinks then s.call (Call.selinux_get_context path)
      else s.call (Call.selinux_lget_context path)
    let response :=
      match ret with
      | none => Payload.PathSELinuxGetLabelResponse false (some sys.strerror_errno) none
      | some label => Payload.PathSELinuxGetLabelResponse true none (some label)
    v3_send_response sys fd ⟨ResponseType.PathSELinuxGetLabelResponse, response⟩ s1

/-- The result is `none` when the handler dereferences a null pointer:
`request->label()->c_str()` is evaluated without a check of
`request->label()`, so the process has no defined behaviour from there on. -/
def v3_path_selinux_set_label (sys : Sys) (fd : Int)
    (request : PathSELinuxSetLabelRequest) (s : State) : Option (Bool × State) :=
  match request.path with
  | none => some (v3_send_response_invalid sys fd s)
  | some path =>
    match request.label with
    | none => none
    | some label =>
      let ret :=
        if request.follow_symlinks then sys.selinux_set_context path label
        else sys.selinux_lset_context path label
      let s1 :=
        if request.follow_symlinks then s.call (Call.selinux_set_context path label)
        else s.call (Call.selinux_lset_context path label)
      let response :=
        if ¬ ret then
          Payload.PathSELinuxSetLabelResponse false (some sys.strerror_errno)
        else
          Payload.PathSELinuxSetLabelResponse true none
      some (v3_send_response sys fd
        ⟨ResponseType.PathSELinuxSetLabelResponse, response⟩ s1)

/-! ## `DirectorySizeGetter` -/

/-- Modelled from the spec: the values of `FTSWrapper::Action` (`util/fts.h`
is absent).  The spec describes continue, skip-subtree,
fail-this-entry and stop-walk, with fail and stop as independent bits. -/
def Action.FTS_OK : Nat := 0

/-- Modelled from the spec: see `Action.FTS_OK`. -/
def Action.FTS_Fail : Nat := 1

/-- Modelled from the spec: see `Action.FTS_OK`. -/
def Action.FTS_Skip : Nat := 2

/-- Modelled from the spec: see `Action.FTS_OK`. -/
def Action.FTS_Stop : Nat := 4

/-- The members of `DirectorySizeGetter`; `_links` is the
`unordered_map<dev_t, unordered_set<ino_t>>`, a set being a list, and `_total`
is a `uint64_t`. -/
structure DirectorySizeGetter where
  _exclusions : List String
  _links : List (Nat × List Nat)
  _total : Nat
deriving DecidableEq, Repr

namespace DirectorySizeGetter

/-- The constructor: the given exclusions, no links, `_total = 0`. -/
def new (exclusions : List String) : DirectorySizeGetter :=
  { _exclusions := exclusions, _links := [], _total := 0 }

/-- Lookup `_links.find(dev)`. -/
def links_find (links : List (Nat × List Nat)) (dev : Nat) : Option (List Nat) :=
  match links with
  | [] => none
  | (d, inos) :: rest => if d = dev then some inos else links_find rest dev

/-- Insertion `_links[dev].emplace(x)`: the set of `dev` is created empty
when `dev` has none, and `x` is added unless already a member. -/
def links_emplace (links : List (Nat × List Nat)) (dev : Nat) (x : Nat) :
    List (Nat × List Nat) :=
  match links with
  | [] => [(dev, [x])]
  | (d, inos) :: rest =>
    if d = dev then (d, if x ∈ inos then inos else x :: inos) :: rest
    else (d, inos) :: links_emplace rest dev x

def on_changed_path (curr : FTSENT) (g : DirectorySizeGetter) :
    Nat × DirectorySizeGetter :=
  -- Exclude first-level directories
  if curr.fts_level = 1 ∧ curr.fts_name ∈ g._exclusions then
    (Action.FTS_Skip, g)
  else
    (Action.FTS_OK, g)

def on_reached_file (curr : FTSENT) (g : DirectorySizeGetter) :
    Nat × DirectorySizeGetter :=
  let dev := curr.st_dev
  let ino := curr.st_ino
  -- If this file has been visited before (hard link), then skip it
  let visited : Bool :=
    match links_find g._links dev with
    | none => false
    | some inos => decide (ino ∈ inos)
  if visited then
    (Action.FTS_OK, g)
  else
    (Action.FTS_OK,
      { g with _total := (((g._total : Int) + curr.st_size) % 2 ^ 64).toNat,
               _links := links_emplace g._links dev dev })

def total (g : DirectorySizeGetter) : Nat :=
  g._total

/-- Modelled from the spec: the traversal engine (`FTSWrapper::run` of
`util/fts.h`, which is absent) invokes the visitor at each entry, in the order
the walk encounters them; here the regular files of a walk are handed to
`on_reached_file` one after the other. -/
def reach_files (files : List FTSENT) (g : DirectorySizeGetter) : DirectorySizeGetter :=
  files.foldl (fun acc curr => (on_reached_file curr acc).2) g

end DirectorySizeGetter

def v3_path_get_directory_size (sys : Sys) (fd : Int)
    (request : PathGetDirectorySizeRequest) (s : State) : Bool × State :=
  match request.path with
  | none => v3_send_response_invalid sys fd s
  | some path =>
    let exclusions : List String :=
      match request.exclusions with
      | none => []
      | some l => l
    let walk := sys.fts_run path exclusions
    let dsg := DirectorySizeGetter.reach_files walk.2 (DirectorySizeGetter.new exclusions)
    let response :=
      if ¬ walk.1 then
        Payload.PathGetDirectorySizeResponse false (some sys.strerror_errno) none
      else
        Payload.PathGetDirectorySizeResponse true none (some dsg.total)
    v3_send_response sys fd ⟨ResponseType.PathGetDirectorySizeResponse, response⟩
      (s.call (Call.fts_run path exclusions))

/-! ## Multi-boot handlers -/

def v3_mb_get_booted_rom_id (sys : Sys) (fd : Int) (s : State) : Bool × State :=
  let id : Option String :=
    match sys.get_current_rom with
    | none => none
    | some rom => some rom.id
  v3_send_response sys fd
    ⟨ResponseType.MbGetBootedRomIdResponse, Payload.MbGetBootedRomIdResponse id⟩
    (s.call Call.get_current_rom)

/-- The path of `build.prop` that `v3_mb_get_installed_roms` reads for a ROM. -/
def build_prop_path (r : Rom) : String :=
  (if r.system_is_image then "/raw/images/" ++ r.id else r.full_system_path)
    ++ "/build.prop"

/-- The body of the loop over `roms.roms` in `v3_mb_get_installed_roms`. -/
def installed_rom_entry (sys : Sys) (r : Rom) : MbRom :=
  let properties := sys.file_get_all_properties (build_prop_path r)
  { id := r.id,
    system_path := r.full_system_path,
    cache_path := r.full_cache_path,
    data_path := r.full_data_path,
    version := properties.lookup "ro.build.version.release",
    build := properties.lookup "ro.build.display.id" }

def v3_mb_get_installed_roms (sys : Sys) (fd : Int) (s : State) : Bool × State :=
  let roms := sys.add_installed
  let s1 := s.call Call.add_installed
  let s2 : State :=
    { s1 with calls := s1.calls
        ++ roms.map (fun r => Call.file_get_all_properties (build_prop_path r)) }
  v3_send_response sys fd
    ⟨ResponseType.MbGetInstalledRomsResponse,
      Payload.MbGetInstalledRomsResponse (roms.map (installed_rom_entry sys))⟩ s2

def v3_mb_get_version (sys : Sys) (fd : Int) (s : State) : Bool × State :=
  v3_send_response sys fd
    ⟨ResponseType.MbGetVersionResponse, Payload.MbGetVersionResponse sys.get_mbtool_version⟩
    (s.call Call.get_mbtool_version)

def v3_mb_set_kernel (sys : Sys) (fd : Int) (request : MbSetKernelRequest) (s : State) :
    Bool × State :=
  match request.rom_id, request.boot_blockdev with
  | some rom_id, some boot_blockdev =>
    let success := sys.set_kernel rom_id boot_blockdev
    v3_send_response sys fd
      ⟨ResponseType.MbSetKernelResponse, Payload.MbSetKernelResponse success⟩
      (s.call (Call.set_kernel rom_id boot_blockdev))
  | _, _ => v3_send_response_invalid sys fd s

def v3_mb_switch_rom (sys : Sys) (fd : Int) (request : MbSwitchRomRequest) (s : State) :
    Bool × State :=
  match request.rom_id, request.boot_blockdev with
  | some rom_id, some boot_blockdev =>
    let block_dev_dirs : List String :=
      match request.blockdev_base_dirs with
      | none => []
      | some l => l
    let force_update_checksums := request.force_update_checksums
    let ret := sys.switch_rom rom_id boot_blockdev block_dev_dirs force_update_checksums
    let success := decide (ret = SwitchRomResult.SUCCEEDED)
    let fb_ret :=
      match ret with
      | .SUCCEEDED => MbSwitchRomResult.SUCCEEDED
      | .FAILED => MbSwitchRomResult.FAILED
      | .CHECKSUM_NOT_FOUND => MbSwitchRomResult.CHECKSUM_NOT_FOUND
      | .CHECKSUM_INVALID => MbSwitchRomResult.CHECKSUM_INVALID
    v3_send_response sys fd
      ⟨ResponseType.MbSwitchRomResponse, Payload.MbSwitchRomResponse success fb_ret⟩
      (s.call (Call.switch_rom rom_id boot_blockdev block_dev_dirs force_update_checksums))
  | _, _ => v3_send_response_invalid sys fd s

/-- The loop over `request->targets()` of `v3_mb_wipe_rom`, from the target
at position `i` on: the lists `succeeded` and `failed` and the state after the
remaining targets. -/
def wipe_targets (sys : Sys) (rom : Rom) :
    Nat → List Int → List Int → List Int → State → List Int × List Int × State
  | _, [], succeeded, failed, s => (succeeded, failed, s)
  | i, target :: rest, succeeded, failed, s =>
    let r : Bool × State :=
      if target = MbWipeTarget_SYSTEM then
        (sys.wipe_system i rom, s.call (Call.wipe_system rom))
      else if target = MbWipeTarget_CACHE then
        (sys.wipe_cache i rom, s.call (Call.wipe_cache rom))
      else if target = MbWipeTarget_DATA then
        (sys.wipe_data i rom, s.call (Call.wipe_data rom))
      else if target = MbWipeTarget_DALVIK_CACHE then
        (sys.wipe_dalvik_cache i rom, s.call (Call.wipe_dalvik_cache rom))
      else if target = MbWipeTarget_MULTIBOOT then
        (sys.wipe_multiboot i rom, s.call (Call.wipe_multiboot rom))
      else
        (false, s)
    if r.1 then
      wipe_targets sys rom (i + 1) rest (succeeded ++ [target]) failed r.2
    else
      wipe_targets sys rom (i + 1) rest succeeded (failed ++ [target]) r.2

def v3_mb_wipe_rom (sys : Sys) (fd : Int) (request : MbWipeRomRequest) (s : State) :
    Bool × State :=
  match request.rom_id with
  | none => v3_send_response_invalid sys fd s
  | some rom_id =>
    -- Find and verify ROM is installed
    let roms := sys.add_installed
    let s1 := (s.call Call.add_installed).call (Call.find_by_id rom_id)
    match sys.find_by_id roms rom_id with
    | none => v3_send_response_invalid sys fd s1
    | some rom =>
      -- The GUI should check this, but we'll enforce it here
      let s2 := s1.call Call.get_current_rom
      let booted : Bool :=
        match sys.get_current_rom with
        | none => false
        | some current_rom => decide (current_rom.id = rom.id)
      if booted then
        v3_send_response_invalid sys fd s2
      else
        -- Wipe the selected targets
        let r : List Int × List Int × State :=
          match request.targets with
          | none => ([], [], s2)
          | some targets =>
            let raw_system := sys.get_raw_path "/system"
            let s3 := (s2.call (Call.get_raw_path "/system")).call
              (Call.mount "" raw_system "" MS_REMOUNT "")
            wipe_targets sys rom 0 targets [] [] s3
        v3_send_response sys fd
          ⟨ResponseType.MbWipeRomResponse, Payload.MbWipeRomResponse r.1 r.2.1⟩ r.2.2

/-- The loop over `pkgs.pkgs` of `v3_mb_get_packages_count`: the counters
`system_pkgs`, `update_pkgs` and `other_pkgs`, each an `unsigned int`. -/
def count_packages (sys : Sys) : List Package → Nat × Nat × Nat → Nat × Nat × Nat
  | [], c => c
  | pkg :: rest, (system_pkgs, update_pkgs, other_pkgs) =>
    let is_system : Bool :=
      (pkg.pkg_flags &&& sys.FLAG_SYSTEM != 0)
        || (pkg.pkg_public_flags &&& sys.PUBLIC_FLAG_SYSTEM != 0)
    let is_update : Bool :=
      (pkg.pkg_flags &&& sys.FLAG_UPDATED_SYSTEM_APP != 0)
        || (pkg.pkg_public_flags &&& sys.PUBLIC_FLAG_UPDATED_SYSTEM_APP != 0)
    if is_update then
      count_packages sys rest (system_pkgs, (update_pkgs + 1) % 2 ^ 32, other_pkgs)
    else if is_system then
      count_packages sys rest ((system_pkgs + 1) % 2 ^ 32, update_pkgs, other_pkgs)
    else
      count_packages sys rest (system_pkgs, update_pkgs, (other_pkgs + 1) % 2 ^ 32)

def v3_mb_get_packages_count (sys : Sys) (fd : Int)
    (request : MbGetPackagesCountRequest) (s : State) : Bool × State :=
  match request.rom_id with
  | none => v3_send_response_invalid sys fd s
  | some rom_id =>
    -- Find and verify ROM is installed
    let roms := sys.add_installed
    let s1 := (s.call Call.add_installed).call (Call.find_by_id rom_id)
    match sys.find_by_id roms rom_id with
    | none => v3_send_response_invalid sys fd s1
    | some rom =>
      let packages_xml := rom.full_data_path ++ "/system/packages.xml"
      let response :=
        match sys.load_xml packages_xml with
        | some pkgs =>
          let c := count_packages sys pkgs (0, 0, 0)
          Payload.MbGetPackagesCountResponse true (some c.1) (some c.2.1) (some c.2.2)
        | none => Payload.MbGetPackagesCountResponse false none none none
      v3_send_response sys fd ⟨ResponseType.MbGetPackagesCountResponse, response⟩
        (s1.call (Call.load_xml packages_xml))

def v3_reboot (sys : Sys) (fd : Int) (request : RebootRequest) (s : State) :
    Bool × State :=
  let reboot_arg : String :=
    match request.arg with
    | none => ""
    | some arg => arg
  let success := sys.reboot_via_init reboot_arg
  v3_send_response sys fd ⟨ResponseType.RebootResponse, Payload.RebootResponse success⟩
    (s.call (Call.reboot_via_init reboot_arg))

/-! ## The command loop -/

/-- The chain of comparisons on `request->request_type()` in
`connection_version_3`: the handler of the tag, or the unsupported response. -/
def dispatch (sys : Sys) (fd : Int) (request : Request) (s : State) :
    Option (Bool × State) :=
  match request with
  | .FileChmodRequest r => some (v3_file_chmod sys fd r s)
  | .FileCloseRequest r => some (v3_file_close sys fd r s)
  | .FileOpenRequest r => some (v3_file_open sys fd r s)
  | .FileReadRequest r => v3_file_read sys fd r s
  | .FileSeekRequest r => some (v3_file_seek sys fd r s)
  | .FileSELinuxGetLabelRequest r => some (v3_file_selinux_get_label sys fd r s)
  | .FileSELinuxSetLabelRequest r => some (v3_file_selinux_set_label sys fd r s)
  | .FileStatRequest r => some (v3_file_stat sys fd r s)
  | .FileWriteRequest r => some (v3_file_write sys fd r s)
  | .PathChmodRequest r => some (v3_path_chmod sys fd r s)
  | .PathCopyRequest r => some (v3_path_copy sys fd r s)
  | .PathSELinuxGetLabelRequest r => some (v3_path_selinux_get_label sys fd r s)
  | .PathSELinuxSetLabelRequest r => v3_path_selinux_set_label sys fd r s
  | .PathGetDirectorySizeRequest r => some (v3_path_get_directory_size sys fd r s)
  | .MbGetBootedRomIdRequest => some (v3_mb_get_booted_rom_id sys fd s)
  | .MbGetInstalledRomsRequest => some (v3_mb_get_installed_roms sys fd s)
  | .MbGetVersionRequest => some (v3_mb_get_version sys fd s)
  | .MbSetKernelRequest r => some (v3_mb_set_kernel sys fd r s)
  | .MbSwitchRomRequest r => some (v3_mb_switch_rom sys fd r s)
  | .MbWipeRomRequest r => some (v3_mb_wipe_rom sys fd r s)
  | .MbGetPackagesCountRequest r => some (v3_mb_get_packages_count sys fd r s)
  | .RebootRequest r => some (v3_reboot sys fd r s)
  | .Other _ =>
    -- Invalid command; allow further commands
    some (v3_send_response_unsupported sys fd s)

/-- What `socket_read_bytes` delivers: a buffer that `VerifyRequestBuffer`
rejects, or a verified request. -/
inductive Incoming where
  | invalid_buffer
  | request (r : Request)
deriving DecidableEq, Repr

/-- One round of the loop: the message read and the answers of the system
while it is served. -/
structure Step where
  incoming : Incoming
  sys : Sys

/-- The `finally` block `close_all_fds`: every descriptor left in `fd_map`
is closed and the map is cleared.  The order in which an `unordered_map` is
iterated is unspecified; the entries are taken in the order of the list. -/
def close_all_fds (s : State) : State :=
  { s with calls := s.calls ++ s.fd_map.map (fun p => Call.close p.2),
           fd_map := [] }

/-- The loop of `connection_version_3`.  The list holds the messages that
`socket_read_bytes` delivers; once it is used up the read fails (the peer
has closed the stream).  Whenever the function returns, `close_all_fds` runs.
The result is `none` when a handler dereferences a null pointer or lets an
exception escape: the process is aborted and the function does not return. -/
def connection_version_3 (fd : Int) : List Step → State → Option (Bool × State)
  | [], s => some (false, close_all_fds s)
  | step :: rest, s =>
    match step.incoming with
    | .invalid_buffer => some (false, close_all_fds s)
    | .request request =>
      match dispatch step.sys fd request s with
      | none => none
      | some (ret, s1) =>
        if ret then connection_version_3 fd rest s1
        else some (false, close_all_fds s1)

/-! ## Reading the call log -/

/-- The descriptor a successful `open()` returned (`ffd >= 0`). -/
def Call.opened : Call → Option Int
  | .open_ _ _ _ ret => if 0 ≤ ret then some ret else none
  | _ => none

/-- The descriptor passed to `close()`. -/
def Call.closed : Call → Option Int
  | .close ffd => some ffd
  | _ => none

/-- The id carried by a written `FileOpenResponse` with `success = true`. -/
def Call.opened_id : Call → Option Int
  | .socket_write_bytes _ ⟨_, .FileOpenResponse true _ (some id)⟩ => some id
  | _ => none

/-- The descriptors returned by the successful `open()` calls of a log, in
order. -/
def opened_fds (calls : List Call) : List Int :=
  calls.filterMap Call.opened

/-- The descriptors passed to `close()` in a log, in order. -/
def closed_fds (calls : List Call) : List Int :=
  calls.filterMap Call.closed

/-- The ids handed out by the successful open responses of a log, in order. -/
def opened_ids (calls : List Call) : List Int :=
  calls.filterMap Call.opened_id

/-- A step from `s` to `s1` that leaves `fd_map` and `fd_count` alone and
whose calls neither open nor close a descriptor nor hand out an id. -/
def Quiet (s s1 : State) : Prop :=
  s1.fd_map = s.fd_map ∧ s1.fd_count = s.fd_count ∧
  ∃ extra : List Call, s1.calls = s.calls ++ extra ∧
    opened_fds extra = [] ∧ closed_fds extra = [] ∧ opened_ids extra = []

/-- What one handler run does to the descriptor table: nothing, one
successful open, or one close of a known handle. -/
def Effect (s s1 : State) : Prop :=
  Quiet s s1 ∨
  (∃ ffd : Int, ∃ extra : List Call, 0 ≤ ffd ∧
    s1.fd_map = unordered_map.set s.fd_map s.fd_count ffd ∧
    s1.fd_count = wrap_int (s.fd_count + 1) ∧
    s1.calls = s.calls ++ extra ∧
    opened_fds extra = [ffd] ∧ closed_fds extra = [] ∧ opened_ids extra = [s.fd_count]) ∨
  (∃ id ffd : Int, ∃ extra : List Call,
    unordered_map.find s.fd_map id = some ffd ∧
    s1.fd_map = unordered_map.erase s.fd_map id ∧
    s1.fd_count = s.fd_count ∧
    s1.calls = s.calls ++ extra ∧
    opened_fds extra = [] ∧ closed_fds extra = [ffd] ∧ opened_ids extra = [])

/-! ## A concrete system for evaluating the handlers -/

/-- A system in which every call succeeds: writes to the socket go through,
`open` returns descriptor `3`, reads return no data, no ROM is installed. -/
def Sys.quiet : Sys :=
  { socket_write_bytes := fun _ _ => true,
    strerror_errno := "Success",
    fchmod := fun _ _ => 0,
    close := fun _ => 0,
    open_ := fun _ _ _ => 3,
    vector_alloc := fun _ => true,
    read := fun _ _ => (0, []),
    lseek := fun _ offset _ => (offset, 0),
    fstat := fun _ => (0, ⟨0, 0, 0, 0, 0, 0, 0, 0, 0, 0, 0, 0, 0⟩),
    write := fun _ data => data.length,
    chmod := fun _ _ => 0,
    selinux_fget_context := fun _ => some "u:object_r:unlabeled:s0",
    selinux_fset_context := fun _ _ => true,
    selinux_get_context := fun _ => some "u:object_r:unlabeled:s0",
    selinux_lget_context := fun _ => some "u:object_r:unlabeled:s0",
    selinux_set_context := fun _ _ => true,
    selinux_lset_context := fun _ _ => true,
    copy_contents := fun _ _ => true,
    fts_run := fun _ _ => (true, []),
    get_current_rom := none,
    add_installed := [],
    find_by_id := fun _ _ => none,
    file_get_all_properties := fun _ => [],
    get_mbtool_version := "8.0.0",
    set_kernel := fun _ _ => true,
    switch_rom := fun _ _ _ _ => SwitchRomResult.SUCCEEDED,
    get_raw_path := fun p => "/raw" ++ p,
    mount := fun _ _ _ _ _ => 0,
    wipe_system := fun _ _ => true,
    wipe_cache := fun _ _ => true,
    wipe_data := fun _ _ => true,
    wipe_dalvik_cache := fun _ _ => true,
    wipe_multiboot := fun _ _ => true,
    load_xml := fun _ => none,
    reboot_via_init := fun _ => true,
    FLAG_SYSTEM := 1,
    FLAG_UPDATED_SYSTEM_APP := 128,
    PUBLIC_FLAG_SYSTEM := 1,
    PUBLIC_FLAG_UPDATED_SYSTEM_APP := 128 }

/-- The quiet system, except that every system call on a descriptor or path
fails with a negative result and every write to the socket fails. -/
def Sys.failing : Sys :=
  { Sys.quiet with
    socket_write_bytes := fun _ _ => false,
    strerror_errno := "Input/output error",
    fchmod := fun _ _ => -1,
    close := fun _ => -1,
    open_ := fun _ _ _ => -1,
    read := fun _ _ => (-1, []),
    lseek := fun _ _ _ => (-1, 5),
    fstat := fun _ => (-1, ⟨0, 0, 0, 0, 0, 0, 0, 0, 0, 0, 0, 0, 0⟩),
    write := fun _ _ => -1,
    chmod := fun _ _ => -1,
    selinux_fget_context := fun _ => none,
    selinux_fset_context := fun _ _ => false }

/-- The invariant of the command loop, stated against the call log: with
`n` the number of successful `open()` calls so far, `fd_count` is `n` (as an
`int`), the ids handed out are `0, …, n - 1` in this order, the keys of
`fd_map` are distinct and below `n`, and the descriptors in `fd_map` together
with the descriptors already closed are the descriptors opened. -/
def TableInv (s : State) : Prop :=
  s.fd_count = wrap_int (opened_fds s.calls).length ∧
  opened_ids s.calls = (List.range (opened_fds s.calls).length).map Int.ofNat ∧
  (s.fd_map.map Prod.fst).Nodup ∧
  (∀ k ∈ s.fd_map.map Prod.fst, 0 ≤ k ∧ k < ((opened_fds s.calls).length : Int)) ∧
  List.Perm (s.fd_map.map Prod.snd ++ closed_fds s.calls) (opened_fds s.calls)

/-- The quiet system with `open()` returning the descriptor `ffd`. -/
def Sys.opening (ffd : Int) : Sys :=
  { Sys.quiet with open_ := fun _ _ _ => ffd }

/-- A session: two opens, a close of handle `0`, a third open, then a buffer
that fails verification. -/
def example_session : List Step :=
  [ ⟨.request (.FileOpenRequest ⟨some "/data/a", some [FileOpenFlag_RDONLY], 0⟩), Sys.opening 3⟩,
    ⟨.request (.FileOpenRequest ⟨some "/data/b", none, 0⟩), Sys.opening 4⟩,
    ⟨.request (.FileCloseRequest ⟨0⟩), Sys.quiet⟩,
    ⟨.request (.FileOpenRequest ⟨some "/data/c", none, 0⟩), Sys.opening 5⟩,
    ⟨.invalid_buffer, Sys.quiet⟩ ]


/-- The state `connection_version_3` returns with after `example_session`. -/
def example_final : State :=
  { fd_map := [],
    fd_count := 3,
    calls :=
      [Call.open_ "/data/a" O_CLOEXEC 0 3,
        Call.socket_write_bytes 9
          ⟨.FileOpenResponse, .FileOpenResponse true none (some 0)⟩,
        Call.open_ "/data/b" O_CLOEXEC 0 4,
        Call.socket_write_bytes 9
          ⟨.FileOpenResponse, .FileOpenResponse true none (some 1)⟩,
        Call.close 3,
        Call.socket_write_bytes 9 ⟨.FileCloseResponse, .FileCloseResponse true none⟩,
        Call.open_ "/data/c" O_CLOEXEC 0 5,
        Call.socket_write_bytes 9
          ⟨.FileOpenResponse, .FileOpenResponse true none (some 2)⟩,
        Call.close 5,
        Call.close 4] }

/-- A session: an open, then a read of `2 ^ 63` bytes from the handle it
returned. -/
def aborting_session : List Step :=
  [⟨.request (.FileOpenRequest ⟨some "/data/f", none, 0⟩), Sys.quiet⟩,
    ⟨.request (.FileReadRequest ⟨0, 2 ^ 63⟩), Sys.quiet⟩]

/-! ## Responses in the call log -/

/-- The response a call writes to the socket, if the call is such a write. -/
def Call.response : Call → Option Response
  | .socket_write_bytes _ response => some response
  | _ => none

/-- The responses written to the socket in a log, in order. -/
def responses (calls : List Call) : List Response :=
  calls.filterMap Call.response

/-- A step from `s` to `s1` that only appends calls to the log, none of them
a write to the socket. -/
def Silent (s s1 : State) : Prop :=
  ∃ extra : List Call, s1.calls = s.calls ++ extra ∧ responses extra = []

/-- A handler run from `s` with result `r` that appends calls to the log of
which exactly the last is a write to the socket, and returns what that write
returned. -/
def OneResponse (sys : Sys) (fd : Int) (s : State) (r : Bool × State) : Prop :=
  ∃ (extra : List Call) (response : Response),
    r.2.calls = s.calls ++ extra ++ [Call.socket_write_bytes fd response] ∧
    responses extra = [] ∧
    r.1 = sys.socket_write_bytes fd response

/-- Two requests with tags the dispatcher does not list, each served by the
quiet system. -/
def unsupported_session : List Step :=
  [⟨.request (.Other 99), Sys.quiet⟩, ⟨.request (.Other 1000), Sys.quiet⟩]

/-! ## The open flags, in the words of the specification -/

/-- The OS flag of a portable open flag; a value that is none of the seven
portable flags contributes no bit. -/
def os_open_flag (openflag : Int) : Nat :=
  if openflag = FileOpenFlag_APPEND then O_APPEND
  else if openflag = FileOpenFlag_CREAT then O_CREAT
  else if openflag = FileOpenFlag_EXCL then O_EXCL
  else if openflag = FileOpenFlag_RDONLY then O_RDONLY
  else if openflag = FileOpenFlag_RDWR then O_RDWR
  else if openflag = FileOpenFlag_TRUNC then O_TRUNC
  else if openflag = FileOpenFlag_WRONLY then O_WRONLY
  else 0

/-- The flags of `open()` as the specification words them: `O_CLOEXEC` OR-ed
with the OS flag of each entry of the list; an absent list is an empty
list. -/
def portable_open_flags (flags : Option (List Int)) : Nat :=
  ((flags.getD []).map os_open_flag).foldl (fun acc x => acc ||| x) O_CLOEXEC

/-! ## The traversal engine -/

/-- Modelled from the spec: the classification of an entry the traversal
engine reports (`util/fts.h` and the engine itself are absent): directory
before descent, directory after descent, regular file, symbolic link, block
device, character device, FIFO, socket. -/
inductive FtsInfo where
  | D
  | DP
  | F
  | SL
  | BLK
  | CHR
  | FIFO
  | SOCK
deriving DecidableEq, Repr

/-- Modelled from the spec: the PathVisitor contract of `FTSWrapper`
(`util/fts.h` is absent), the callbacks a concrete operation implements.
Every per-entry callback is given the root entry of the walk (`_root`) and the
current entry (`_curr`) and returns a combination of `Action` bits. -/
structure PathVisitor (σ ε : Type) where
  on_pre_execute : σ → Bool × σ
  on_changed_path : ε → ε → σ → Nat × σ
  on_reached_directory_pre : ε → ε → σ → Nat × σ
  on_reached_directory_post : ε → ε → σ → Nat × σ
  on_reached_file : ε → ε → σ → Nat × σ
  on_reached_symlink : ε → ε → σ → Nat × σ
  on_reached_block_device : ε → ε → σ → Nat × σ
  on_reached_character_device : ε → ε → σ → Nat × σ
  on_reached_fifo : ε → ε → σ → Nat × σ
  on_reached_socket : ε → ε → σ → Nat × σ

/-- Modelled from the spec: the state of a walk of the traversal engine: the
visitor, the outcome so far, the depth of the directory whose subtree is being
skipped (if any), and whether a callback has asked to stop. -/
structure WalkState (σ : Type) where
  visitor : σ
  ret : Bool
  skip : Option Int
  stopped : Bool

namespace FTSWrapper

variable {σ ε : Type}

/-- Modelled from the spec: the callback that matches the classification of
the entry. -/
def visit (v : PathVisitor σ ε) (root : ε) (info : FtsInfo) (curr : ε) (st : σ) :
    Nat × σ :=
  match info with
  | .D => v.on_reached_directory_pre root curr st
  | .DP => v.on_reached_directory_post root curr st
  | .F => v.on_reached_file root curr st
  | .SL => v.on_reached_symlink root curr st
  | .BLK => v.on_reached_block_device root curr st
  | .CHR => v.on_reached_character_device root curr st
  | .FIFO => v.on_reached_fifo root curr st
  | .SOCK => v.on_reached_socket root curr st

/-- Modelled from the spec: what the engine does at an entry that is not
being skipped: the changed-path callback, then the callback of the entry's
kind.  Fail marks the outcome as failed and the walk goes on, stop aborts the
walk, skip leaves the entry out and, at a directory before descent, prunes its
subtree. -/
def process (v : PathVisitor σ ε) (level : ε → Int) (root : ε) (w : WalkState σ)
    (ev : FtsInfo × ε) : WalkState σ :=
  let a := v.on_changed_path root ev.2 w.visitor
  let w1 : WalkState σ :=
    { w with visitor := a.2, ret := w.ret && decide (a.1 &&& Action.FTS_Fail = 0) }
  if a.1 &&& Action.FTS_Stop ≠ 0 then
    { w1 with stopped := true }
  else if a.1 &&& Action.FTS_Skip ≠ 0 then
    if ev.1 = FtsInfo.D then { w1 with skip := some (level ev.2) } else w1
  else
    let b := visit v root ev.1 ev.2 w1.visitor
    let w2 : WalkState σ :=
      { w1 with visitor := b.2, ret := w1.ret && decide (b.1 &&& Action.FTS_Fail = 0) }
    if b.1 &&& Action.FTS_Stop ≠ 0 then
      { w2 with stopped := true }
    else if b.1 &&& Action.FTS_Skip ≠ 0 ∧ ev.1 = FtsInfo.D then
      { w2 with skip := some (level ev.2) }
    else
      w2

/-- Modelled from the spec: one entry of the walk.  After a stop nothing is
visited; below a skipped directory nothing is visited and the directory's
post-descent entry fires no callback. -/
def step (v : PathVisitor σ ε) (level : ε → Int) (root : ε) (w : WalkState σ)
    (ev : FtsInfo × ε) : WalkState σ :=
  if w.stopped then w
  else
    match w.skip with
    | some k =>
      if k < level ev.2 then w
      else if level ev.2 = k ∧ ev.1 = FtsInfo.DP then { w with skip := none }
      else process v level root { w with skip := none } ev
    | none => process v level root w ev

/-- Modelled from the spec: `FTSWrapper::run`.  `entries` is the depth-first
sequence of the entries of the subtree, a directory appearing before and after
its contents, the root first.  `on_pre_execute` runs once before anything
else; when it fails the walk never begins and the outcome is failure. -/
def run (v : PathVisitor σ ε) (level : ε → Int) (entries : List (FtsInfo × ε)) (st : σ) :
    Bool × σ :=
  let p := v.on_pre_execute st
  if p.1 then
    match entries with
    | [] => (true, p.2)
    | (info, root) :: rest =>
      let w := ((info, root) :: rest).foldl (step v level root) ⟨p.2, true, none, false⟩
      (w.ret, w.visitor)
  else
    (false, p.2)

end FTSWrapper

/-- Modelled from the spec: `DirectorySizeGetter` as a visitor of the
traversal engine; the callbacks it does not override are those of
`FTSWrapper` (absent), which do nothing and return `FTS_OK`. -/
def DirectorySizeGetter.visitor : PathVisitor DirectorySizeGetter FTSENT :=
  { on_pre_execute := fun g => (true, g),
    on_changed_path := fun _ curr g => DirectorySizeGetter.on_changed_path curr g,
    on_reached_directory_pre := fun _ _ g => (Action.FTS_OK, g),
    on_reached_directory_post := fun _ _ g => (Action.FTS_OK, g),
    on_reached_file := fun _ curr g => DirectorySizeGetter.on_reached_file curr g,
    on_reached_symlink := fun _ _ g => (Action.FTS_OK, g),
    on_reached_block_device := fun _ _ g => (Action.FTS_OK, g),
    on_reached_character_device := fun _ _ g => (Action.FTS_OK, g),
    on_reached_fifo := fun _ _ g => (Action.FTS_OK, g),
    on_reached_socket := fun _ _ g => (Action.FTS_OK, g) }

/-- A walk of `DirectorySizeGetter` over the given entries. -/
def DirectorySizeGetter.run (entries : List (FtsInfo × FTSENT))
    (g : DirectorySizeGetter) : Bool × DirectorySizeGetter :=
  FTSWrapper.run DirectorySizeGetter.visitor (fun e => e.fts_level) entries g

/-- The tree of the spec: a root holding `cache/bigfile` and
`data/smallfile`, and below `data` a directory that is also named `cache`,
holding `deep`. -/
def example_tree : List (FtsInfo × FTSENT) :=
  [ (.D, ⟨0, "root", 1, 10, 4096⟩),
    (.D, ⟨1, "cache", 1, 11, 4096⟩),
    (.F, ⟨2, "bigfile", 1, 12, 1000000⟩),
    (.DP, ⟨1, "cache", 1, 11, 4096⟩),
    (.D, ⟨1, "data", 1, 13, 4096⟩),
    (.F, ⟨2, "smallfile", 1, 14, 7⟩),
    (.D, ⟨2, "cache", 1, 15, 4096⟩),
    (.F, ⟨3, "deep", 1, 16, 30⟩),
    (.DP, ⟨2, "cache", 1, 15, 4096⟩),
    (.DP, ⟨1, "data", 1, 13, 4096⟩),
    (.DP, ⟨0, "root", 1, 10, 4096⟩) ]

/-! ## `mbtool/util`: system interface -/

/-- The entry `_curr` (or `_root`) of a walk with the fields the visitors of
`mbtool/util` read: `fts_path`, `fts_accpath`, `fts_name`, `fts_level` and the
`struct stat` behind `fts_statp`.  A character of a path stands for one
byte. -/
structure FTSEntry where
  fts_path : String
  fts_accpath : String
  fts_name : String
  fts_level : Int
  fts_statp : StructStat
deriving DecidableEq, Repr

/-- Answers of the operating system, and of the functions of `mbtool/util`
that are used here as a whole, to the calls made by the code of
`mbtool/util`.  Every field is the result the named function returns for the
given arguments; a pair holds the return value and the value of `errno`
afterwards, or the return value and the structure filled in. -/
structure Fs where
  strerror_errno : String
  mkdir : String → Nat → Int × Int
  stat : String → Int × StructStat
  lstat : String → Int × StructStat
  chown : String → Nat → Nat → Int
  lchown : String → Nat → Nat → Int
  chmod : String → Nat → Int
  unlink : String → Int × Int
  symlink : String → String → Int
  mknod : String → Nat → Nat → Int
  mkfifo : String → Nat → Int
  /-- The result of `copy_data(source, target)`. -/
  copy_data : String → String → Bool
  /-- The result of `copy_xattrs(source, target)`. -/
  copy_xattrs : String → String → Bool
  /-- The result of `read_link(path, &out)`: the link target on success. -/
  read_link : String → Option String
  selinux_set_context : String → String → Bool
  selinux_lset_context : String → String → Bool
  loopdev_find_unused : String
  loopdev_set_up_device : String → String → Nat → Bool → Bool
  loopdev_remove_device : String → Bool
  mount : String → String → String → Nat → String → Int

/-- One entry of the call log of `mbtool/util`: the function called and its
arguments. -/
inductive FsCall where
  | mkdir (path : String) (mode : Nat)
  | stat (path : String)
  | lstat (path : String)
  | chown (path : String) (uid : Nat) (gid : Nat)
  | lchown (path : String) (uid : Nat) (gid : Nat)
  | chmod (path : String) (mode : Nat)
  | unlink (path : String)
  | symlink (target : String) (linkpath : String)
  | mknod (path : String) (mode : Nat) (dev : Nat)
  | mkfifo (path : String) (mode : Nat)
  | copy_data (source : String) (target : String)
  | copy_xattrs (source : String) (target : String)
  | read_link (path : String)
  | selinux_set_context (path : String) (context : String)
  | selinux_lset_context (path : String) (context : String)
  | loopdev_find_unused
  | loopdev_set_up_device (loopdev : String) (file : String) (offset : Nat) (ro : Bool)
  | loopdev_remove_device (loopdev : String)
  | mount (source : String) (target : String) (fstype : String)
      (mount_flags : Nat) (data : String)
deriving DecidableEq, Repr

/-! ## Platform constants of `mbtool/util` (Linux) -/

def S_ISUID : Nat := 0o4000
def S_ISGID : Nat := 0o2000
def S_ISVTX : Nat := 0o1000

def S_IFMT : Nat := 0o170000
def S_IFSOCK : Nat := 0o140000
def S_IFLNK : Nat := 0o120000
def S_IFREG : Nat := 0o100000
def S_IFBLK : Nat := 0o060000
def S_IFDIR : Nat := 0o040000
def S_IFCHR : Nat := 0o020000
def S_IFIFO : Nat := 0o010000

def S_ISLNK (m : Nat) : Bool := m &&& S_IFMT == S_IFLNK
def S_ISREG (m : Nat) : Bool := m &&& S_IFMT == S_IFREG
def S_ISDIR (m : Nat) : Bool := m &&& S_IFMT == S_IFDIR
def S_ISBLK (m : Nat) : Bool := m &&& S_IFMT == S_IFBLK

def ENOENT : Int := 2
def EEXIST : Int := 17

def MS_RDONLY : Nat := 1
def MS_BIND : Nat := 4096
def MS_MOVE : Nat := 8192

namespace util

/-! ## `util/copy.h`, `util/chown.h` -/

def COPY_ATTRIBUTES : Nat := 0x1
def COPY_XATTRS : Nat := 0x2
def COPY_EXCLUDE_TOP_LEVEL : Nat := 0x4
def COPY_FOLLOW_SYMLINKS : Nat := 0x8

def CHOWN_FOLLOW_SYMLINKS : Nat := 0x1
def CHOWN_RECURSIVE : Nat := 0x2

/-! ## `util/copy.cpp` -/

/-- The function `copy_stat`: the result and the log after it. -/
def copy_stat (fs : Fs) (source target : String) (log : List FsCall) :
    Bool × List FsCall :=
  let r := fs.lstat source
  let sb := r.2
  let log1 := log ++ [FsCall.lstat source]
  if r.1 < 0 then
    (false, log1)
  else
    let log2 := log1 ++ [FsCall.lchown target sb.st_uid sb.st_gid]
    if fs.lchown target sb.st_uid sb.st_gid < 0 then
      (false, log2)
    else if ¬ S_ISLNK sb.st_mode then
      let mode := sb.st_mode &&&
        (S_ISUID ||| S_ISGID ||| S_ISVTX ||| S_IRWXU ||| S_IRWXG ||| S_IRWXO)
      let log3 := log2 ++ [FsCall.chmod target mode]
      if fs.chmod target mode < 0 then (false, log3) else (true, log3)
    else
      (true, log2)

/-- The members of `RecursiveCopier` (with `_path` and `_error_msg` of
`FTSWrapper`), and the log of the calls made so far. -/
structure RecursiveCopier where
  _path : String
  _copyflags : Nat
  _target : String
  sb_target : StructStat
  _curtgtpath : String
  _error_msg : String
  calls : List FsCall
deriving DecidableEq, Repr

namespace RecursiveCopier

/-- The constructor `RecursiveCopier(path, target, copyflags)`. -/
def new (path target : String) (copyflags : Nat) : RecursiveCopier :=
  { _path := path, _copyflags := copyflags, _target := target,
    sb_target := ⟨0, 0, 0, 0, 0, 0, 0, 0, 0, 0, 0, 0, 0⟩,
    _curtgtpath := "", _error_msg := "", calls := [] }

/-- Append one entry to the call log. -/
def call (c : RecursiveCopier) (x : FsCall) : RecursiveCopier :=
  { c with calls := c.calls ++ [x] }

def on_pre_execute (fs : Fs) (c : RecursiveCopier) : Bool × RecursiveCopier :=
  -- This is almost *never* useful, so we won't allow it
  if c._copyflags &&& COPY_FOLLOW_SYMLINKS ≠ 0 then
    (false,
      { c with _error_msg := "COPY_FOLLOW_SYMLINKS not allowed for recursive copies" })
  else
    -- Create the target directory if it doesn't exist
    let r := fs.mkdir c._target (S_IRWXU ||| S_IRWXG ||| S_IRWXO)
    let c1 := c.call (FsCall.mkdir c._target (S_IRWXU ||| S_IRWXG ||| S_IRWXO))
    if r.1 < 0 ∧ r.2 ≠ EEXIST then
      (false,
        { c1 with _error_msg :=
            c._target ++ ": Failed to create directory: " ++ fs.strerror_errno })
    else
      -- Ensure target is a directory
      let st := fs.stat c._target
      let c2 := c1.call (FsCall.stat c._target)
      if st.1 < 0 then
        (false,
          { c2 with _error_msg := c._target ++ ": Failed to stat: " ++ fs.strerror_errno })
      else
        let c3 : RecursiveCopier := { c2 with sb_target := st.2 }
        if ¬ S_ISDIR st.2.st_mode then
          (false,
            { c3 with _error_msg :=
                c._target ++ ": Target exists but is not a directory" })
        else
          (true, c3)

/-- The last character of a string (`std::string::back`), NUL for the empty
string. -/
def back (s : String) : Char :=
  s.data.getLastD (Char.ofNat 0)

/-- The character a C string pointer points at: the first character, or the
terminating NUL. -/
def deref (s : String) : Char :=
  s.data.headD (Char.ofNat 0)

def on_changed_path (root curr : FTSEntry) (c : RecursiveCopier) : Nat × RecursiveCopier :=
  -- Make sure we aren't copying the target on top of itself
  if c.sb_target.st_dev = curr.fts_statp.st_dev
      ∧ c.sb_target.st_ino = curr.fts_statp.st_ino then
    (Action.FTS_Fail ||| Action.FTS_Stop,
      { c with _error_msg := curr.fts_path ++ ": Cannot copy on top of itself" })
  else
    let relpath : String := ⟨curr.fts_path.data.drop c._path.length⟩
    let t0 := c._target
    let t1 :=
      if c._copyflags &&& COPY_EXCLUDE_TOP_LEVEL = 0 then
        (if back t0 ≠ '/' then t0 ++ "/" else t0) ++ root.fts_name
      else t0
    let t2 :=
      if back t1 ≠ '/' ∧ deref relpath ≠ '/' ∧ deref relpath ≠ Char.ofNat 0 then t1 ++ "/"
      else t1
    (Action.FTS_OK, { c with _curtgtpath := t2 ++ relpath })

def remove_existing_file (fs : Fs) (c : RecursiveCopier) : Bool × RecursiveCopier :=
  -- Remove existing file
  let r := fs.unlink c._curtgtpath
  let c1 := c.call (FsCall.unlink c._curtgtpath)
  if r.1 < 0 ∧ r.2 ≠ ENOENT then
    (false,
      { c1 with _error_msg :=
          c._curtgtpath ++ ": Failed to remove old path: " ++ fs.strerror_errno })
  else
    (true, c1)

def cp_attrs (fs : Fs) (curr : FTSEntry) (c : RecursiveCopier) : Bool × RecursiveCopier :=
  if c._copyflags &&& COPY_ATTRIBUTES ≠ 0 then
    let r := copy_stat fs curr.fts_accpath c._curtgtpath c.calls
    let c1 : RecursiveCopier := { c with calls := r.2 }
    if ¬ r.1 then
      (false,
        { c1 with _error_msg :=
            c._curtgtpath ++ ": Failed to copy attributes: " ++ fs.strerror_errno })
    else
      (true, c1)
  else
    (true, c)

def cp_xattrs (fs : Fs) (curr : FTSEntry) (c : RecursiveCopier) : Bool × RecursiveCopier :=
  if c._copyflags &&& COPY_XATTRS ≠ 0 then
    let c1 := c.call (FsCall.copy_xattrs curr.fts_accpath c._curtgtpath)
    if ¬ fs.copy_xattrs curr.fts_accpath c._curtgtpath then
      (false,
        { c1 with _error_msg :=
            c._curtgtpath ++ ": Failed to copy xattrs: " ++ fs.strerror_errno })
    else
      (true, c1)
  else
    (true, c)

/-- The common tail of the callbacks: `cp_attrs()`, then `cp_xattrs()`, each
returning `FTS_Fail` at once when it fails. -/
def cp_attrs_xattrs (fs : Fs) (curr : FTSEntry) (c : RecursiveCopier) :
    Nat × RecursiveCopier :=
  let a := cp_attrs fs curr c
  if ¬ a.1 then (Action.FTS_Fail, a.2)
  else
    let x := cp_xattrs fs curr a.2
    if ¬ x.1 then (Action.FTS_Fail, x.2)
    else (Action.FTS_OK, x.2)

def on_reached_directory_pre (fs : Fs) (curr : FTSEntry) (c : RecursiveCopier) :
    Nat × RecursiveCopier :=
  -- Create target directory if it doesn't exist
  let r := fs.mkdir c._curtgtpath (S_IRWXU ||| S_IRWXG ||| S_IRWXO)
  let c1 := c.call (FsCall.mkdir c._curtgtpath (S_IRWXU ||| S_IRWXG ||| S_IRWXO))
  let mkdir_failed : Bool := decide (r.1 < 0 ∧ r.2 ≠ EEXIST)
  let c2 : RecursiveCopier :=
    if mkdir_failed then
      { c1 with _error_msg :=
          c._curtgtpath ++ ": Failed to create directory: " ++ fs.strerror_errno }
    else c1
  let success1 : Bool := !mkdir_failed
  let skip1 : Bool := mkdir_failed
  -- Ensure target path is a directory
  let st := fs.stat c._curtgtpath
  let c3 := if skip1 then c2 else c2.call (FsCall.stat c._curtgtpath)
  let not_dir : Bool := !skip1 && decide (st.1 = 0) && !S_ISDIR st.2.st_mode
  let c4 : RecursiveCopier :=
    if not_dir then
      { c3 with _error_msg := c._curtgtpath ++ ": Exists but is not a directory" }
    else c3
  let success2 : Bool := success1 && !not_dir
  let skip2 : Bool := skip1 || not_dir
  -- If we're skipping, then we have to set the attributes now, since
  -- on_reached_directory_post() won't be called
  let a := if skip2 then cp_attrs fs curr c4 else (true, c4)
  let x := if skip2 then cp_xattrs fs curr a.2 else (true, a.2)
  let success3 : Bool := success2 && a.1 && x.1
  ((if skip2 then Action.FTS_Skip else 0)
    ||| (if success3 then Action.FTS_OK else Action.FTS_Fail), x.2)

def on_reached_directory_post (fs : Fs) (curr : FTSEntry) (c : RecursiveCopier) :
    Nat × RecursiveCopier :=
  cp_attrs_xattrs fs curr c

def on_reached_file (fs : Fs) (curr : FTSEntry) (c : RecursiveCopier) :
    Nat × RecursiveCopier :=
  let r := remove_existing_file fs c
  if ¬ r.1 then (Action.FTS_Fail, r.2)
  else
    -- Copy file contents
    let c1 := r.2.call (FsCall.copy_data curr.fts_accpath c._curtgtpath)
    if ¬ fs.copy_data curr.fts_accpath c._curtgtpath then
      (Action.FTS_Fail,
        { c1 with _error_msg :=
            c._curtgtpath ++ ": Failed to copy data: " ++ fs.strerror_errno })
    else
      cp_attrs_xattrs fs curr c1

def on_reached_symlink (fs : Fs) (curr : FTSEntry) (c : RecursiveCopier) :
    Nat × RecursiveCopier :=
  let r := remove_existing_file fs c
  if ¬ r.1 then (Action.FTS_Fail, r.2)
  else
    -- Find current symlink target
    let c1 := r.2.call (FsCall.read_link curr.fts_accpath)
    match fs.read_link curr.fts_accpath with
    | none =>
      (Action.FTS_Fail,
        { c1 with _error_msg :=
            curr.fts_accpath ++ ": Failed to read symlink path: " ++ fs.strerror_errno })
    | some symlink_path =>
      -- Create new symlink
      let c2 := c1.call (FsCall.symlink symlink_path c._curtgtpath)
      if fs.symlink symlink_path c._curtgtpath < 0 then
        (Action.FTS_Fail,
          { c2 with _error_msg :=
              c._curtgtpath ++ ": Failed to create symlink: " ++ fs.strerror_errno })
      else
        cp_attrs_xattrs fs curr c2

def on_reached_block_device (fs : Fs) (curr : FTSEntry) (c : RecursiveCopier) :
    Nat × RecursiveCopier :=
  let r := remove_existing_file fs c
  if ¬ r.1 then (Action.FTS_Fail, r.2)
  else
    let c1 := r.2.call
      (FsCall.mknod c._curtgtpath (S_IFBLK ||| S_IRWXU) curr.fts_statp.st_rdev)
    if fs.mknod c._curtgtpath (S_IFBLK ||| S_IRWXU) curr.fts_statp.st_rdev < 0 then
      (Action.FTS_Fail,
        { c1 with _error_msg :=
            c._curtgtpath ++ ": Failed to create block device: " ++ fs.strerror_errno })
    else
      cp_attrs_xattrs fs curr c1

def on_reached_character_device (fs : Fs) (curr : FTSEntry) (c : RecursiveCopier) :
    Nat × RecursiveCopier :=
  let r := remove_existing_file fs c
  if ¬ r.1 then (Action.FTS_Fail, r.2)
  else
    let c1 := r.2.call
      (FsCall.mknod c._curtgtpath (S_IFCHR ||| S_IRWXU) curr.fts_statp.st_rdev)
    if fs.mknod c._curtgtpath (S_IFCHR ||| S_IRWXU) curr.fts_statp.st_rdev < 0 then
      (Action.FTS_Fail,
        { c1 with _error_msg :=
            c._curtgtpath ++ ": Failed to create character device: "
              ++ fs.strerror_errno })
    else
      cp_attrs_xattrs fs curr c1

def on_reached_fifo (fs : Fs) (curr : FTSEntry) (c : RecursiveCopier) :
    Nat × RecursiveCopier :=
  let r := remove_existing_file fs c
  if ¬ r.1 then (Action.FTS_Fail, r.2)
  else
    let c1 := r.2.call (FsCall.mkfifo c._curtgtpath S_IRWXU)
    if fs.mkfifo c._curtgtpath S_IRWXU < 0 then
      (Action.FTS_Fail,
        { c1 with _error_msg :=
            c._curtgtpath ++ ": Failed to create FIFO pipe: " ++ fs.strerror_errno })
    else
      cp_attrs_xattrs fs curr c1

def on_reached_socket (c : RecursiveCopier) : Nat × RecursiveCopier :=
  (Action.FTS_Skip, c)

/-- `RecursiveCopier` as a visitor of the traversal engine. -/
def visitor (fs : Fs) : PathVisitor RecursiveCopier FTSEntry :=
  { on_pre_execute := on_pre_execute fs,
    on_changed_path := fun root curr c => on_changed_path root curr c,
    on_reached_directory_pre := fun _ curr c => on_reached_directory_pre fs curr c,
    on_reached_directory_post := fun _ curr c => on_reached_directory_post fs curr c,
    on_reached_file := fun _ curr c => on_reached_file fs curr c,
    on_reached_symlink := fun _ curr c => on_reached_symlink fs curr c,
    on_reached_block_device := fun _ curr c => on_reached_block_device fs curr c,
    on_reached_character_device :=
      fun _ curr c => on_reached_character_device fs curr c,
    on_reached_fifo := fun _ curr c => on_reached_fifo fs curr c,
    on_reached_socket := fun _ _ c => on_reached_socket c }

end RecursiveCopier

/-- The function `copy_dir`, given the entries of the source tree: the result
of `copier.run()` and the copier afterwards.  The two `umask` calls around the
walk change the file mode creation mask of the process only. -/
def copy_dir (fs : Fs) (source target : String) (flags : Nat)
    (entries : List (FtsInfo × FTSEntry)) : Bool × RecursiveCopier :=
  FTSWrapper.run (RecursiveCopier.visitor fs) (fun e => e.fts_level) entries
    (RecursiveCopier.new source target flags)

/-! ## `util/chown.cpp` -/

def chown_internal (fs : Fs) (path : String) (uid gid : Nat) (follow_symlinks : Bool)
    (log : List FsCall) : Bool × List FsCall :=
  if follow_symlinks then
    (decide (fs.chown path uid gid = 0), log ++ [FsCall.chown path uid gid])
  else
    (decide (fs.lchown path uid gid = 0), log ++ [FsCall.lchown path uid gid])

/-- The members of `RecursiveChown` (with `_error_msg` of `FTSWrapper`), and
the log of the calls made so far. -/
structure RecursiveChown where
  _uid : Nat
  _gid : Nat
  _follow_symlinks : Bool
  _error_msg : String
  calls : List FsCall
deriving DecidableEq, Repr

namespace RecursiveChown

def chown_path (fs : Fs) (curr : FTSEntry) (c : RecursiveChown) : Bool × RecursiveChown :=
  let r := chown_internal fs curr.fts_accpath c._uid c._gid c._follow_symlinks c.calls
  let c1 : RecursiveChown := { c with calls := r.2 }
  if ¬ r.1 then
    (false,
      { c1 with _error_msg := curr.fts_path ++ ": Failed to chown: " ++ fs.strerror_errno })
  else
    (true, c1)

def on_reached_directory_post (fs : Fs) (curr : FTSEntry) (c : RecursiveChown) :
    Nat × RecursiveChown :=
  let r := chown_path fs curr c
  (if r.1 then Action.FTS_OK else Action.FTS_Fail, r.2)

def on_reached_file (fs : Fs) (curr : FTSEntry) (c : RecursiveChown) :
    Nat × RecursiveChown :=
  let r := chown_path fs curr c
  (if r.1 then Action.FTS_OK else Action.FTS_Fail, r.2)

def on_reached_symlink (fs : Fs) (curr : FTSEntry) (c : RecursiveChown) :
    Nat × RecursiveChown :=
  let r := chown_path fs curr c
  (if r.1 then Action.FTS_OK else Action.FTS_Fail, r.2)

def on_reached_special_file (fs : Fs) (curr : FTSEntry) (c : RecursiveChown) :
    Nat × RecursiveChown :=
  let r := chown_path fs curr c
  (if r.1 then Action.FTS_OK else Action.FTS_Fail, r.2)

end RecursiveChown

/-! ## `util/selinux.cpp` -/

/-- The members of `RecursiveSetContext`, and the log of the calls made so
far. -/
structure RecursiveSetContext where
  _context : String
  _follow_symlinks : Bool
  calls : List FsCall
deriving DecidableEq, Repr

namespace RecursiveSetContext

def set_context (fs : Fs) (curr : FTSEntry) (c : RecursiveSetContext) :
    Bool × RecursiveSetContext :=
  if c._follow_symlinks then
    (fs.selinux_set_context curr.fts_accpath c._context,
      { c with calls := c.calls ++ [FsCall.selinux_set_context curr.fts_accpath c._context] })
  else
    (fs.selinux_lset_context curr.fts_accpath c._context,
      { c with calls := c.calls ++ [FsCall.selinux_lset_context curr.fts_accpath c._context] })

def on_reached_directory_post (fs : Fs) (curr : FTSEntry) (c : RecursiveSetContext) :
    Nat × RecursiveSetContext :=
  let r := set_context fs curr c
  (if r.1 then Action.FTS_OK else Action.FTS_Fail, r.2)

def on_reached_file (fs : Fs) (curr : FTSEntry) (c : RecursiveSetContext) :
    Nat × RecursiveSetContext :=
  let r := set_context fs curr c
  (if r.1 then Action.FTS_OK else Action.FTS_Fail, r.2)

def on_reached_symlink (fs : Fs) (curr : FTSEntry) (c : RecursiveSetContext) :
    Nat × RecursiveSetContext :=
  let r := set_context fs curr c
  (if r.1 then Action.FTS_OK else Action.FTS_Fail, r.2)

def on_reached_special_file (fs : Fs) (curr : FTSEntry) (c : RecursiveSetContext) :
    Nat × RecursiveSetContext :=
  let r := set_context fs curr c
  (if r.1 then Action.FTS_OK else Action.FTS_Fail, r.2)

end RecursiveSetContext

/-! ## `util/mount.cpp` -/

/-- The function `mount`: the result and the log after it. -/
def mount (fs : Fs) (source target fstype : String) (mount_flags : Nat) (data : String)
    (log : List FsCall) : Bool × List FsCall :=
  let flagged : Bool := mount_flags &&& (MS_REMOUNT ||| MS_BIND ||| MS_MOVE) != 0
  -- `stat` is evaluated only when none of the three flags is set
  let sb := fs.stat source
  let log1 := if flagged then log else log ++ [FsCall.stat source]
  let need_loopdev : Bool := !flagged && decide (sb.1 = 0) && S_ISREG sb.2.st_mode
  if need_loopdev then
    let loopdev := fs.loopdev_find_unused
    let log2 := log1 ++ [FsCall.loopdev_find_unused]
    if loopdev.isEmpty then
      (false, log2)
    else
      let ro : Bool := mount_flags &&& MS_RDONLY != 0
      let log3 := log2 ++ [FsCall.loopdev_set_up_device loopdev source 0 ro]
      if ¬ fs.loopdev_set_up_device loopdev source 0 ro then
        (false, log3)
      else
        let log4 := log3 ++ [FsCall.mount loopdev target fstype mount_flags data]
        if fs.mount loopdev target fstype mount_flags data < 0 then
          (false, log4 ++ [FsCall.loopdev_remove_device loopdev])
        else
          (true, log4)
  else
    (decide (fs.mount source target fstype mount_flags data = 0),
      log1 ++ [FsCall.mount source target fstype mount_flags data])

end util

/-! ## Concrete filesystems for evaluating the functions -/

/-- A filesystem in which every path is a directory `0755` owned by root on
device `1`, inode `2`, every call succeeds, and `mkdir` reports that the
directory exists. -/
def Fs.quiet : Fs :=
  { strerror_errno := "Success",
    mkdir := fun _ _ => (-1, EEXIST),
    stat := fun _ => (0, ⟨1, 2, 0o040755, 1, 0, 0, 0, 4096, 4096, 8, 0, 0, 0⟩),
    lstat := fun _ => (0, ⟨1, 2, 0o040755, 1, 0, 0, 0, 4096, 4096, 8, 0, 0, 0⟩),
    chown := fun _ _ _ => 0,
    lchown := fun _ _ _ => 0,
    chmod := fun _ _ => 0,
    unlink := fun _ => (0, 0),
    symlink := fun _ _ => 0,
    mknod := fun _ _ _ => 0,
    mkfifo := fun _ _ => 0,
    copy_data := fun _ _ => true,
    copy_xattrs := fun _ _ => true,
    read_link := fun _ => some "target",
    selinux_set_context := fun _ _ => true,
    selinux_lset_context := fun _ _ => true,
    loopdev_find_unused := "/dev/block/loop0",
    loopdev_set_up_device := fun _ _ _ _ => true,
    loopdev_remove_device := fun _ => true,
    mount := fun _ _ _ _ _ => 0 }

/-- The root entry of a walk of `/data/a`, a directory on device `1` with
inode `2`. -/
def self_copy_root : FTSEntry :=
  ⟨"/data/a", "/data/a", "a", 0, ⟨1, 2, 0o040755, 2, 0, 0, 0, 4096, 4096, 8, 0, 0, 0⟩⟩

/-- A filesystem in which the source is a regular file with mode `04755`
(setuid). -/
def Fs.setuid_source : Fs :=
  { Fs.quiet with
    lstat := fun _ => (0, ⟨1, 7, 0o104755, 1, 0, 0, 0, 5, 4096, 8, 0, 0, 0⟩) }

/-- A filesystem in which every path is a regular file. -/
def Fs.regular : Fs :=
  { Fs.quiet with
    stat := fun _ => (0, ⟨1, 7, 0o100644, 1, 0, 0, 0, 5, 4096, 8, 0, 0, 0⟩) }

/-- A filesystem in which copying the data of a file fails. -/
def Fs.copy_fails : Fs :=
  { Fs.quiet with copy_data := fun _ _ => false, strerror_errno := "Permission denied" }

/-! ## C library functions used by `mbtool/util` -/

/-- The tokens that successive calls of `strtok_r(str, delim, &save_ptr)`
return until the call that returns a null pointer: the maximal runs of bytes
of `str` that are not in `delim`, in order.  `tok` holds the bytes of the token
being read. -/
def strtok_r_loop (delim : List Char) : List Char → List Char → List (List Char)
  | [], tok => if tok = [] then [] else [tok]
  | c :: cs, tok =>
    if c ∈ delim then
      if tok = [] then strtok_r_loop delim cs []
      else tok :: strtok_r_loop delim cs []
    else
      strtok_r_loop delim cs (tok ++ [c])

/-- All tokens of `str` for `strtok_r` with the delimiters `delim`. -/
def strtok_r (str : List Char) (delim : List Char) : List (List Char) :=
  strtok_r_loop delim str []

/-- The function `strlcat(dst, src, size)` on the contents of `dst`: as much
of `src` is appended as fits in `size` bytes with the terminator. -/
def strlcat (dst src : List Char) (size : Nat) : List Char :=
  if size ≤ dst.length then dst
  else dst ++ src.take (size - 1 - dst.length)

/-- The string a `char *` points at: the bytes before the first NUL. -/
def c_str (buf : List Char) : List Char :=
  buf.takeWhile (fun c => c != Char.ofNat 0)

/-- The non-empty components of a path between its `/` separators. -/
def path_components (path : String) : List (List Char) :=
  strtok_r path.data ['/']

/-! ## Mount flags of `sys/mount.h` (Linux) -/

def MS_NOSUID : Nat := 2
def MS_NODEV : Nat := 4
def MS_NOEXEC : Nat := 8
def MS_SYNCHRONOUS : Nat := 16
def MS_MANDLOCK : Nat := 64
def MS_DIRSYNC : Nat := 128
def MS_NOATIME : Nat := 1024
def MS_NODIRATIME : Nat := 2048
def MS_REC : Nat := 16384
def MS_SILENT : Nat := 32768
def MS_POSIXACL : Nat := 1 <<< 16
def MS_UNBINDABLE : Nat := 1 <<< 17
def MS_PRIVATE : Nat := 1 <<< 18
def MS_SLAVE : Nat := 1 <<< 19
def MS_SHARED : Nat := 1 <<< 20
def MS_RELATIME : Nat := 1 <<< 21
def MS_STRICTATIME : Nat := 1 <<< 24
def MS_ACTIVE : Nat := 1 <<< 30
def MS_NOUSER : Nat := 1 <<< 31

namespace util

/-! ## `util/path.cpp` -/

def path_split (path : String) : List String :=
  -- For absolute paths
  let split : List String := if path.data.head? = some '/' then [""] else []
  split ++ (strtok_r path.data ['/']).map String.mk

/-- The loop of `path_join` from the component `it` on; `rest` holds the
components after `it`, so `it` is the last one exactly when `rest` is
empty. -/
def path_join_loop : List String → String → String
  | [], path => path
  | it :: rest, path =>
    if it.isEmpty then
      path_join_loop rest (path ++ "/")
    else if rest.isEmpty then
      path_join_loop rest (path ++ it)
    else
      path_join_loop rest (path ++ it ++ "/")

def path_join (components : List String) : String :=
  path_join_loop components ""

/-! ## `util/directory.cpp` -/

/-- The `while (p != nullptr)` loop of `mkdir_recursive` over the tokens `p`
of the copy of `dir`: the result, the `mkdir` calls made, and the successive
contents of the buffer `temp`, one after each `strcat`. -/
def mkdir_recursive_loop (fs : Fs) (mode : Nat) :
    List (List Char) → List Char → List FsCall → List (List Char) →
      Bool × List FsCall × List (List Char)
  | [], _, calls, temps => (true, calls, temps)
  | p :: rest, temp, calls, temps =>
    let temp1 := temp ++ p
    let temp2 := temp1 ++ ['/']
    let r := fs.mkdir ⟨temp2⟩ mode
    let calls1 := calls ++ [FsCall.mkdir ⟨temp2⟩ mode]
    if r.1 < 0 ∧ r.2 ≠ EEXIST then
      (false, calls1, temps ++ [temp1, temp2])
    else
      mkdir_recursive_loop fs mode rest temp2 calls1 (temps ++ [temp1, temp2])

/-- The function `mkdir_recursive`: the result, the `mkdir` calls made, and
the successive contents of the buffer `temp` (allocated with
`strlen(dir) + 2` bytes), from `temp[0] = 0` on. -/
def mkdir_recursive (fs : Fs) (dir : String) (mode : Nat) :
    Bool × List FsCall × List (List Char) :=
  if dir.data = [] then
    -- errno = EINVAL
    (false, [], [])
  else
    if dir.data.head? = some '/' then
      mkdir_recursive_loop fs mode (strtok_r dir.data ['/']) ['/'] [] [[], ['/']]
    else
      mkdir_recursive_loop fs mode (strtok_r dir.data ['/']) [] [] [[]]

/-! ## `util/fstab.cpp` -/

/-- The table `mount_flags`, without its terminating null entry.  A flag is
the 32-bit pattern of the `int`. -/
def mount_flags : List (String × Nat) :=
  [ ("active", MS_ACTIVE),
    ("bind", MS_BIND),
    ("dirsync", MS_DIRSYNC),
    ("mandlock", MS_MANDLOCK),
    ("move", MS_MOVE),
    ("noatime", MS_NOATIME),
    ("nodev", MS_NODEV),
    ("nodiratime", MS_NODIRATIME),
    ("noexec", MS_NOEXEC),
    ("nosuid", MS_NOSUID),
    ("nouser", MS_NOUSER),
    ("posixacl", MS_POSIXACL),
    ("rec", MS_REC),
    ("ro", MS_RDONLY),
    ("relatime", MS_RELATIME),
    ("remount", MS_REMOUNT),
    ("silent", MS_SILENT),
    ("strictatime", MS_STRICTATIME),
    ("sync", MS_SYNCHRONOUS),
    ("unbindable", MS_UNBINDABLE),
    ("private", MS_PRIVATE),
    ("slave", MS_SLAVE),
    ("shared", MS_SHARED),
    -- Flags that should be ignored
    ("rw", 0),
    ("defaults", 0) ]

/-- The `while (temp)` loop of `options_to_flags` over the tokens `temp` of
`args`.  `flags` is the 32-bit pattern of the `int`; `new_args` is the content
of the buffer of that name, absent for a null pointer.  The inner `for` loop
stops at the first entry of the table whose name is `temp`. -/
def options_to_flags_loop (size : Int) :
    List (List Char) → Nat → Option (List Char) → Nat × Option (List Char)
  | [], flags, new_args => (flags, new_args)
  | temp :: rest, flags, new_args =>
    match mount_flags.find? (fun e => e.1.data == temp) with
    | some _ =>
      options_to_flags_loop size rest (flags ||| 0) new_args
    | none =>
      match new_args with
      | some buf =>
        options_to_flags_loop size rest flags
          (some (strlcat (strlcat buf temp (size % 2 ^ 64).toNat) [','] (size % 2 ^ 64).toNat))
      | none =>
        options_to_flags_loop size rest flags none

/-- The function `options_to_flags`: the returned `int` and the content of
`new_args` afterwards. -/
def options_to_flags (args : String) (new_args : Option (List Char)) (size : Int) :
    Int × Option (List Char) :=
  let new_args1 : Option (List Char) :=
    match new_args with
    | some buf => if size > 0 then some [] else some buf
    | none => none
  let r := options_to_flags_loop size (strtok_r args.data [',']) 0 new_args1
  let new_args2 : Option (List Char) :=
    match r.2 with
    | some buf => if buf ≠ [] then some buf.dropLast else some buf
    | none => none
  (wrap_int r.1, new_args2)

/-- The flag value that the table `mount_flags` assigns to an option name,
`0` for a name that is not in the table. -/
def mount_flag_of (name : List Char) : Nat :=
  match mount_flags.find? (fun e => e.1.data == name) with
  | some e => e.2
  | none => 0

/-- The flags of an option string in the words of the specification: the
bitwise OR of the flag values that the table assigns to the option names
occurring in the comma-separated string. -/
def flags_of_options (args : String) : Nat :=
  ((strtok_r args.data [',']).map mount_flag_of).foldl (fun acc x => acc ||| x) 0

/-! ## `util/selinux.cpp`: the policy database -/

/-- The bitmap `ebitmap_t` of libsepol: the value of every bit. -/
def ebitmap_t : Type := Nat → Bool

/-- The function `ebitmap_get_bit` of libsepol. -/
def ebitmap_get_bit (e : ebitmap_t) (bit : Nat) : Bool :=
  e bit

/-- The function `ebitmap_set_bit` of libsepol. -/
def ebitmap_set_bit (e : ebitmap_t) (bit : Nat) (value : Bool) : ebitmap_t :=
  fun b => if b = bit then value else e b

/-- What the code reads and writes of a `policydb_t`: `p_types.nprim`, a
`uint32_t`, and `permissive_map`. -/
structure policydb_t where
  p_types_nprim : Nat
  permissive_map : ebitmap_t

/-- The function `selinux_make_all_permissive`.  The bound `nprim - 1` of the
loop is computed in `unsigned int`. -/
def selinux_make_all_permissive (pdb : policydb_t) : policydb_t :=
  (List.range (((pdb.p_types_nprim : Int) - 1) % 2 ^ 32).toNat).foldl
    (fun p i => { p with permissive_map := ebitmap_set_bit p.permissive_map (i + 1) true })
    pdb

end util

/-! ## `util/mount.cpp`: unmounting -/

/-- The macro `major()` of `sys/sysmacros.h`. -/
def major (dev : Nat) : Nat :=
  (dev >>> 8) &&& 0xfff

/-- The fields of `struct mntent` that the code reads. -/
structure mntent where
  mnt_fsname : String
  mnt_dir : String
deriving DecidableEq, Repr

/-- Answers of the system while `util::umount` runs once: the entries of
`/proc/mounts` (absent when `setmntent` fails), and the results of
`::umount`, `stat` and `loopdev_remove_device`. -/
structure UmountSys where
  setmntent : Option (List mntent)
  umount : String → Int
  stat : String → Int × StructStat
  loopdev_remove_device : String → Bool

/-- One call made by `util::umount`. -/
inductive UmountCall where
  | setmntent
  | umount (target : String)
  | stat (path : String)
  | loopdev_remove_device (loopdev : String)
deriving DecidableEq, Repr

/-- Answers of the system while `unmount_all` runs: for the pass `tries`, the
entries that `getmntent_r` returns after `setmntent("/proc/mounts", "r")`
(absent when `setmntent` fails), and the system as `util::umount` finds it
when it is called for the entry at position `i` of that pass. -/
structure UnmountSys where
  setmntent : Nat → Option (List mntent)
  umount_sys : Nat → Nat → UmountSys

/-- One call made by `unmount_all`: the opening of the mount table, or a call
of `util::umount` together with the calls made inside it. -/
inductive UnmountCall where
  | setmntent
  | umount (target : String) (calls : List UmountCall)
deriving DecidableEq, Repr

/-- Modelled from the spec: `starts_with(string, start)` of `util/string.h`
(absent): whether `string` begins with the bytes of `start`. -/
def starts_with (string start : String) : Bool :=
  start.data.isPrefixOf string.data

namespace util

def MAX_UNMOUNT_TRIES : Nat := 5

/-- The function `util::umount`: the result and the calls made. -/
def umount (sys : UmountSys) (target : String) : Bool × List UmountCall :=
  let source : String :=
    match sys.setmntent with
    | some ents =>
      ents.foldl (fun source ent => if ent.mnt_dir = target then ent.mnt_fsname else source) ""
    | none => ""
  let ret := sys.umount target
  let log := [UmountCall.setmntent, UmountCall.umount target]
  if ¬ source.isEmpty then
    let sb := sys.stat source
    if sb.1 = 0 ∧ S_ISBLK sb.2.st_mode = true ∧ major sb.2.st_rdev = 7 then
      -- If the source path is a loop block device, then disassociate it
      -- from the image
      (decide (ret = 0),
        log ++ [UmountCall.stat source, UmountCall.loopdev_remove_device source])
    else
      (decide (ret = 0), log ++ [UmountCall.stat source])
  else
    (decide (ret = 0), log)

/-- The `while (getmntent_r(...))` loop of `unmount_all` in the pass `tries`,
from the entry at position `i` on: the counter `failed`, an `int`, and the
calls made. -/
def unmount_entries (sys : UnmountSys) (dir : String) (tries : Nat) :
    Nat → List mntent → Int → List UnmountCall → Int × List UnmountCall
  | _, [], failed, log => (failed, log)
  | i, ent :: rest, failed, log =>
    if starts_with ent.mnt_dir dir then
      let r := umount (sys.umount_sys tries i) ent.mnt_dir
      if ¬ r.1 then
        unmount_entries sys dir tries (i + 1) rest (wrap_int (failed + 1))
          (log ++ [UnmountCall.umount ent.mnt_dir r.2])
      else
        unmount_entries sys dir tries (i + 1) rest failed
          (log ++ [UnmountCall.umount ent.mnt_dir r.2])
    else
      unmount_entries sys dir tries (i + 1) rest failed log

/-- The `for` loop of `unmount_all` from the pass `tries` on, `remaining`
being `MAX_UNMOUNT_TRIES - tries`: the result and the calls made. -/
def unmount_loop (sys : UnmountSys) (dir : String) :
    Nat → Nat → List UnmountCall → Bool × List UnmountCall
  | 0, _, log => (false, log)
  | remaining + 1, tries, log =>
    match sys.setmntent tries with
    | none => (false, log ++ [UnmountCall.setmntent])
    | some ents =>
      let r := unmount_entries sys dir tries 0 ents 0 (log ++ [UnmountCall.setmntent])
      if r.1 = 0 then
        (true, r.2)
      else
        -- Retry
        unmount_loop sys dir remaining (tries + 1) r.2

def unmount_all (sys : UnmountSys) (dir : String) : Bool × List UnmountCall :=
  unmount_loop sys dir MAX_UNMOUNT_TRIES 0 []

end util

/-- The number of passes over the mount table in a log of `unmount_all`. -/
def passes (log : List UnmountCall) : Nat :=
  log.count UnmountCall.setmntent

/-- A pass of `unmount_all` in which the mount table opens and no unmount of
an entry whose mount directory starts with `dir` fails. -/
def PassClean (sys : UnmountSys) (dir : String) (tries : Nat) : Prop :=
  ∃ ents, sys.setmntent tries = some ents ∧
    ∀ (i : Nat) (ent : mntent), ents[i]? = some ent → starts_with ent.mnt_dir dir = true →
      (util.umount (sys.umount_sys tries i) ent.mnt_dir).1 = true

/-- A pass of `unmount_all` in which the mount table opens and the unmount
of some entry whose mount directory starts with `dir` fails. -/
def PassFailing (sys : UnmountSys) (dir : String) (tries : Nat) : Prop :=
  ∃ ents, sys.setmntent tries = some ents ∧
    ∃ (i : Nat) (ent : mntent), ents[i]? = some ent ∧ starts_with ent.mnt_dir dir = true ∧
      (util.umount (sys.umount_sys tries i) ent.mnt_dir).1 = false

/-- A system in which `util::umount` succeeds (`ok`) or fails, with no mount
table of its own to read. -/
def UmountSys.answer (ok : Bool) : UmountSys :=
  { setmntent := none,
    umount := fun _ => if ok then 0 else -1,
    stat := fun _ => (-1, ⟨0, 0, 0, 0, 0, 0, 0, 0, 0, 0, 0, 0, 0⟩),
    loopdev_remove_device := fun _ => true }

/-- A mount table with `/raw/data` and `/system`, in which the unmount of
`/raw/data` fails in the first two passes and succeeds in the third. -/
def UnmountSys.busy_twice : UnmountSys :=
  { setmntent := fun _ =>
      some [⟨"/dev/block/sda1", "/raw/data"⟩, ⟨"/dev/block/sda2", "/system"⟩],
    umount_sys := fun tries _ => UmountSys.answer (decide (2 ≤ tries)) }

/-! ## `util/copy.cpp`: copying the data of a file -/

/-- What one `read(fd_source, buf, sizeof buf)` returns: a negative value, or
the bytes it placed in `buf`, their number being the return value (no byte
when the source is at its end). -/
inductive ReadResult where
  | error
  | bytes (chunk : List Nat)
deriving DecidableEq, Repr

/-- One call made by `copy_data_fd`, with what it returned.  A `write` is
recorded with the bytes it was offered, `nread` bytes from `out_ptr` on. -/
inductive CopyCall where
  | read (result : ReadResult)
  | write (offered : List Nat) (ret : Int)
deriving DecidableEq, Repr

/-- The return value of a call. -/
def CopyCall.ret : CopyCall → Int
  | .read .error => -1
  | .read (.bytes chunk) => chunk.length
  | .write _ ret => ret

/-- The bytes that the `read` calls of a log returned, in order. -/
def bytes_read : List CopyCall → List Nat
  | [] => []
  | .read (.bytes chunk) :: rest => chunk ++ bytes_read rest
  | _ :: rest => bytes_read rest

namespace util

/-- The `do ... while (nread > 0)` loop of `copy_data_fd` on the buffer `buf`.
`write k offered` is what the `k`-th `write` of the run returns when offered
the bytes `offered`; `out_ptr` is the offset of the pointer of that name in
`buf`; `out` holds the bytes the target has accepted.  The result is the
negation of the early `return false`, the number of writes made, the bytes
accepted and the calls made; `none` when `fuel` iterations do not finish the
loop. -/
def write_loop (write : Nat → List Nat → Int) (buf : List Nat) :
    Nat → Nat → Int → Int → List Nat → List CopyCall →
      Option (Bool × Nat × List Nat × List CopyCall)
  | 0, _, _, _, _, _ => none
  | fuel + 1, k, out_ptr, nread, out, log =>
    let offered := (buf.drop out_ptr.toNat).take nread.toNat
    let nwritten := write k offered
    let log1 := log ++ [CopyCall.write offered nwritten]
    if nwritten < 0 then
      some (false, k + 1, out, log1)
    else
      let out1 := out ++ offered.take nwritten.toNat
      if nread - nwritten > 0 then
        write_loop write buf fuel (k + 1) (out_ptr + nwritten) (nread - nwritten) out1 log1
      else
        some (true, k + 1, out1, log1)

/-- The `while ((nread = read(...)) > 0)` loop of `copy_data_fd` and its
`return nread == 0`.  `reads` holds what the successive `read` calls return;
after them the source is at the end of the file and `read` returns 0. -/
def copy_data_loop (write : Nat → List Nat → Int) (fuel : Nat) :
    List ReadResult → Nat → List Nat → List CopyCall →
      Option (Bool × List Nat × List CopyCall)
  | [], _, out, log => some (true, out, log ++ [CopyCall.read (.bytes [])])
  | .error :: _, _, out, log => some (false, out, log ++ [CopyCall.read .error])
  | .bytes chunk :: rest, k, out, log =>
    if (chunk.length : Int) > 0 then
      match write_loop write chunk fuel k 0 chunk.length out
          (log ++ [CopyCall.read (.bytes chunk)]) with
      | none => none
      | some (false, _, out1, log1) => some (false, out1, log1)
      | some (true, k1, out1, log1) => copy_data_loop write fuel rest k1 out1 log1
    else
      some (true, out, log ++ [CopyCall.read (.bytes chunk)])

/-- The function `copy_data_fd`: the result, the bytes accepted by the
target, in order, and the calls made; `none` when one of the inner loops does
not finish within `fuel` iterations. -/
def copy_data_fd (reads : List ReadResult) (write : Nat → List Nat → Int) (fuel : Nat) :
    Option (Bool × List Nat × List CopyCall) :=
  copy_data_loop write fuel reads 0 [] []

end util

/-- A target that accepts at most three bytes per `write`. -/
def write_three (_ : Nat) (offered : List Nat) : Int :=
  min 3 offered.length

/-! ## `util/path.cpp`: reading a symbolic link -/

/-- The content of a `std::vector<char>` after `resize(n)`. -/
def vector_resize (buf : List Char) (n : Nat) : List Char :=
  buf.take n ++ List.replicate (n - buf.length) (Char.ofNat 0)

namespace util

/-- The `for (;;)` loop of `read_link` and the statements after it.
`readlink path n` is the return value of `readlink(path, buf.data(), n)` and
the bytes it placed at the start of the buffer; `out` is the string `*out`.
Sizes are `size_t` values of 64 bits.  The result is `none` when `fuel`
iterations do not finish the loop. -/
def read_link_loop (readlink : String → Nat → Int × List Char) (path : String)
    (out : String) : Nat → List Char → Option (Bool × String)
  | 0, _ => none
  | fuel + 1, buf =>
    let r := readlink path (buf.length - 1)
    let len := r.1
    let buf1 := r.2 ++ buf.drop r.2.length
    if len < 0 then
      some (false, out)
    else if len.toNat = buf.length - 1 then
      read_link_loop readlink path out fuel (vector_resize buf1 ((buf.length <<< 1) % 2 ^ 64))
    else
      some (true, ⟨c_str (buf1.set len.toNat (Char.ofNat 0))⟩)

/-- The function `read_link`: the result and the string `*out`
afterwards. -/
def read_link (readlink : String → Nat → Int × List Char) (path : String) (out : String)
    (fuel : Nat) : Option (Bool × String) :=
  read_link_loop readlink path out fuel (vector_resize [] 64)

end util

/-- The system call `readlink` for a link whose target is `target`: the
first `min(L, n)` bytes are placed in the buffer. -/
def readlink_of (target : String) (_ : String) (n : Nat) : Int × List Char :=
  (min target.length n, target.data.take n)

/-! ## The wipe loop, in the words of the specification -/

/-- Whether the wipe of the target at position `i` of the request succeeds:
the result of the wipe function of its code, `false` for a code that is none
of the five. -/
def wipe_result (sys : Sys) (rom : Rom) (i : Nat) (target : Int) : Bool :=
  if target = MbWipeTarget_SYSTEM then sys.wipe_system i rom
  else if target = MbWipeTarget_CACHE then sys.wipe_cache i rom
  else if target = MbWipeTarget_DATA then sys.wipe_data i rom
  else if target = MbWipeTarget_DALVIK_CACHE then sys.wipe_dalvik_cache i rom
  else if target = MbWipeTarget_MULTIBOOT then sys.wipe_multiboot i rom
  else false

/-- The wipe function invoked for a target code, none for a code that is none
of the five. -/
def wipe_call (rom : Rom) (target : Int) : List Call :=
  if target = MbWipeTarget_SYSTEM then [Call.wipe_system rom]
  else if target = MbWipeTarget_CACHE then [Call.wipe_cache rom]
  else if target = MbWipeTarget_DATA then [Call.wipe_data rom]
  else if target = MbWipeTarget_DALVIK_CACHE then [Call.wipe_dalvik_cache rom]
  else if target = MbWipeTarget_MULTIBOOT then [Call.wipe_multiboot rom]
  else []

/-- The targets of a request, numbered from `i` on, whose wipe gives the
result `b`, in request order. -/
def wiped (sys : Sys) (rom : Rom) (b : Bool) (i : Nat) (targets : List Int) : List Int :=
  ((targets.enumFrom i).filter (fun p => wipe_result sys rom p.1 p.2 == b)).map Prod.snd

/-- Whether a call is a wipe function or a `mount`. -/
def Call.wipes_or_mounts : Call → Bool
  | .wipe_system _ => true
  | .wipe_cache _ => true
  | .wipe_data _ => true
  | .wipe_dalvik_cache _ => true
  | .wipe_multiboot _ => true
  | .mount _ _ _ _ _ => true
  | _ => false

/-- A system with one installed ROM, `dual`, that is not the booted one, in
which wiping the cache fails and every other wipe succeeds. -/
def Sys.wiping : Sys :=
  { Sys.quiet with
    add_installed := [⟨"dual", false, "/raw/system/multiboot/dual/system",
      "/raw/cache/multiboot/dual/cache", "/raw/data/multiboot/dual/data"⟩],
    find_by_id := fun roms id => roms.find? (fun r => r.id == id),
    get_current_rom := some ⟨"primary", false, "/raw/system", "/raw/cache", "/raw/data"⟩,
    wipe_cache := fun _ _ => false }

/-! ## Outcomes of `copy_data_fd` -/

/-- Every `write` accepts at least one of the bytes it is offered, and no
more than it is offered, or fails. -/
def WriteProgress (write : Nat → List Nat → Int) : Prop :=
  ∀ (k : Nat) (offered : List Nat), offered ≠ [] →
    write k offered < 0 ∨ (1 ≤ write k offered ∧ write k offered ≤ offered.length)

/-- What a run of `copy_data_fd`, or of a part of it, achieves: it appends
the calls `ext` to the log, succeeds exactly when none of them returned a
negative value, and the target accepts a leading part `acc` of the bytes
`src` at hand, all of them on success. -/
def CopyOutcome (src : List Nat) (out : List Nat) (log : List CopyCall)
    (b : Bool) (out1 : List Nat) (log1 : List CopyCall) (ext : List CopyCall) : Prop :=
  log1 = log ++ ext ∧ (b = true ↔ ∀ c ∈ ext, 0 ≤ c.ret) ∧
    (b = true → out1 = out ++ src) ∧ ∃ acc, out1 = out ++ acc ∧ acc <+: src

/-! ## Reading the log of `copy_data_fd` -/

/-- The result of a call that is a `read`. -/
def CopyCall.read_result : CopyCall → Option ReadResult
  | .read result => some result
  | .write _ _ => none

/-- The bytes offered to a call that is a `write`, and the value it
returned. -/
def CopyCall.write_call : CopyCall → Option (List Nat × Int)
  | .write offered ret => some (offered, ret)
  | .read _ => none

/-- The bytes the target takes in a call: of a `write` that returns
`n ≥ 0`, the first `n` of the bytes offered. -/
def CopyCall.accepted : CopyCall → List Nat
  | .write offered ret => if ret < 0 then [] else offered.take ret.toNat
  | .read _ => []

/-- The results of the `read` calls of a log, in order. -/
def read_results (log : List CopyCall) : List ReadResult :=
  log.filterMap CopyCall.read_result

/-- The `write` calls of a log, in order. -/
def write_calls (log : List CopyCall) : List (List Nat × Int) :=
  log.filterMap CopyCall.write_call

/-- The bytes the target accepted in the `write` calls of a log, in order. -/
def accepted (log : List CopyCall) : List Nat :=
  (log.map CopyCall.accepted).flatten

/-- The chunks of a sequence of `read` results that come before the first
result without a byte (the end of the file, or an error). -/
def chunks_read : List ReadResult → List (List Nat)
  | .bytes (x :: xs) :: rest => (x :: xs) :: chunks_read rest
  | _ => []

/-- Whether the first result without a byte in a sequence of `read` results
is an error; after the sequence `read` returns 0. -/
def read_error_ends : List ReadResult → Bool
  | .bytes (_ :: _) :: rest => read_error_ends rest
  | .error :: _ => true
  | _ => false

/-- The `j`-th `write` of the log `ext` returned what `write (k + j)` answers
to the bytes offered. -/
def Answered (write : Nat → List Nat → Int) (k : Nat) (ext : List CopyCall) : Prop :=
  ∀ (j : Nat) (offered : List Nat) (r : Int),
    (write_calls ext)[j]? = some (offered, r) → r = write (k + j) offered

/-! ## Joining path components -/

/-- The components of a path joined by single `/` separators. -/
def join_components : List (List Char) → List Char
  | [] => []
  | [t] => t
  | t :: rest => t ++ '/' :: join_components rest

/-! # Theorems -/

/-! ## Helper lemmas -/

/-- For a 32-bit value, masking with `0777` changes nothing exactly when no
bit outside `0777` is set. -/
theorem mask_0777_eq_iff (mode : Nat) (h : mode < 2 ^ 32) :
    mode &&& (S_IRWXU ||| S_IRWXG ||| S_IRWXO) = mode ↔ mode &&& 0xFFFFFE00 = 0 := by
  have hm : (S_IRWXU ||| S_IRWXG ||| S_IRWXO) = 511 := by decide
  rw [hm]
  constructor
  · intro e
    rw [← e, Nat.and_assoc]
    have h0 : (511 : Nat) &&& 0xFFFFFE00 = 0 := by decide
    rw [h0, Nat.and_zero]
  · intro e
    have h1 : mode &&& (2 ^ 32 - 1) = mode := Nat.and_pow_two_sub_one_of_lt_two_pow h
    have h2 : (2 ^ 32 - 1 : Nat) = 0xFFFFFE00 ||| 511 := by decide
    rw [h2, Nat.and_or_distrib_left, e, Nat.zero_or] at h1
    exact h1

/-- After `erase m k` the key `k` is not found. -/
theorem unordered_map.find_erase_self (m : List (Int × Int)) (k : Int) :
    unordered_map.find (unordered_map.erase m k) k = none := by
  induction m with
  | nil => rfl
  | cons p rest ih =>
    obtain ⟨k1, v⟩ := p
    by_cases h : k1 = k
    · simpa [unordered_map.erase, List.filter_cons, h] using ih
    · simpa [unordered_map.erase, List.filter_cons, h, unordered_map.find] using ih

/-- Erasing `k` does not change what is found under another key. -/
theorem unordered_map.find_erase_ne (m : List (Int × Int)) (k j : Int) (h : j ≠ k) :
    unordered_map.find (unordered_map.erase m k) j = unordered_map.find m j := by
  induction m with
  | nil => rfl
  | cons p rest ih =>
    obtain ⟨k1, v⟩ := p
    by_cases h1 : k1 = k
    · have h2 : k1 ≠ j := fun e => h (e ▸ h1)
      simpa [unordered_map.erase, List.filter_cons, h1, unordered_map.find, h2, h.symm]
        using ih
    · by_cases h2 : k1 = j
      · subst h2
        simp [unordered_map.erase, List.filter_cons, h1, unordered_map.find]
      · simpa [unordered_map.erase, List.filter_cons, h1, unordered_map.find, h2]
          using ih

/-! ### Handlers that leave the descriptor table alone -/

theorem Quiet.refl (s : State) : Quiet s s :=
  ⟨rfl, rfl, [], by simp, rfl, rfl, rfl⟩

theorem Quiet.trans {s s1 s2 : State} (h1 : Quiet s s1) (h2 : Quiet s1 s2) :
    Quiet s s2 := by
  obtain ⟨hm1, hc1, e1, he1, ho1, hcl1, hi1⟩ := h1
  obtain ⟨hm2, hc2, e2, he2, ho2, hcl2, hi2⟩ := h2
  refine ⟨hm2.trans hm1, hc2.trans hc1, e1 ++ e2, ?_, ?_, ?_, ?_⟩
  · rw [he2, he1, List.append_assoc]
  · simp only [opened_fds, List.filterMap_append] at *
    rw [ho1, ho2]; rfl
  · simp only [closed_fds, List.filterMap_append] at *
    rw [hcl1, hcl2]; rfl
  · simp only [opened_ids, List.filterMap_append] at *
    rw [hi1, hi2]; rfl

theorem Quiet.call (s : State) (c : Call) (h1 : c.opened = none)
    (h2 : c.closed = none) (h3 : c.opened_id = none) : Quiet s (s.call c) :=
  ⟨rfl, rfl, [c], rfl, by simp [opened_fds, h1], by simp [closed_fds, h2],
    by simp [opened_ids, h3]⟩

theorem Quiet.call_step {s s1 : State} (h : Quiet s s1) (c : Call)
    (h1 : c.opened = none) (h2 : c.closed = none) (h3 : c.opened_id = none) :
    Quiet s (s1.call c) :=
  h.trans (Quiet.call s1 c h1 h2 h3)

theorem Quiet.calls_step {s s1 : State} (h : Quiet s s1) (l : List Call)
    (hl : ∀ c ∈ l, c.opened = none ∧ c.closed = none ∧ c.opened_id = none) :
    Quiet s { s1 with calls := s1.calls ++ l } := by
  refine h.trans ⟨rfl, rfl, l, rfl, ?_, ?_, ?_⟩
  · exact List.filterMap_eq_nil_iff.mpr (fun c hc => (hl c hc).1)
  · exact List.filterMap_eq_nil_iff.mpr (fun c hc => (hl c hc).2.1)
  · exact List.filterMap_eq_nil_iff.mpr (fun c hc => (hl c hc).2.2)

theorem quiet_wipe_targets (sys : Sys) (rom : Rom) (targets : List Int) :
    ∀ (i : Nat) (succeeded failed : List Int) (s s1 : State), Quiet s s1 →
      Quiet s (wipe_targets sys rom i targets succeeded failed s1).2.2 := by
  induction targets with
  | nil => intro _ _ _ s s1 h; exact h
  | cons target rest ih =>
    intro i succeeded failed s s1 h
    simp only [wipe_targets]
    repeat' split
    all_goals
      apply ih
      first
        | exact h
        | exact h.call_step _ rfl rfl rfl

/-- Every handler other than `v3_file_open` and `v3_file_close` is quiet. -/
theorem quiet_handlers (sys : Sys) (fd : Int) (s : State) :
    (∀ r, Quiet s (v3_file_chmod sys fd r s).2) ∧
    (∀ r res, v3_file_read sys fd r s = some res → Quiet s res.2) ∧
    (∀ r, Quiet s (v3_file_seek sys fd r s).2) ∧
    (∀ r, Quiet s (v3_file_selinux_get_label sys fd r s).2) ∧
    (∀ r, Quiet s (v3_file_selinux_set_label sys fd r s).2) ∧
    (∀ r, Quiet s (v3_file_stat sys fd r s).2) ∧
    (∀ r, Quiet s (v3_file_write sys fd r s).2) ∧
    (∀ r, Quiet s (v3_path_chmod sys fd r s).2) ∧
    (∀ r, Quiet s (v3_path_copy sys fd r s).2) ∧
    (∀ r, Quiet s (v3_path_selinux_get_label sys fd r s).2) ∧
    (∀ r, Quiet s (v3_path_get_directory_size sys fd r s).2) ∧
    Quiet s (v3_mb_get_booted_rom_id sys fd s).2 ∧
    Quiet s (v3_mb_get_version sys fd s).2 ∧
    (∀ r, Quiet s (v3_mb_set_kernel sys fd r s).2) ∧
    (∀ r, Quiet s (v3_mb_switch_rom sys fd r s).2) ∧
    (∀ r, Quiet s (v3_mb_wipe_rom sys fd r s).2) ∧
    (∀ r, Quiet s (v3_mb_get_packages_count sys fd r s).2) ∧
    (∀ r, Quiet s (v3_reboot sys fd r s).2) ∧
    Quiet s (v3_send_response_unsupported sys fd s).2 := by
  refine ⟨?_, ?_, ?_, ?_, ?_, ?_, ?_, ?_, ?_, ?_, ?_, ?_, ?_, ?_, ?_, ?_, ?_, ?_, ?_⟩
  case refine_2 =>
    intro r res h
    simp only [v3_file_read, v3_send_response_invalid, v3_send_response] at h
    repeat' split at h
    all_goals first
      | (cases h; done)
      | (cases h
         repeat first
           | exact Quiet.refl _
           | refine Quiet.call_step ?_ _ rfl rfl rfl)
  all_goals
    intros
    simp only [v3_file_chmod, v3_file_seek, v3_file_selinux_get_label,
      v3_file_selinux_set_label, v3_file_stat, v3_file_write, v3_path_chmod,
      v3_path_copy, v3_path_selinux_get_label, v3_path_get_directory_size,
      v3_mb_get_booted_rom_id, v3_mb_get_version, v3_mb_set_kernel, v3_mb_switch_rom,
      v3_mb_wipe_rom, v3_mb_get_packages_count, v3_reboot,
      v3_send_response_unsupported, v3_send_response_invalid, v3_send_response]
    repeat' split
    all_goals
      repeat first
        | exact Quiet.refl _
        | refine Quiet.call_step ?_ _ rfl rfl rfl
        | refine quiet_wipe_targets _ _ _ _ _ _ _ _ ?_

theorem quiet_v3_mb_get_installed_roms (sys : Sys) (fd : Int) (s : State) :
    Quiet s (v3_mb_get_installed_roms sys fd s).2 := by
  simp only [v3_mb_get_installed_roms, v3_send_response]
  refine Quiet.call_step ?_ _ rfl rfl rfl
  refine Quiet.calls_step ?_ _ ?_
  · exact (Quiet.refl s).call_step _ rfl rfl rfl
  · intro c hc
    obtain ⟨r, _, rfl⟩ := List.mem_map.mp hc
    exact ⟨rfl, rfl, rfl⟩

theorem quiet_v3_path_selinux_set_label (sys : Sys) (fd : Int)
    (r : PathSELinuxSetLabelRequest) (s : State) (b : Bool) (s1 : State)
    (h : v3_path_selinux_set_label sys fd r s = some (b, s1)) : Quiet s s1 := by
  simp only [v3_path_selinux_set_label, v3_send_response_invalid, v3_send_response] at h
  repeat' split at h
  all_goals
    cases h
    repeat first
      | exact Quiet.refl _
      | refine Quiet.call_step ?_ _ rfl rfl rfl

theorem effect_v3_file_open (sys : Sys) (fd : Int) (r : FileOpenRequest) (s : State) :
    Effect s (v3_file_open sys fd r s).2 := by
  simp only [v3_file_open, v3_send_response_invalid, v3_send_response]
  split
  · exact Or.inl ((Quiet.refl s).call_step _ rfl rfl rfl)
  · rename_i path hpath
    by_cases hneg : sys.open_ path (file_open_flags r.flags) r.perms < 0
    · rw [if_pos hneg]
      refine Or.inl ?_
      refine Quiet.call_step ?_ _ rfl rfl rfl
      refine Quiet.call_step (Quiet.refl s) _ ?_ rfl rfl
      simp [Call.opened, Int.not_le.mpr hneg]
    · rw [if_neg hneg]
      refine Or.inr (Or.inl ⟨sys.open_ path (file_open_flags r.flags) r.perms,
        [Call.open_ path (file_open_flags r.flags) r.perms
            (sys.open_ path (file_open_flags r.flags) r.perms),
          Call.socket_write_bytes fd
            ⟨.FileOpenResponse, .FileOpenResponse true none (some s.fd_count)⟩],
        Int.not_lt.mp hneg, rfl, rfl, ?_, ?_, ?_, ?_⟩)
      · simp [State.call]
      · simp [opened_fds, Call.opened, Int.not_lt.mp hneg]
      · simp [closed_fds, Call.closed]
      · simp [opened_ids, Call.opened_id]

theorem effect_v3_file_close (sys : Sys) (fd : Int) (r : FileCloseRequest) (s : State) :
    Effect s (v3_file_close sys fd r s).2 := by
  simp only [v3_file_close, v3_send_response_invalid, v3_send_response]
  split
  · exact Or.inl ((Quiet.refl s).call_step _ rfl rfl rfl)
  · rename_i ffd hfind
    refine Or.inr (Or.inr ⟨r.id, ffd,
      [Call.close ffd,
        Call.socket_write_bytes fd
          ⟨.FileCloseResponse,
            if sys.close ffd < 0 then
              .FileCloseResponse false (some sys.strerror_errno)
            else .FileCloseResponse true none⟩],
      hfind, rfl, rfl, ?_, ?_, ?_, ?_⟩)
    · simp [State.call]
    · simp [opened_fds, Call.opened]
    · simp [closed_fds, Call.closed]
    · split <;> simp [opened_ids, Call.opened_id]

theorem dispatch_effect (sys : Sys) (fd : Int) (request : Request) (s : State)
    (b : Bool) (s1 : State) (h : dispatch sys fd request s = some (b, s1)) :
    Effect s s1 := by
  have hq := quiet_handlers sys fd s
  obtain ⟨q1, q2, q3, q4, q5, q6, q7, q8, q9, q10, q11, q12, q13, q14, q15, q16, q17,
    q18, q19⟩ := hq
  cases request <;> simp only [dispatch] at h
  case PathSELinuxSetLabelRequest r =>
    exact Or.inl (quiet_v3_path_selinux_set_label sys fd r s b s1 h)
  case FileReadRequest r =>
    exact Or.inl (q2 r (b, s1) h)
  all_goals
    simp only [Option.some.injEq] at h
    have h2 : s1 = _ := (congrArg Prod.snd h).symm
    subst h2
  case FileOpenRequest r => exact effect_v3_file_open sys fd r s
  case FileCloseRequest r => exact effect_v3_file_close sys fd r s
  case MbGetInstalledRomsRequest => exact Or.inl (quiet_v3_mb_get_installed_roms sys fd s)
  all_goals first
    | exact Or.inl (q1 _) | exact Or.inl (q3 _) | exact Or.inl (q4 _)
    | exact Or.inl (q5 _) | exact Or.inl (q6 _) | exact Or.inl (q7 _) | exact Or.inl (q8 _)
    | exact Or.inl (q9 _) | exact Or.inl (q10 _) | exact Or.inl (q11 _) | exact Or.inl q12
    | exact Or.inl q13 | exact Or.inl (q14 _) | exact Or.inl (q15 _) | exact Or.inl (q16 _)
    | exact Or.inl (q17 _) | exact Or.inl (q18 _) | exact Or.inl q19

/-! ### The invariant of the command loop -/

theorem wrap_int_eq (n : Int) (h0 : -2 ^ 31 ≤ n) (h1 : n < 2 ^ 31) : wrap_int n = n := by
  unfold wrap_int
  norm_num at h0 h1 ⊢
  omega

theorem unordered_map.erase_of_not_mem (m : List (Int × Int)) (k : Int)
    (h : k ∉ m.map Prod.fst) : unordered_map.erase m k = m := by
  unfold unordered_map.erase
  rw [List.filter_eq_self]
  intro p hp
  have : p.1 ≠ k := fun e => h (e ▸ List.mem_map_of_mem Prod.fst hp)
  simpa using this

theorem unordered_map.values_perm_erase (m : List (Int × Int)) (id ffd : Int)
    (hnd : (m.map Prod.fst).Nodup) (hfind : unordered_map.find m id = some ffd) :
    List.Perm (m.map Prod.snd) (ffd :: (unordered_map.erase m id).map Prod.snd) := by
  induction m with
  | nil => simp [unordered_map.find] at hfind
  | cons p rest ih =>
    obtain ⟨k1, v⟩ := p
    simp only [List.map_cons, List.nodup_cons] at hnd
    by_cases h : k1 = id
    · subst h
      simp only [unordered_map.find, if_true, Option.some.injEq] at hfind
      subst hfind
      have : unordered_map.erase ((k1, v) :: rest) k1 = rest := by
        have h2 := unordered_map.erase_of_not_mem rest k1 hnd.1
        simpa [unordered_map.erase, List.filter_cons] using h2
      rw [this]
      exact List.Perm.refl _
    · simp only [unordered_map.find, h, if_false] at hfind
      have h3 : unordered_map.erase ((k1, v) :: rest) id
          = (k1, v) :: unordered_map.erase rest id := by
        simp [unordered_map.erase, List.filter_cons, h]
      rw [h3]
      simp only [List.map_cons]
      exact ((ih hnd.2 hfind).cons v).trans (List.Perm.swap _ _ _)

theorem TableInv.step {s s1 : State} (hK : TableInv s) (he : Effect s s1)
    (hlen : (opened_fds s1.calls).length ≤ 2 ^ 31) : TableInv s1 := by
  obtain ⟨hcount, hids, hnd, hkeys, hperm⟩ := hK
  rcases he with hq | ⟨ffd, extra, h0, hmap, hc, hcalls, ho, hcl, hi⟩ |
      ⟨id, ffd, extra, hfind, hmap, hc, hcalls, ho, hcl, hi⟩
  · obtain ⟨hmap, hc, extra, hcalls, ho, hcl, hi⟩ := hq
    have e1 : opened_fds s1.calls = opened_fds s.calls := by
      rw [hcalls]; simp only [opened_fds, List.filterMap_append] at *; rw [ho]; simp
    have e2 : closed_fds s1.calls = closed_fds s.calls := by
      rw [hcalls]; simp only [closed_fds, List.filterMap_append] at *; rw [hcl]; simp
    have e3 : opened_ids s1.calls = opened_ids s.calls := by
      rw [hcalls]; simp only [opened_ids, List.filterMap_append] at *; rw [hi]; simp
    unfold TableInv
    rw [e1, e2, e3, hmap, hc]
    exact ⟨hcount, hids, hnd, hkeys, hperm⟩
  · have e1 : opened_fds s1.calls = opened_fds s.calls ++ [ffd] := by
      rw [hcalls]; simp only [opened_fds, List.filterMap_append] at *; rw [ho]
    have e2 : closed_fds s1.calls = closed_fds s.calls := by
      rw [hcalls]; simp only [closed_fds, List.filterMap_append] at *; rw [hcl]; simp
    have e3 : opened_ids s1.calls = opened_ids s.calls ++ [s.fd_count] := by
      rw [hcalls]; simp only [opened_ids, List.filterMap_append] at *; rw [hi]
    rw [e1, List.length_append, List.length_singleton] at hlen
    have hn : ((opened_fds s.calls).length : Int) < 2 ^ 31 := by
      have : (opened_fds s.calls).length < 2 ^ 31 := by omega
      exact_mod_cast this
    have hfc : s.fd_count = ((opened_fds s.calls).length : Int) := by
      rw [hcount]
      exact wrap_int_eq _ (by have := Int.ofNat_nonneg (opened_fds s.calls).length; norm_num at *; omega) hn
    have hnot : s.fd_count ∉ s.fd_map.map Prod.fst := by
      intro hmem
      have := (hkeys _ hmem).2
      omega
    have hset : s1.fd_map = (s.fd_count, ffd) :: s.fd_map := by
      rw [hmap, unordered_map.set, unordered_map.erase_of_not_mem _ _ hnot]
    unfold TableInv
    rw [e1, e2, e3, hset, hc]
    refine ⟨?_, ?_, ?_, ?_, ?_⟩
    · rw [hfc]; simp
    · rw [hids, hfc, List.length_append, List.length_singleton, List.range_succ,
        List.map_append]
      rfl
    · simp only [List.map_cons, List.nodup_cons]
      exact ⟨hnot, hnd⟩
    · intro k hk
      simp only [List.map_cons, List.mem_cons] at hk
      simp only [List.length_append, List.length_singleton, Nat.cast_add, Nat.cast_one]
      rcases hk with rfl | hk
      · rw [hfc]; omega
      · have := hkeys k hk; omega
    · simp only [List.map_cons, List.cons_append]
      exact (hperm.cons ffd).trans (List.perm_append_singleton _ _).symm
  · have e1 : opened_fds s1.calls = opened_fds s.calls := by
      rw [hcalls]; simp only [opened_fds, List.filterMap_append] at *; rw [ho]; simp
    have e2 : closed_fds s1.calls = closed_fds s.calls ++ [ffd] := by
      rw [hcalls]; simp only [closed_fds, List.filterMap_append] at *; rw [hcl]
    have e3 : opened_ids s1.calls = opened_ids s.calls := by
      rw [hcalls]; simp only [opened_ids, List.filterMap_append] at *; rw [hi]; simp
    unfold TableInv
    rw [e1, e2, e3, hmap, hc]
    have hsub : List.Sublist ((unordered_map.erase s.fd_map id).map Prod.fst)
        (s.fd_map.map Prod.fst) :=
      (List.filter_sublist _).map _
    refine ⟨hcount, hids, hnd.sublist hsub, fun k hk => hkeys k (hsub.subset hk), ?_⟩
    have hp := unordered_map.values_perm_erase s.fd_map id ffd hnd hfind
    refine List.Perm.trans ?_ hperm
    have h1 : List.Perm
        ((unordered_map.erase s.fd_map id).map Prod.snd ++ (closed_fds s.calls ++ [ffd]))
        (ffd :: ((unordered_map.erase s.fd_map id).map Prod.snd ++ closed_fds s.calls)) := by
      rw [← List.append_assoc]
      exact List.perm_append_singleton _ _
    refine h1.trans ?_
    rw [← List.cons_append]
    exact hp.symm.append_right _

theorem Effect.opened_le {s s1 : State} (he : Effect s s1) :
    (opened_fds s.calls).length ≤ (opened_fds s1.calls).length := by
  have key : ∀ extra : List Call, s1.calls = s.calls ++ extra →
      (opened_fds s.calls).length ≤ (opened_fds s1.calls).length := by
    intro extra h
    rw [h]
    simp [opened_fds, List.filterMap_append]
  rcases he with ⟨_, _, extra, h, _⟩ | ⟨_, extra, _, _, _, h, _⟩ |
      ⟨_, _, extra, _, _, _, h, _⟩
  all_goals exact key extra h

theorem close_all_fds_opened (s : State) :
    opened_fds (close_all_fds s).calls = opened_fds s.calls := by
  simp only [close_all_fds, opened_fds, List.filterMap_append, List.filterMap_map]
  have : List.filterMap (Call.opened ∘ fun p : Int × Int => Call.close p.2) s.fd_map = [] :=
    List.filterMap_eq_nil_iff.mpr (fun _ _ => rfl)
  rw [this, List.append_nil]

theorem close_all_fds_ids (s : State) :
    opened_ids (close_all_fds s).calls = opened_ids s.calls := by
  simp only [close_all_fds, opened_ids, List.filterMap_append, List.filterMap_map]
  have : List.filterMap (Call.opened_id ∘ fun p : Int × Int => Call.close p.2) s.fd_map = [] :=
    List.filterMap_eq_nil_iff.mpr (fun _ _ => rfl)
  rw [this, List.append_nil]

theorem close_all_fds_closed (s : State) :
    closed_fds (close_all_fds s).calls = closed_fds s.calls ++ s.fd_map.map Prod.snd := by
  simp only [close_all_fds, closed_fds, List.filterMap_append, List.filterMap_map]
  congr 1
  induction s.fd_map with
  | nil => rfl
  | cons p rest ih => simp [List.filterMap_cons, Call.closed, ih]

theorem session_opened_le (fd : Int) (steps : List Step) :
    ∀ (s : State) (r : Bool) (s2 : State),
      connection_version_3 fd steps s = some (r, s2) →
      (opened_fds s.calls).length ≤ (opened_fds s2.calls).length := by
  induction steps with
  | nil =>
    intro s r s2 h
    simp only [connection_version_3, Option.some.injEq, Prod.mk.injEq] at h
    rw [← h.2, close_all_fds_opened]
  | cons step rest ih =>
    intro s r s2 h
    simp only [connection_version_3] at h
    split at h
    · simp only [Option.some.injEq, Prod.mk.injEq] at h
      rw [← h.2, close_all_fds_opened]
    · split at h
      · exact absurd h (by simp)
      · rename_i ret s1 hd
        have he := dispatch_effect _ _ _ _ _ _ hd
        split at h
        · exact le_trans he.opened_le (ih s1 r s2 h)
        · simp only [Option.some.injEq, Prod.mk.injEq] at h
          rw [← h.2, close_all_fds_opened]
          exact he.opened_le

/-- What holds of the state a session returns with. -/
theorem TableInv.teardown {s : State} (hK : TableInv s) :
    (close_all_fds s).fd_map = [] ∧
    opened_ids (close_all_fds s).calls =
      (List.range (opened_fds (close_all_fds s).calls).length).map Int.ofNat ∧
    List.Perm (closed_fds (close_all_fds s).calls) (opened_fds (close_all_fds s).calls) := by
  obtain ⟨_, hids, _, _, hperm⟩ := hK
  rw [close_all_fds_opened, close_all_fds_ids, close_all_fds_closed]
  exact ⟨rfl, hids, List.perm_append_comm.trans hperm⟩

theorem session_final (fd : Int) (steps : List Step) :
    ∀ (s : State) (r : Bool) (s2 : State), TableInv s →
      connection_version_3 fd steps s = some (r, s2) →
      (opened_fds s2.calls).length ≤ 2 ^ 31 →
      s2.fd_map = [] ∧
      opened_ids s2.calls = (List.range (opened_fds s2.calls).length).map Int.ofNat ∧
      List.Perm (closed_fds s2.calls) (opened_fds s2.calls) := by
  induction steps with
  | nil =>
    intro s r s2 hK h _
    simp only [connection_version_3, Option.some.injEq, Prod.mk.injEq] at h
    rw [← h.2]
    exact hK.teardown
  | cons step rest ih =>
    intro s r s2 hK h hlen
    simp only [connection_version_3] at h
    split at h
    · simp only [Option.some.injEq, Prod.mk.injEq] at h
      rw [← h.2]
      exact hK.teardown
    · split at h
      · exact absurd h (by simp)
      · rename_i ret s1 hd
        have he := dispatch_effect _ _ _ _ _ _ hd
        split at h
        · have hK1 : TableInv s1 :=
            hK.step he (le_trans (session_opened_le fd rest s1 r s2 h) hlen)
          exact ih s1 r s2 hK1 h hlen
        · simp only [Option.some.injEq, Prod.mk.injEq] at h
          have hK1 : TableInv s1 := by
            refine hK.step he ?_
            rw [← h.2, close_all_fds_opened] at hlen
            exact hlen
          rw [← h.2]
          exact hK1.teardown

theorem TableInv.init : TableInv State.init := by
  refine ⟨rfl, rfl, List.nodup_nil, ?_, List.Perm.refl _⟩
  intro k hk
  simp [State.init] at hk

theorem opened_fds_nonneg (calls : List Call) : ∀ d ∈ opened_fds calls, 0 ≤ d := by
  intro d hd
  simp only [opened_fds, List.mem_filterMap] at hd
  obtain ⟨c, _, hc⟩ := hd
  cases c
  case open_ path flags perms ret =>
    simp only [Call.opened] at hc
    split at hc
    · simp only [Option.some.injEq] at hc
      omega
    · cases hc
  all_goals cases hc

theorem nodup_int_length_le (l : List Int) (hnd : l.Nodup)
    (hr : ∀ d ∈ l, 0 ≤ d ∧ d < 2 ^ 31) : l.length ≤ 2 ^ 31 := by
  have hinj : (l.map Int.toNat).Nodup := by
    refine (List.nodup_map_iff_inj_on hnd).mpr ?_
    intro a ha b hb hab
    have h1 := (hr a ha).1
    have h2 := (hr b hb).1
    omega
  have hsub : (l.map Int.toNat).toFinset ⊆ Finset.range (2 ^ 31) := by
    intro x hx
    simp only [List.mem_toFinset, List.mem_map] at hx
    obtain ⟨d, hd, rfl⟩ := hx
    have := hr d hd
    simp only [Finset.mem_range]
    omega
  have hcard := Finset.card_le_card hsub
  rw [List.toFinset_card_of_nodup hinj, Finset.card_range, List.length_map] at hcard
  exact hcard

/-! ## C1 -/

/-- C1: for every 32-bit `mode`, `v3_file_chmod` on a known handle and
`v3_path_chmod` on a present path do nothing but write an Invalid response
when `mode & ~0777 != 0` (no `fchmod`, no `chmod`), and otherwise call
`fchmod` / `chmod` with the unchanged `mode` before writing their response. -/
theorem v3_chmod_mode_check (sys : Sys) (fd : Int) (s : State) (id ffd : Int)
    (path : String) (mode : Nat) (hmode : mode < 2 ^ 32)
    (hfind : unordered_map.find s.fd_map id = some ffd) :
    (mode &&& 0xFFFFFE00 ≠ 0 →
      v3_file_chmod sys fd ⟨id, mode⟩ s =
        (sys.socket_write_bytes fd ⟨.Invalid, .Invalid⟩,
          s.call (Call.socket_write_bytes fd ⟨.Invalid, .Invalid⟩)) ∧
      v3_path_chmod sys fd ⟨some path, mode⟩ s =
        (sys.socket_write_bytes fd ⟨.Invalid, .Invalid⟩,
          s.call (Call.socket_write_bytes fd ⟨.Invalid, .Invalid⟩))) ∧
    (mode &&& 0xFFFFFE00 = 0 →
      (v3_file_chmod sys fd ⟨id, mode⟩ s).2 =
        (s.call (Call.fchmod ffd mode)).call (Call.socket_write_bytes fd
          ⟨.FileChmodResponse,
            if sys.fchmod ffd mode < 0 then
              .FileChmodResponse false (some sys.strerror_errno)
            else .FileChmodResponse true none⟩) ∧
      (v3_path_chmod sys fd ⟨some path, mode⟩ s).2 =
        (s.call (Call.chmod path mode)).call (Call.socket_write_bytes fd
          ⟨.PathChmodResponse,
            if sys.chmod path mode < 0 then
              .PathChmodResponse false (some sys.strerror_errno)
            else .PathChmodResponse true none⟩)) := by
  have key := mask_0777_eq_iff mode hmode
  constructor
  · intro hbits
    have hne : mode &&& (S_IRWXU ||| S_IRWXG ||| S_IRWXO) ≠ mode :=
      fun e => hbits (key.mp e)
    simp [v3_file_chmod, v3_path_chmod, hfind, hne, v3_send_response_invalid,
      v3_send_response]
  · intro hbits
    have heq : mode &&& (S_IRWXU ||| S_IRWXG ||| S_IRWXO) = mode := key.mpr hbits
    constructor
    · simp only [v3_file_chmod, hfind, heq, ne_eq, not_true_eq_false, if_false,
        v3_send_response]
    · simp only [v3_path_chmod, heq, ne_eq, not_true_eq_false, if_false,
        v3_send_response]

/-- C1 at the modes of the spec: with handle `0` mapped to descriptor `3`,
`04755` is rejected and `0755` is applied. -/
theorem v3_chmod_mode_check_witness :
    (v3_file_chmod Sys.quiet 9 ⟨0, 0o4755⟩ ⟨[(0, 3)], 1, []⟩).2.calls =
        [Call.socket_write_bytes 9 ⟨.Invalid, .Invalid⟩] ∧
    (v3_path_chmod Sys.quiet 9 ⟨some "/data/f", 0o4755⟩ ⟨[(0, 3)], 1, []⟩).2.calls =
        [Call.socket_write_bytes 9 ⟨.Invalid, .Invalid⟩] ∧
    (v3_file_chmod Sys.quiet 9 ⟨0, 0o755⟩ ⟨[(0, 3)], 1, []⟩).2.calls =
        [Call.fchmod 3 0o755,
          Call.socket_write_bytes 9 ⟨.FileChmodResponse, .FileChmodResponse true none⟩] ∧
    (v3_path_chmod Sys.quiet 9 ⟨some "/data/f", 0o755⟩ ⟨[(0, 3)], 1, []⟩).2.calls =
        [Call.chmod "/data/f" 0o755,
          Call.socket_write_bytes 9 ⟨.PathChmodResponse, .PathChmodResponse true none⟩] := by
  have h1 := (v3_chmod_mode_check Sys.quiet 9 ⟨[(0, 3)], 1, []⟩ 0 3 "/data/f" 0o4755
    (by decide) (by decide)).1 (by decide)
  have h2 := (v3_chmod_mode_check Sys.quiet 9 ⟨[(0, 3)], 1, []⟩ 0 3 "/data/f" 0o755
    (by decide) (by decide)).2 (by decide)
  refine ⟨?_, ?_, ?_, ?_⟩
  · rw [h1.1]; rfl
  · rw [h1.2]; rfl
  · rw [h2.1]; rfl
  · rw [h2.2]; rfl

/-! ## C2 -/

/-- C2 fails on the code: two regular files with the same `(st_dev, st_ino)`
pair `(1, 2)` and size `10` are visited; `on_reached_file` records the device
number where the inode number belongs, does not recognise the second visit,
and `total()` is `20` instead of `10`. -/
theorem directory_size_hard_link_counted_twice :
    (DirectorySizeGetter.reach_files
        [⟨2, "A", 1, 2, 10⟩, ⟨2, "B", 1, 2, 10⟩]
        (DirectorySizeGetter.new [])).total = 20 ∧
    (DirectorySizeGetter.reach_files
        [⟨2, "A", 1, 2, 10⟩]
        (DirectorySizeGetter.new []))._links = [(1, [1])] := by
  decide

/-! ## C3 -/

/-- C3 fails on the code: `v3_file_selinux_get_label` on the known handle
`0` writes one response whose payload is a `FileSELinuxGetLabelResponse` but
whose tag is `PathSELinuxGetLabelResponse`. -/
theorem file_selinux_get_label_tag_mismatch :
    (v3_file_selinux_get_label Sys.quiet 9 ⟨0⟩ ⟨[(0, 3)], 1, []⟩).2.calls =
      [Call.selinux_fget_context 3,
        Call.socket_write_bytes 9
          ⟨ResponseType.PathSELinuxGetLabelResponse,
            Payload.FileSELinuxGetLabelResponse true none
              (some "u:object_r:unlabeled:s0")⟩] ∧
    (Payload.FileSELinuxGetLabelResponse true none
        (some "u:object_r:unlabeled:s0")).variant
      ≠ ResponseType.PathSELinuxGetLabelResponse := by
  decide

/-! ## C4 -/

/-- C4 fails on the code: for a `PathSELinuxSetLabelRequest` whose path is
present and whose label is absent, `v3_path_selinux_set_label` sends nothing;
it dereferences the null label, while a request without a path is answered
with Invalid. -/
theorem path_selinux_set_label_null_label (sys : Sys) (fd : Int) (s : State)
    (path : String) (follow_symlinks : Bool) :
    v3_path_selinux_set_label sys fd ⟨some path, none, follow_symlinks⟩ s = none ∧
    v3_path_selinux_set_label sys fd ⟨none, none, follow_symlinks⟩ s =
      some (sys.socket_write_bytes fd ⟨.Invalid, .Invalid⟩,
        s.call (Call.socket_write_bytes fd ⟨.Invalid, .Invalid⟩)) := by
  constructor <;> rfl

/-- The other handlers that take string or byte fields answer a request with
an absent field by the write of an Invalid response and nothing else. -/
theorem null_field_is_invalid (sys : Sys) (fd : Int) (s : State) :
    let invalid : Bool × State :=
      (sys.socket_write_bytes fd ⟨.Invalid, .Invalid⟩,
        s.call (Call.socket_write_bytes fd ⟨.Invalid, .Invalid⟩))
    (∀ flags perms, v3_file_open sys fd ⟨none, flags, perms⟩ s = invalid) ∧
    (∀ id, v3_file_write sys fd ⟨id, none⟩ s = invalid) ∧
    (∀ id, v3_file_selinux_set_label sys fd ⟨id, none⟩ s = invalid) ∧
    (∀ mode, v3_path_chmod sys fd ⟨none, mode⟩ s = invalid) ∧
    (∀ target, v3_path_copy sys fd ⟨none, target⟩ s = invalid) ∧
    (∀ source, v3_path_copy sys fd ⟨source, none⟩ s = invalid) ∧
    (∀ follow, v3_path_selinux_get_label sys fd ⟨none, follow⟩ s = invalid) ∧
    (∀ label follow,
      v3_path_selinux_set_label sys fd ⟨none, label, follow⟩ s = some invalid) ∧
    (∀ exclusions, v3_path_get_directory_size sys fd ⟨none, exclusions⟩ s = invalid) ∧
    (∀ dev, v3_mb_set_kernel sys fd ⟨none, dev⟩ s = invalid) ∧
    (∀ rom, v3_mb_set_kernel sys fd ⟨rom, none⟩ s = invalid) ∧
    (∀ dev dirs force, v3_mb_switch_rom sys fd ⟨none, dev, dirs, force⟩ s = invalid) ∧
    (∀ rom dirs force, v3_mb_switch_rom sys fd ⟨rom, none, dirs, force⟩ s = invalid) ∧
    (∀ targets, v3_mb_wipe_rom sys fd ⟨none, targets⟩ s = invalid) ∧
    v3_mb_get_packages_count sys fd ⟨none⟩ s = invalid := by
  refine ⟨?_, ?_, ?_, ?_, ?_, ?_, ?_, ?_, ?_, ?_, ?_, ?_, ?_, ?_, ?_⟩
  all_goals
    intros
    simp only [v3_file_open, v3_file_write, v3_file_selinux_set_label, v3_path_chmod,
      v3_path_copy, v3_path_selinux_get_label, v3_path_selinux_set_label,
      v3_path_get_directory_size, v3_mb_set_kernel, v3_mb_switch_rom, v3_mb_wipe_rom,
      v3_mb_get_packages_count, v3_send_response_invalid, v3_send_response]
    repeat' split
    all_goals first
      | rfl
      | simp_all

/-! ## C5 -/

/-- C5 as stated fails: handle `7` is not in the (empty) table, and when the
write of the Invalid response fails `v3_file_close` returns `false`, which the
loop takes as a connection error. -/
theorem unknown_handle_may_report_connection_error :
    unordered_map.find State.init.fd_map 7 = none ∧
    (v3_file_close Sys.failing 9 ⟨7⟩ State.init).1 = false := by
  decide

/-- C5, amended: for an id that is not a key of `fd_map`, each of the eight
handle-addressed handlers makes exactly one call, the write of an Invalid
response, leaves `fd_map` and `fd_count` unchanged, and returns the result of
that write (so it reports a connection error only when the write fails). -/
theorem unknown_handle_is_invalid (sys : Sys) (fd : Int) (s : State) (id : Int)
    (mode count : Nat) (offset whence : Int) (label : Option String)
    (data : Option (List Nat)) (hfind : unordered_map.find s.fd_map id = none) :
    let invalid : Bool × State :=
      (sys.socket_write_bytes fd ⟨.Invalid, .Invalid⟩,
        { fd_map := s.fd_map, fd_count := s.fd_count,
          calls := s.calls ++ [Call.socket_write_bytes fd ⟨.Invalid, .Invalid⟩] })
    v3_file_chmod sys fd ⟨id, mode⟩ s = invalid ∧
    v3_file_close sys fd ⟨id⟩ s = invalid ∧
    v3_file_read sys fd ⟨id, count⟩ s = some invalid ∧
    v3_file_seek sys fd ⟨id, offset, whence⟩ s = invalid ∧
    v3_file_stat sys fd ⟨id⟩ s = invalid ∧
    v3_file_write sys fd ⟨id, data⟩ s = invalid ∧
    v3_file_selinux_get_label sys fd ⟨id⟩ s = invalid ∧
    v3_file_selinux_set_label sys fd ⟨id, label⟩ s = invalid := by
  simp [v3_file_chmod, v3_file_close, v3_file_read, v3_file_seek, v3_file_stat,
    v3_file_write, v3_file_selinux_get_label, v3_file_selinux_set_label, hfind,
    v3_send_response_invalid, v3_send_response, State.call]

/-- C5, amended, at handle `7` of the empty table with a socket that accepts
the response: `v3_file_read` returns `true` after the one write. -/
theorem unknown_handle_is_invalid_witness :
    v3_file_read Sys.quiet 9 ⟨7, 16⟩ State.init =
      some (true, { fd_map := [], fd_count := 0,
                    calls := [Call.socket_write_bytes 9 ⟨.Invalid, .Invalid⟩] }) :=
  (unknown_handle_is_invalid Sys.quiet 9 State.init 7 0 16 0 0 none none
    (by decide)).2.2.1

/-! ## C6 -/

/-- C6: in every session that starts from the initial values of the statics
(`fd_map` empty, `fd_count = 0`) and makes fewer
than `2 ^ 31` successful opens, the ids carried by the successful open
responses are strictly increasing and non-negative, hence pairwise distinct,
whatever was closed in between. -/
theorem open_ids_strictly_increasing (fd : Int) (steps : List Step) (r : Bool)
    (s2 : State) (hrun : connection_version_3 fd steps State.init = some (r, s2))
    (hopens : (opened_fds s2.calls).length < 2 ^ 31) :
    List.Pairwise (fun a b : Int => a < b) (opened_ids s2.calls) ∧
    (∀ id ∈ opened_ids s2.calls, 0 ≤ id) ∧
    (opened_ids s2.calls).Nodup := by
  have h := (session_final fd steps State.init r s2 TableInv.init hrun (le_of_lt hopens)).2.1
  have hp : List.Pairwise (fun a b : Int => a < b) (opened_ids s2.calls) := by
    rw [h, List.pairwise_map]
    exact (List.pairwise_lt_range _).imp (fun hab => Int.ofNat_lt.mpr hab)
  refine ⟨hp, ?_, hp.imp (fun hab => ne_of_lt hab)⟩
  intro id hid
  rw [h] at hid
  obtain ⟨n, _, rfl⟩ := List.mem_map.mp hid
  exact Int.ofNat_nonneg n

/-- C6 on `example_session`: the ids handed out are `0, 1, 2`, although
handle `0` was closed before the third open. -/
theorem open_ids_strictly_increasing_witness :
    connection_version_3 9 example_session State.init = some (false, example_final) ∧
    opened_ids example_final.calls = [0, 1, 2] ∧
    List.Pairwise (fun a b : Int => a < b) (opened_ids example_final.calls) :=
  ⟨by decide, by decide,
    (open_ids_strictly_increasing 9 example_session false example_final
      (by decide) (by decide)).1⟩

/-! ## C7 -/

/-- C7: when `open()` returns a negative value, `v3_file_open` writes a
`FileOpenResponse` with `success = false` and the text of `strerror(errno)`,
and `fd_map` and `fd_count` are what they were. -/
theorem v3_file_open_failure (sys : Sys) (fd : Int) (s : State) (path : String)
    (flags : Option (List Int)) (perms : Nat)
    (hopen : sys.open_ path (file_open_flags flags) perms < 0) :
    v3_file_open sys fd ⟨some path, flags, perms⟩ s =
      (sys.socket_write_bytes fd
          ⟨.FileOpenResponse, .FileOpenResponse false (some sys.strerror_errno) none⟩,
        { fd_map := s.fd_map, fd_count := s.fd_count,
          calls := s.calls ++
            [Call.open_ path (file_open_flags flags) perms
                (sys.open_ path (file_open_flags flags) perms),
              Call.socket_write_bytes fd
                ⟨.FileOpenResponse,
                  .FileOpenResponse false (some sys.strerror_errno) none⟩] }) := by
  simp only [v3_file_open]
  rw [if_pos hopen]
  simp [v3_send_response, State.call]

/-- C7 at a failing `open()` on a table holding handle `0`: the table and the
counter are unchanged and the response carries the error text. -/
theorem v3_file_open_failure_witness :
    v3_file_open Sys.failing 9 ⟨some "/nonexistent", some [FileOpenFlag_RDONLY], 0⟩
        ⟨[(0, 3)], 1, []⟩ =
      (false,
        { fd_map := [(0, 3)], fd_count := 1,
          calls :=
            [Call.open_ "/nonexistent" O_CLOEXEC 0 (-1),
              Call.socket_write_bytes 9
                ⟨.FileOpenResponse,
                  .FileOpenResponse false (some "Input/output error") none⟩] }) :=
  v3_file_open_failure Sys.failing 9 ⟨[(0, 3)], 1, []⟩
    "/nonexistent" (some [FileOpenFlag_RDONLY]) 0 (by decide)

/-! ## C8 -/

/-- C8: after `v3_file_close` on a known handle the handle is no longer a key
of `fd_map`, whatever `close()` returned, and every other key maps to what it
mapped to before. -/
theorem v3_file_close_removes_entry (sys : Sys) (fd : Int) (s : State) (id ffd : Int)
    (hfind : unordered_map.find s.fd_map id = some ffd) :
    unordered_map.find (v3_file_close sys fd ⟨id⟩ s).2.fd_map id = none ∧
    (∀ k : Int, k ≠ id →
      unordered_map.find (v3_file_close sys fd ⟨id⟩ s).2.fd_map k =
        unordered_map.find s.fd_map k) ∧
    (v3_file_close sys fd ⟨id⟩ s).2.fd_map = s.fd_map.filter (fun p => decide (p.1 ≠ id)) := by
  have h : (v3_file_close sys fd ⟨id⟩ s).2.fd_map = unordered_map.erase s.fd_map id := by
    simp [v3_file_close, hfind, v3_send_response, State.call]
  rw [h]
  exact ⟨unordered_map.find_erase_self _ _,
    fun k hk => unordered_map.find_erase_ne _ _ _ hk, rfl⟩

/-- C8 on the table `0 ↦ 3, 1 ↦ 4` with a `close()` that fails: handle `0` is
gone and handle `1` still maps to `4`. -/
theorem v3_file_close_removes_entry_witness :
    unordered_map.find
        (v3_file_close Sys.failing 9 ⟨0⟩ ⟨[(0, 3), (1, 4)], 2, []⟩).2.fd_map 0 = none ∧
    unordered_map.find
        (v3_file_close Sys.failing 9 ⟨0⟩ ⟨[(0, 3), (1, 4)], 2, []⟩).2.fd_map 1 = some 4 := by
  have h := v3_file_close_removes_entry Sys.failing 9 ⟨[(0, 3), (1, 4)], 2, []⟩ 0 3
    (by decide)
  exact ⟨h.1, by rw [h.2.1 1 (by decide)]; decide⟩

/-! ## C9 -/

/-- C9 as stated fails: `read()` on the known handle `0` fails, the response
reports the failure, and handle `0` is still mapped to descriptor `3`. -/
theorem failed_read_keeps_entry :
    (Sys.failing.read 3 16).1 < 0 ∧
    v3_file_read Sys.failing 9 ⟨0, 16⟩ ⟨[(0, 3)], 1, []⟩ =
      some (false,
        { fd_map := [(0, 3)], fd_count := 1,
          calls :=
            [Call.read 3 16,
              Call.socket_write_bytes 9
                ⟨.FileReadResponse,
                  .FileReadResponse false (some "Input/output error") none none⟩] }) := by
  decide

/-- C9, amended: read, write, seek, stat, chmod and label get/set leave
`fd_map` and `fd_count` exactly as they were, whatever the system call
returned; an entry is removed by close only.  (A read whose buffer cannot be
allocated aborts the process; every read that returns leaves them as they
were.) -/
theorem handle_operations_keep_table (sys : Sys) (fd : Int) (s : State) (id : Int)
    (mode count : Nat) (offset whence : Int) (label : Option String)
    (data : Option (List Nat)) :
    (∀ r, v3_file_read sys fd ⟨id, count⟩ s = some r →
      r.2.fd_map = s.fd_map ∧ r.2.fd_count = s.fd_count) ∧
    ((v3_file_write sys fd ⟨id, data⟩ s).2.fd_map = s.fd_map ∧
      (v3_file_write sys fd ⟨id, data⟩ s).2.fd_count = s.fd_count) ∧
    ((v3_file_seek sys fd ⟨id, offset, whence⟩ s).2.fd_map = s.fd_map ∧
      (v3_file_seek sys fd ⟨id, offset, whence⟩ s).2.fd_count = s.fd_count) ∧
    ((v3_file_stat sys fd ⟨id⟩ s).2.fd_map = s.fd_map ∧
      (v3_file_stat sys fd ⟨id⟩ s).2.fd_count = s.fd_count) ∧
    ((v3_file_chmod sys fd ⟨id, mode⟩ s).2.fd_map = s.fd_map ∧
      (v3_file_chmod sys fd ⟨id, mode⟩ s).2.fd_count = s.fd_count) ∧
    ((v3_file_selinux_get_label sys fd ⟨id⟩ s).2.fd_map = s.fd_map ∧
      (v3_file_selinux_get_label sys fd ⟨id⟩ s).2.fd_count = s.fd_count) ∧
    ((v3_file_selinux_set_label sys fd ⟨id, label⟩ s).2.fd_map = s.fd_map ∧
      (v3_file_selinux_set_label sys fd ⟨id, label⟩ s).2.fd_count = s.fd_count) := by
  refine ⟨?_, ?_, ?_, ?_, ?_, ?_, ?_⟩
  · intro r h
    simp only [v3_file_read, v3_send_response_invalid, v3_send_response, State.call] at h
    repeat' split at h
    all_goals first
      | (cases h; done)
      | (cases h; exact ⟨rfl, rfl⟩)
  · unfold v3_file_write
    split <;> simp [v3_send_response_invalid, v3_send_response, State.call]
  · unfold v3_file_seek
    split
    · simp [v3_send_response_invalid, v3_send_response, State.call]
    · split <;> simp [v3_send_response_invalid, v3_send_response, State.call]
  · unfold v3_file_stat
    split <;> simp [v3_send_response_invalid, v3_send_response, State.call]
  · unfold v3_file_chmod
    split
    · simp [v3_send_response_invalid, v3_send_response, State.call]
    · dsimp only
      split <;> simp [v3_send_response_invalid, v3_send_response, State.call]
  · unfold v3_file_selinux_get_label
    split <;> simp [v3_send_response_invalid, v3_send_response, State.call]
  · unfold v3_file_selinux_set_label
    split <;> simp [v3_send_response_invalid, v3_send_response, State.call]

/-- C9 for a read that fails on the known handle `0`: the read returns, and
the entry of the handle and the id counter are as before. -/
theorem handle_operations_keep_table_witness :
    ∃ r, v3_file_read Sys.failing 9 ⟨0, 16⟩ ⟨[(0, 3)], 1, []⟩ = some r ∧
      r.1 = false ∧ r.2.fd_map = [(0, 3)] ∧ r.2.fd_count = 1 :=
  ⟨(v3_send_response Sys.failing 9
      ⟨.FileReadResponse, .FileReadResponse false (some "Input/output error") none none⟩
      (State.call ⟨[(0, 3)], 1, []⟩ (Call.read 3 16))),
    by decide, by decide,
    (handle_operations_keep_table Sys.failing 9 ⟨[(0, 3)], 1, []⟩ 0 0 16 0 0 none none).1 _
      (by decide)⟩

/-! ## C10 -/

/-- The session `aborting_session` does not return: the read of `2 ^ 63`
bytes aborts the process while descriptor `3` is still in `fd_map`, and no
teardown runs. -/
theorem aborting_session_does_not_return :
    connection_version_3 9 aborting_session State.init = none ∧
    (v3_file_open Sys.quiet 9 ⟨some "/data/f", none, 0⟩ State.init).2.fd_map = [(0, 3)] := by
  constructor
  · decide
  · decide

/-- C10: in every session run that starts from the initial values of the
statics and returns (by a failed read, a buffer that fails verification or a
failed response write) and in which the successful
`open()` calls return pairwise distinct `int` descriptors, every such
descriptor is passed to `close()` exactly once, nothing else is closed, and
`fd_map` is empty on return.  A run in which a handler aborts the process
(`connection_version_3` is `none`) ends in none of these three ways and does
not return. -/
theorem session_closes_each_descriptor_once (fd : Int) (steps : List Step) (r : Bool)
    (s2 : State) (hrun : connection_version_3 fd steps State.init = some (r, s2))
    (hdistinct : (opened_fds s2.calls).Nodup)
    (hint : ∀ d ∈ opened_fds s2.calls, d < 2 ^ 31) :
    (∀ d ∈ opened_fds s2.calls, (closed_fds s2.calls).count d = 1) ∧
    List.Perm (closed_fds s2.calls) (opened_fds s2.calls) ∧
    s2.fd_map = [] := by
  have hlen : (opened_fds s2.calls).length ≤ 2 ^ 31 :=
    nodup_int_length_le _ hdistinct
      (fun d hd => ⟨opened_fds_nonneg _ d hd, hint d hd⟩)
  obtain ⟨hmap, _, hperm⟩ := session_final fd steps State.init r s2 TableInv.init hrun hlen
  refine ⟨?_, hperm, hmap⟩
  intro d hd
  rw [hperm.count_eq d]
  exact List.count_eq_one_of_mem hdistinct hd

/-- C10 on `example_session`: descriptors `3, 4, 5` are opened; `3` is closed
by its close request, `5` and `4` by the teardown, each exactly once. -/
theorem session_closes_each_descriptor_once_witness :
    opened_fds example_final.calls = [3, 4, 5] ∧
    closed_fds example_final.calls = [3, 5, 4] ∧
    (∀ d ∈ opened_fds example_final.calls, (closed_fds example_final.calls).count d = 1) :=
  ⟨by decide, by decide,
    (session_closes_each_descriptor_once 9 example_session false example_final
      (by decide) (by decide) (by decide)).1⟩

/-! ## Helper lemmas: one response per request -/

theorem silent_refl (s : State) : Silent s s :=
  ⟨[], by simp, rfl⟩

theorem silent_call_step {s s1 : State} (h : Silent s s1) (c : Call)
    (hc : c.response = none) : Silent s (s1.call c) := by
  obtain ⟨extra, he, hr⟩ := h
  refine ⟨extra ++ [c], ?_, ?_⟩
  · simp [State.call, he]
  · simp only [responses, List.filterMap_append] at *
    rw [hr]
    simp [hc]

theorem silent_calls_step {s s1 : State} (h : Silent s s1) (l : List Call)
    (hl : ∀ c ∈ l, c.response = none) :
    Silent s { s1 with calls := s1.calls ++ l } := by
  obtain ⟨extra, he, hr⟩ := h
  refine ⟨extra ++ l, ?_, ?_⟩
  · simp [he]
  · simp only [responses, List.filterMap_append] at *
    rw [hr, List.filterMap_eq_nil_iff.mpr hl]
    rfl

theorem silent_table {s s1 : State} (h : Silent s s1) (m : List (Int × Int)) (n : Int) :
    Silent s { s1 with fd_map := m, fd_count := n } :=
  h

theorem one_response_send {s s1 : State} (h : Silent s s1) (sys : Sys) (fd : Int)
    (response : Response) : OneResponse sys fd s (v3_send_response sys fd response s1) := by
  obtain ⟨extra, he, hr⟩ := h
  exact ⟨extra, response, by simp [v3_send_response, State.call, he], hr, rfl⟩

theorem one_response_invalid {s s1 : State} (h : Silent s s1) (sys : Sys) (fd : Int) :
    OneResponse sys fd s (v3_send_response_invalid sys fd s1) :=
  one_response_send h sys fd _

theorem silent_wipe_targets (sys : Sys) (rom : Rom) (targets : List Int) :
    ∀ (i : Nat) (succeeded failed : List Int) (s s1 : State), Silent s s1 →
      Silent s (wipe_targets sys rom i targets succeeded failed s1).2.2 := by
  induction targets with
  | nil => intro _ _ _ s s1 h; exact h
  | cons target rest ih =>
    intro i succeeded failed s s1 h
    simp only [wipe_targets]
    repeat' split
    all_goals
      apply ih
      first
        | exact h
        | exact silent_call_step h _ rfl

/-- Every handler that cannot fault writes exactly one response, as its last
call, and returns the result of that write. -/
theorem one_response_handlers (sys : Sys) (fd : Int) (s : State) :
    (∀ r, OneResponse sys fd s (v3_file_chmod sys fd r s)) ∧
    (∀ r, OneResponse sys fd s (v3_file_close sys fd r s)) ∧
    (∀ r, OneResponse sys fd s (v3_file_open sys fd r s)) ∧
    (∀ r res, v3_file_read sys fd r s = some res → OneResponse sys fd s res) ∧
    (∀ r, OneResponse sys fd s (v3_file_seek sys fd r s)) ∧
    (∀ r, OneResponse sys fd s (v3_file_selinux_get_label sys fd r s)) ∧
    (∀ r, OneResponse sys fd s (v3_file_selinux_set_label sys fd r s)) ∧
    (∀ r, OneResponse sys fd s (v3_file_stat sys fd r s)) ∧
    (∀ r, OneResponse sys fd s (v3_file_write sys fd r s)) ∧
    (∀ r, OneResponse sys fd s (v3_path_chmod sys fd r s)) ∧
    (∀ r, OneResponse sys fd s (v3_path_copy sys fd r s)) ∧
    (∀ r, OneResponse sys fd s (v3_path_selinux_get_label sys fd r s)) ∧
    (∀ r, OneResponse sys fd s (v3_path_get_directory_size sys fd r s)) ∧
    OneResponse sys fd s (v3_mb_get_booted_rom_id sys fd s) ∧
    OneResponse sys fd s (v3_mb_get_installed_roms sys fd s) ∧
    OneResponse sys fd s (v3_mb_get_version sys fd s) ∧
    (∀ r, OneResponse sys fd s (v3_mb_set_kernel sys fd r s)) ∧
    (∀ r, OneResponse sys fd s (v3_mb_switch_rom sys fd r s)) ∧
    (∀ r, OneResponse sys fd s (v3_mb_wipe_rom sys fd r s)) ∧
    (∀ r, OneResponse sys fd s (v3_mb_get_packages_count sys fd r s)) ∧
    (∀ r, OneResponse sys fd s (v3_reboot sys fd r s)) ∧
    OneResponse sys fd s (v3_send_response_unsupported sys fd s) := by
  refine ⟨?_, ?_, ?_, ?_, ?_, ?_, ?_, ?_, ?_, ?_, ?_, ?_, ?_, ?_, ?_, ?_, ?_, ?_, ?_, ?_,
    ?_, ?_⟩
  case refine_4 =>
    intro r res h
    simp only [v3_file_read] at h
    repeat' split at h
    all_goals first
      | (cases h; done)
      | (cases h
         first
           | refine one_response_invalid ?_ _ _
           | refine one_response_send ?_ _ _ _
         repeat first
           | exact silent_refl _
           | refine silent_call_step ?_ _ rfl)
  all_goals
    intros
    simp only [v3_file_chmod, v3_file_close, v3_file_open, v3_file_seek,
      v3_file_selinux_get_label,
      v3_file_selinux_set_label, v3_file_stat, v3_file_write, v3_path_chmod,
      v3_path_copy, v3_path_selinux_get_label, v3_path_get_directory_size,
      v3_mb_get_booted_rom_id, v3_mb_get_installed_roms, v3_mb_get_version,
      v3_mb_set_kernel, v3_mb_switch_rom,
      v3_mb_wipe_rom, v3_mb_get_packages_count, v3_reboot,
      v3_send_response_unsupported]
    repeat' split
    all_goals
      first
        | refine one_response_invalid ?_ _ _
        | refine one_response_send ?_ _ _ _
      repeat first
        | exact silent_refl _
        | refine silent_call_step ?_ _ rfl
        | refine silent_wipe_targets _ _ _ _ _ _ _ _ ?_
        | refine silent_table ?_ _ _
        | refine silent_calls_step ?_ _ (fun c hc => by
            obtain ⟨r, _, rfl⟩ := List.mem_map.mp hc
            rfl)

theorem one_response_path_selinux_set_label (sys : Sys) (fd : Int)
    (r : PathSELinuxSetLabelRequest) (s : State) (res : Bool × State)
    (h : v3_path_selinux_set_label sys fd r s = some res) :
    OneResponse sys fd s res := by
  simp only [v3_path_selinux_set_label] at h
  repeat' split at h
  all_goals first
    | (cases h; done)
    | (cases h
       first
         | refine one_response_invalid ?_ _ _
         | refine one_response_send ?_ _ _ _
       repeat first
         | exact silent_refl _
         | refine silent_call_step ?_ _ rfl)

theorem path_selinux_set_label_none_iff (sys : Sys) (fd : Int)
    (r : PathSELinuxSetLabelRequest) (s : State) :
    v3_path_selinux_set_label sys fd r s = none ↔
      ∃ path : String, r.path = some path ∧ r.label = none := by
  obtain ⟨path, label, follow⟩ := r
  cases path <;> cases label <;> simp [v3_path_selinux_set_label]

theorem v3_file_read_none_iff (sys : Sys) (fd : Int) (id : Int) (count : Nat) (s : State) :
    v3_file_read sys fd ⟨id, count⟩ s = none ↔
      (∃ ffd, unordered_map.find s.fd_map id = some ffd) ∧
        (vector_max_size < count ∨ sys.vector_alloc count = false) := by
  unfold v3_file_read
  cases hfind : unordered_map.find s.fd_map id with
  | none => simp
  | some ffd =>
    simp only [Option.some.injEq, exists_eq', true_and]
    by_cases hsize : count ≤ vector_max_size
    · cases halloc : sys.vector_alloc count
      · simp [hsize]
      · simp [hsize, Nat.not_lt.mpr hsize]
    · simp [hsize, Nat.lt_of_not_le hsize]

/-- Whenever the dispatcher returns, it has written exactly one response, as
its last call, and returns the result of that write. -/
theorem dispatch_one_response (sys : Sys) (fd : Int) (request : Request) (s : State)
    (ret : Bool) (s1 : State) (h : dispatch sys fd request s = some (ret, s1)) :
    OneResponse sys fd s (ret, s1) := by
  obtain ⟨q1, q2, q3, q4, q5, q6, q7, q8, q9, q10, q11, q12, q13, q14, q15, q16, q17,
    q18, q19, q20, q21, q22⟩ := one_response_handlers sys fd s
  cases request <;> simp only [dispatch] at h
  case PathSELinuxSetLabelRequest r =>
    exact one_response_path_selinux_set_label sys fd r s _ h
  case FileReadRequest r =>
    exact q4 r _ h
  all_goals
    simp only [Option.some.injEq] at h
    rw [← h]
    first
      | exact q1 _ | exact q2 _ | exact q3 _ | exact q5 _ | exact q6 _
      | exact q7 _ | exact q8 _ | exact q9 _ | exact q10 _ | exact q11 _
      | exact q12 _ | exact q13 _ | exact q14 | exact q15 | exact q16 | exact q17 _
      | exact q18 _ | exact q19 _ | exact q20 _ | exact q21 _ | exact q22

theorem unsupported_step (fd : Int) (step : Step) (rest : List Step) (s : State)
    (tag : Nat) (h : step.incoming = Incoming.request (Request.Other tag)) :
    connection_version_3 fd (step :: rest) s =
      if step.sys.socket_write_bytes fd ⟨.Unsupported, .Unsupported⟩ then
        connection_version_3 fd rest
          (s.call (Call.socket_write_bytes fd ⟨.Unsupported, .Unsupported⟩))
      else
        some (false, close_all_fds
          (s.call (Call.socket_write_bytes fd ⟨.Unsupported, .Unsupported⟩))) := by
  simp only [connection_version_3, h, dispatch, v3_send_response_unsupported,
    v3_send_response]

theorem unsupported_steps (fd : Int) (us : List Step) :
    ∀ (rest : List Step) (s : State),
      (∀ u ∈ us, (∃ tag : Nat, u.incoming = Incoming.request (Request.Other tag)) ∧
        u.sys.socket_write_bytes fd ⟨.Unsupported, .Unsupported⟩ = true) →
      connection_version_3 fd (us ++ rest) s =
        connection_version_3 fd rest
          { s with
            calls := s.calls ++ List.replicate us.length
                      (Call.socket_write_bytes fd ⟨.Unsupported, .Unsupported⟩) } := by
  induction us with
  | nil => intro rest s _; simp
  | cons u us ih =>
    intro rest s h
    obtain ⟨⟨tag, htag⟩, hw⟩ := h u (List.mem_cons_self _ _)
    rw [List.cons_append, unsupported_step fd u (us ++ rest) s tag htag, if_pos hw,
      ih rest _ (fun x hx => h x (List.mem_cons_of_mem _ hx))]
    simp [State.call, List.replicate_succ]

/-! ## C11 -/

/-- C11: let a session receive `us.length` verified requests whose tag is
none of the recognised ones, the write of each Unsupported response
succeeding, and then a request `request` that the dispatcher answers.  The
loop reaches `request` in the state whose log holds `us.length` more writes
of an Unsupported response and nothing else; when that round is over the
responses written are those of before, `us.length` Unsupported responses and
the response of `request`, and the loop goes on exactly when the write of the
latter succeeded. -/
theorem unsupported_requests_then_valid (fd : Int) (us : List Step) (v : Step)
    (rest : List Step) (request : Request) (s : State) (ret : Bool) (s1 : State)
    (hus : ∀ u ∈ us, (∃ tag : Nat, u.incoming = Incoming.request (Request.Other tag)) ∧
      u.sys.socket_write_bytes fd ⟨.Unsupported, .Unsupported⟩ = true)
    (hv : v.incoming = Incoming.request request)
    (hd : dispatch v.sys fd request
      { s with
        calls := s.calls ++ List.replicate us.length
                  (Call.socket_write_bytes fd ⟨.Unsupported, .Unsupported⟩) } =
      some (ret, s1)) :
    connection_version_3 fd (us ++ v :: rest) s =
      (if ret then connection_version_3 fd rest s1 else some (false, close_all_fds s1)) ∧
    ∃ response : Response,
      responses s1.calls =
        responses s.calls ++ List.replicate us.length ⟨.Unsupported, .Unsupported⟩
          ++ [response] ∧
      ret = v.sys.socket_write_bytes fd response := by
  constructor
  · rw [unsupported_steps fd us (v :: rest) s hus]
    simp only [connection_version_3, hv, hd]
  · obtain ⟨extra, response, h1, h2, h3⟩ :=
      dispatch_one_response v.sys fd request _ ret s1 hd
    refine ⟨response, ?_, h3⟩
    rw [h1]
    simp only [responses, List.filterMap_append] at h2 ⊢
    rw [h2]
    simp [List.filterMap_replicate, Call.response]

/-- C11 with two unsupported requests followed by a version request: two
Unsupported responses, then the version response. -/
theorem unsupported_requests_then_valid_witness :
    connection_version_3 9
        (unsupported_session ++ [⟨.request .MbGetVersionRequest, Sys.quiet⟩]) State.init =
      some (false,
        ⟨[], 0,
          [Call.socket_write_bytes 9 ⟨.Unsupported, .Unsupported⟩,
            Call.socket_write_bytes 9 ⟨.Unsupported, .Unsupported⟩,
            Call.get_mbtool_version,
            Call.socket_write_bytes 9
              ⟨.MbGetVersionResponse, .MbGetVersionResponse "8.0.0"⟩]⟩) :=
  (unsupported_requests_then_valid 9 unsupported_session
    ⟨.request .MbGetVersionRequest, Sys.quiet⟩ [] .MbGetVersionRequest State.init true
    ⟨[], 0,
      [Call.socket_write_bytes 9 ⟨.Unsupported, .Unsupported⟩,
        Call.socket_write_bytes 9 ⟨.Unsupported, .Unsupported⟩,
        Call.get_mbtool_version,
        Call.socket_write_bytes 9
          ⟨.MbGetVersionResponse, .MbGetVersionResponse "8.0.0"⟩]⟩
    (by
      intro u hu
      simp only [unsupported_session, List.mem_cons, List.mem_singleton,
        List.not_mem_nil, or_false] at hu
      rcases hu with rfl | rfl
      · exact ⟨⟨99, rfl⟩, rfl⟩
      · exact ⟨⟨1000, rfl⟩, rfl⟩)
    rfl (by decide)).1

/-! ## C12 -/

/-- C12: for every verified request and every answer of the system, the
dispatcher either ends the session by aborting the process, or it makes calls
of which exactly one, the last, is the write of a response to the socket, and
it returns the result of that write to the loop.  The process is aborted in
two cases only: a `PathSELinuxSetLabelRequest` with a path and without a
label (a null pointer is dereferenced), and a `FileReadRequest` on a known
handle whose `count` is above `max_size()` of the buffer or cannot be
allocated (the constructor of the buffer throws and nothing catches). -/
theorem dispatch_writes_one_response (sys : Sys) (fd : Int) (request : Request)
    (s : State) :
    (dispatch sys fd request s = none ↔
      (∃ (path : String) (follow_symlinks : Bool),
        request = Request.PathSELinuxSetLabelRequest ⟨some path, none, follow_symlinks⟩) ∨
      (∃ (id : Int) (count : Nat) (ffd : Int),
        request = Request.FileReadRequest ⟨id, count⟩ ∧
        unordered_map.find s.fd_map id = some ffd ∧
        (vector_max_size < count ∨ sys.vector_alloc count = false))) ∧
    (∀ (ret : Bool) (s1 : State), dispatch sys fd request s = some (ret, s1) →
      ∃ (extra : List Call) (response : Response),
        s1.calls = s.calls ++ extra ++ [Call.socket_write_bytes fd response] ∧
        responses extra = [] ∧
        ret = sys.socket_write_bytes fd response) := by
  obtain ⟨q1, q2, q3, q4, q5, q6, q7, q8, q9, q10, q11, q12, q13, q14, q15, q16, q17,
    q18, q19, q20, q21, q22⟩ := one_response_handlers sys fd s
  constructor
  · cases request <;> simp only [dispatch]
    case PathSELinuxSetLabelRequest r =>
      rw [path_selinux_set_label_none_iff]
      obtain ⟨path, label, follow⟩ := r
      constructor
      · rintro ⟨p, hp, hl⟩
        simp only at hp hl
        subst hp hl
        exact Or.inl ⟨p, follow, rfl⟩
      · rintro (⟨p, f, h⟩ | ⟨_, _, _, h, _⟩)
        · simp only [Request.PathSELinuxSetLabelRequest.injEq,
            PathSELinuxSetLabelRequest.mk.injEq] at h
          exact ⟨p, h.1, h.2.1⟩
        · cases h
    case FileReadRequest r =>
      obtain ⟨id, count⟩ := r
      rw [v3_file_read_none_iff]
      constructor
      · rintro ⟨⟨ffd, hfind⟩, hthrow⟩
        exact Or.inr ⟨id, count, ffd, rfl, hfind, hthrow⟩
      · rintro (⟨_, _, h⟩ | ⟨id1, count1, ffd, h, hfind, hthrow⟩)
        · cases h
        · simp only [Request.FileReadRequest.injEq, FileReadRequest.mk.injEq] at h
          obtain ⟨h1, h2⟩ := h
          subst h1 h2
          exact ⟨⟨ffd, hfind⟩, hthrow⟩
    all_goals simp
  · intro ret s1 h
    exact dispatch_one_response sys fd request s ret s1 h

/-- C12 for a stat request on a known handle: one response is written. -/
theorem dispatch_writes_one_response_witness :
    (responses (v3_file_stat Sys.quiet 9 ⟨0⟩ ⟨[(0, 3)], 1, []⟩).2.calls).length = 1 := by
  obtain ⟨extra, response, h1, h2, _⟩ :=
    (dispatch_writes_one_response Sys.quiet 9 (Request.FileStatRequest ⟨0⟩)
      ⟨[(0, 3)], 1, []⟩).2 (v3_file_stat Sys.quiet 9 ⟨0⟩ ⟨[(0, 3)], 1, []⟩).1
      (v3_file_stat Sys.quiet 9 ⟨0⟩ ⟨[(0, 3)], 1, []⟩).2 rfl
  rw [h1]
  simp only [responses, List.filterMap_append] at h2 ⊢
  rw [h2]
  rfl

/-! ## C13 -/

theorem open_flags_eq_foldl (l : List Int) :
    ∀ acc : Nat, open_flags acc l = (l.map os_open_flag).foldl (fun a x => a ||| x) acc := by
  induction l with
  | nil => intro acc; rfl
  | cons x rest ih =>
    intro acc
    simp only [open_flags, List.map_cons, List.foldl_cons, ih]
    congr 1
    simp only [os_open_flag]
    repeat' split
    all_goals first | rfl | simp

theorem foldl_or_testBit (l : List Nat) :
    ∀ (acc : Nat) (i : Nat),
      (l.foldl (fun a x => a ||| x) acc).testBit i =
        (acc.testBit i || l.any (fun x => x.testBit i)) := by
  induction l with
  | nil => intro acc i; simp
  | cons x rest ih =>
    intro acc i
    simp only [List.foldl_cons, ih, Nat.testBit_or, List.any_cons, Bool.or_assoc]

theorem file_open_flags_eq (flags : Option (List Int)) :
    file_open_flags flags = portable_open_flags flags := by
  cases flags with
  | none => rfl
  | some l => exact open_flags_eq_foldl l O_CLOEXEC

/-- C13: for every list of portable open flags, absent or present, the flags
that `v3_file_open` passes to `open()` are `O_CLOEXEC` OR-ed with the OS flag
of each recognised entry; `O_CLOEXEC` is always set, and two lists with the
same recognised entries, in any order and with any repetition, give the same
flags. -/
theorem file_open_flags_spec (sys : Sys) (fd : Int) (s : State) (path : String)
    (flags : Option (List Int)) (perms : Nat) :
    file_open_flags flags = portable_open_flags flags ∧
    ((v3_file_open sys fd ⟨some path, flags, perms⟩ s).2.calls.drop s.calls.length).head? =
      some (Call.open_ path (portable_open_flags flags) perms
        (sys.open_ path (portable_open_flags flags) perms)) ∧
    file_open_flags flags &&& O_CLOEXEC = O_CLOEXEC ∧
    (∀ l1 l2 : List Int, (∀ x, os_open_flag x ≠ 0 → (x ∈ l1 ↔ x ∈ l2)) →
      file_open_flags (some l1) = file_open_flags (some l2)) := by
  refine ⟨file_open_flags_eq flags, ?_, ?_, ?_⟩
  · rw [← file_open_flags_eq]
    simp only [v3_file_open]
    split <;> simp [v3_send_response, State.call]
  · rw [file_open_flags_eq]
    apply Nat.eq_of_testBit_eq
    intro i
    simp only [portable_open_flags, Nat.testBit_and, foldl_or_testBit]
    cases O_CLOEXEC.testBit i <;> simp
  · intro l1 l2 h
    rw [file_open_flags_eq, file_open_flags_eq]
    apply Nat.eq_of_testBit_eq
    intro i
    simp only [portable_open_flags, Option.getD_some, foldl_or_testBit]
    congr 1
    rw [Bool.eq_iff_iff]
    simp only [List.any_eq_true, List.mem_map]
    have hne : ∀ x : Int, (os_open_flag x).testBit i = true → os_open_flag x ≠ 0 := by
      intro x hx h0
      rw [h0] at hx
      simp at hx
    constructor
    · rintro ⟨y, ⟨x, hx, rfl⟩, hy⟩
      exact ⟨_, ⟨x, (h x (hne x hy)).mp hx, rfl⟩, hy⟩
    · rintro ⟨y, ⟨x, hx, rfl⟩, hy⟩
      exact ⟨_, ⟨x, (h x (hne x hy)).mpr hx, rfl⟩, hy⟩

/-- C13 on a list with a repeated and an unrecognised entry and on its
reordering without them. -/
theorem file_open_flags_spec_witness :
    file_open_flags (some [FileOpenFlag_CREAT, FileOpenFlag_WRONLY, 77, FileOpenFlag_CREAT]) =
      file_open_flags (some [FileOpenFlag_WRONLY, FileOpenFlag_CREAT]) ∧
    file_open_flags (some [FileOpenFlag_WRONLY, FileOpenFlag_CREAT]) =
      O_CLOEXEC ||| O_WRONLY ||| O_CREAT :=
  ⟨(file_open_flags_spec Sys.quiet 9 State.init "/data/f" none 0).2.2.2
    [FileOpenFlag_CREAT, FileOpenFlag_WRONLY, 77, FileOpenFlag_CREAT]
    [FileOpenFlag_WRONLY, FileOpenFlag_CREAT]
    (by
      intro x hx
      simp only [List.mem_cons, List.mem_singleton, List.not_mem_nil, or_false]
      constructor
      · rintro (h | h | h | h)
        · exact Or.inr h
        · exact Or.inl h
        · subst h; exact absurd rfl hx
        · exact Or.inr h
      · rintro (h | h)
        · exact Or.inr (Or.inl h)
        · exact Or.inl h), by decide⟩

/-! ## C14 -/

/-- C14: `DirectorySizeGetter::on_changed_path` returns the skip signal
exactly when the depth of the entry is 1 and its name is in the exclusion
list, returns OK otherwise, and changes nothing.  With exclusions `["cache"]`
the first-level entry `cache` is skipped and an entry `cache` at depth 2 is
not; over `example_tree` the total leaves out `cache/bigfile` and keeps the
files below `data`, the deeper `cache` included. -/
theorem directory_size_first_level_exclusion (curr : FTSENT) (g : DirectorySizeGetter) :
    ((DirectorySizeGetter.on_changed_path curr g).1 = Action.FTS_Skip ↔
      curr.fts_level = 1 ∧ curr.fts_name ∈ g._exclusions) ∧
    ((DirectorySizeGetter.on_changed_path curr g).1 = Action.FTS_OK ↔
      ¬ (curr.fts_level = 1 ∧ curr.fts_name ∈ g._exclusions)) ∧
    (DirectorySizeGetter.on_changed_path curr g).2 = g ∧
    (DirectorySizeGetter.on_changed_path ⟨1, "cache", 1, 11, 4096⟩
      (DirectorySizeGetter.new ["cache"])).1 = Action.FTS_Skip ∧
    (DirectorySizeGetter.on_changed_path ⟨2, "cache", 1, 15, 4096⟩
      (DirectorySizeGetter.new ["cache"])).1 = Action.FTS_OK ∧
    (DirectorySizeGetter.run example_tree (DirectorySizeGetter.new ["cache"])).2.total = 37 ∧
    (DirectorySizeGetter.run example_tree (DirectorySizeGetter.new [])).2.total = 1000037 := by
  refine ⟨?_, ?_, ?_, by decide, by decide, by decide, by decide⟩
  · unfold DirectorySizeGetter.on_changed_path
    split
    · rename_i h; simp [h]
    · rename_i h; simp [h, Action.FTS_OK, Action.FTS_Skip]
  · unfold DirectorySizeGetter.on_changed_path
    split
    · rename_i h; simp [h, Action.FTS_OK, Action.FTS_Skip]
    · rename_i h; simp [h]
  · unfold DirectorySizeGetter.on_changed_path
    split <;> rfl

/-! ## C15 -/

/-- C15 fails on the code: file `B` with `(st_dev, st_ino) = (1, 1)` is
visited after file `A` with the pair `(1, 2)`; the pair of `B` differs from
that of `A`, yet `on_reached_file` takes `B` for visited, because it recorded
the device number `1` of `A` as an inode number, and `total()` is `10`, the
size of `A` alone. -/
theorem directory_size_unseen_file_left_out :
    (DirectorySizeGetter.reach_files
        [⟨1, "A", 1, 2, 10⟩, ⟨1, "B", 1, 1, 5⟩]
        (DirectorySizeGetter.new [])).total = 10 ∧
    ((1 : Nat), (1 : Nat)) ≠ (1, 2) := by
  decide

/-! ## C16 -/

theorem FTSWrapper.run_pre_failed {σ ε : Type} (v : PathVisitor σ ε) (level : ε → Int)
    (entries : List (FtsInfo × ε)) (st st1 : σ)
    (h : v.on_pre_execute st = (false, st1)) :
    FTSWrapper.run v level entries st = (false, st1) := by
  unfold FTSWrapper.run
  simp only [h]
  rfl

theorem FTSWrapper.run_cons {σ ε : Type} (v : PathVisitor σ ε) (level : ε → Int)
    (info : FtsInfo) (root : ε) (rest : List (FtsInfo × ε)) (st st1 : σ)
    (h : v.on_pre_execute st = (true, st1)) :
    FTSWrapper.run v level ((info, root) :: rest) st =
      ((rest.foldl (FTSWrapper.step v level root)
          (FTSWrapper.step v level root ⟨st1, true, none, false⟩ (info, root))).ret,
        (rest.foldl (FTSWrapper.step v level root)
          (FTSWrapper.step v level root ⟨st1, true, none, false⟩ (info, root))).visitor) := by
  unfold FTSWrapper.run
  simp only [h]
  rfl

/-- C16: for every copy flag set that contains `COPY_FOLLOW_SYMLINKS`,
`RecursiveCopier::on_pre_execute` returns failure with a non-empty error
message and makes no call at all, so neither `mkdir` nor `stat` of the target
is attempted; `copy_dir` with such flags fails with an empty call log. -/
theorem recursive_copy_rejects_follow_symlinks (fs : Fs) (c : util.RecursiveCopier)
    (source target : String) (flags : Nat) (entries : List (FtsInfo × FTSEntry))
    (hc : c._copyflags &&& util.COPY_FOLLOW_SYMLINKS ≠ 0)
    (hflags : flags &&& util.COPY_FOLLOW_SYMLINKS ≠ 0) :
    util.RecursiveCopier.on_pre_execute fs c =
      (false,
        { c with _error_msg := "COPY_FOLLOW_SYMLINKS not allowed for recursive copies" }) ∧
    (util.RecursiveCopier.on_pre_execute fs c).2._error_msg ≠ "" ∧
    (util.RecursiveCopier.on_pre_execute fs c).2.calls = c.calls ∧
    util.copy_dir fs source target flags entries =
      (false,
        { util.RecursiveCopier.new source target flags with
          _error_msg := "COPY_FOLLOW_SYMLINKS not allowed for recursive copies" }) ∧
    (util.copy_dir fs source target flags entries).2.calls = [] := by
  have key : ∀ k : util.RecursiveCopier, k._copyflags &&& util.COPY_FOLLOW_SYMLINKS ≠ 0 →
      util.RecursiveCopier.on_pre_execute fs k =
        (false,
          { k with _error_msg := "COPY_FOLLOW_SYMLINKS not allowed for recursive copies" }) := by
    intro k hk
    unfold util.RecursiveCopier.on_pre_execute
    rw [if_pos hk]
  have h1 := key c hc
  have h2 := key (util.RecursiveCopier.new source target flags) hflags
  have h3 : util.copy_dir fs source target flags entries =
      (false,
        { util.RecursiveCopier.new source target flags with
          _error_msg := "COPY_FOLLOW_SYMLINKS not allowed for recursive copies" }) :=
    FTSWrapper.run_pre_failed (util.RecursiveCopier.visitor fs) _ entries _ _ h2
  refine ⟨h1, ?_, ?_, h3, ?_⟩
  · rw [h1]; simp
  · rw [h1]
  · rw [h3]; rfl

/-- C16 for `COPY_ATTRIBUTES | COPY_FOLLOW_SYMLINKS`. -/
theorem recursive_copy_rejects_follow_symlinks_witness :
    util.copy_dir Fs.quiet "/data/a" "/data/b"
        (util.COPY_ATTRIBUTES ||| util.COPY_FOLLOW_SYMLINKS) [] =
      (false,
        { util.RecursiveCopier.new "/data/a" "/data/b"
            (util.COPY_ATTRIBUTES ||| util.COPY_FOLLOW_SYMLINKS) with
          _error_msg := "COPY_FOLLOW_SYMLINKS not allowed for recursive copies" }) :=
  (recursive_copy_rejects_follow_symlinks Fs.quiet
    (util.RecursiveCopier.new "/data/a" "/data/b"
      (util.COPY_ATTRIBUTES ||| util.COPY_FOLLOW_SYMLINKS))
    "/data/a" "/data/b" (util.COPY_ATTRIBUTES ||| util.COPY_FOLLOW_SYMLINKS) []
    (by decide) (by decide)).2.2.2.1

/-! ## C17 -/

theorem FTSWrapper.foldl_step_stopped {σ ε : Type} (v : PathVisitor σ ε) (level : ε → Int)
    (root : ε) (entries : List (FtsInfo × ε)) :
    ∀ w : WalkState σ, w.stopped = true →
      entries.foldl (FTSWrapper.step v level root) w = w := by
  induction entries with
  | nil => intro w _; rfl
  | cons ev rest ih =>
    intro w hw
    have h1 : FTSWrapper.step v level root w ev = w := by
      unfold FTSWrapper.step
      rw [if_pos hw]
    rw [List.foldl_cons, h1]
    exact ih w hw

theorem copier_on_changed_path_self (root curr : FTSEntry) (c : util.RecursiveCopier)
    (hdev : c.sb_target.st_dev = curr.fts_statp.st_dev)
    (hino : c.sb_target.st_ino = curr.fts_statp.st_ino) :
    util.RecursiveCopier.on_changed_path root curr c =
      (Action.FTS_Fail ||| Action.FTS_Stop,
        { c with _error_msg := curr.fts_path ++ ": Cannot copy on top of itself" }) := by
  unfold util.RecursiveCopier.on_changed_path
  rw [if_pos ⟨hdev, hino⟩]

theorem copier_step_self (fs : Fs) (root : FTSEntry) (info : FtsInfo)
    (c : util.RecursiveCopier)
    (hdev : c.sb_target.st_dev = root.fts_statp.st_dev)
    (hino : c.sb_target.st_ino = root.fts_statp.st_ino) :
    FTSWrapper.step (util.RecursiveCopier.visitor fs) (fun e => e.fts_level) root
        ⟨c, true, none, false⟩ (info, root) =
      ⟨{ c with _error_msg := root.fts_path ++ ": Cannot copy on top of itself" },
        false, none, true⟩ := by
  simp only [FTSWrapper.step, FTSWrapper.process, util.RecursiveCopier.visitor,
    copier_on_changed_path_self root root c hdev hino]
  simp [Action.FTS_Fail, Action.FTS_Stop]

/-- C17: at an entry whose `(st_dev, st_ino)` is that of the target root
recorded by `on_pre_execute`, `RecursiveCopier::on_changed_path` returns fail
and stop together and records an error message; the call log and the current
target path are what they were.  Hence a copy of a directory onto itself, the
target existing and being that directory, fails at the root entry: the only
calls are the `mkdir` of the target, which reports that it exists, and the
`stat` of the target. -/
theorem recursive_copy_refuses_self_copy (fs : Fs) (root curr : FTSEntry)
    (c : util.RecursiveCopier) (source target : String) (flags : Nat) (info : FtsInfo)
    (rest : List (FtsInfo × FTSEntry)) (sb : StructStat) :
    (c.sb_target.st_dev = curr.fts_statp.st_dev →
      c.sb_target.st_ino = curr.fts_statp.st_ino →
      util.RecursiveCopier.on_changed_path root curr c =
        (Action.FTS_Fail ||| Action.FTS_Stop,
          { c with _error_msg := curr.fts_path ++ ": Cannot copy on top of itself" })) ∧
    (flags &&& util.COPY_FOLLOW_SYMLINKS = 0 →
      fs.mkdir target (S_IRWXU ||| S_IRWXG ||| S_IRWXO) = (-1, EEXIST) →
      fs.stat target = (0, sb) →
      S_ISDIR sb.st_mode = true →
      sb.st_dev = root.fts_statp.st_dev →
      sb.st_ino = root.fts_statp.st_ino →
      util.copy_dir fs source target flags ((info, root) :: rest) =
        (false,
          { util.RecursiveCopier.new source target flags with
            sb_target := sb,
            _error_msg := root.fts_path ++ ": Cannot copy on top of itself",
            calls := [FsCall.mkdir target (S_IRWXU ||| S_IRWXG ||| S_IRWXO),
              FsCall.stat target] })) := by
  refine ⟨copier_on_changed_path_self root curr c, ?_⟩
  intro hflags hmkdir hstat hdir hdev hino
  have hpre :
      util.RecursiveCopier.on_pre_execute fs (util.RecursiveCopier.new source target flags) =
      (true,
        { util.RecursiveCopier.new source target flags with
          sb_target := sb,
          calls := [FsCall.mkdir target (S_IRWXU ||| S_IRWXG ||| S_IRWXO),
            FsCall.stat target] }) := by
    unfold util.RecursiveCopier.on_pre_execute
    simp [util.RecursiveCopier.new, util.RecursiveCopier.call, hflags, hmkdir, hstat, hdir]
  unfold util.copy_dir
  rw [FTSWrapper.run_cons (util.RecursiveCopier.visitor fs) _ info root rest _ _ hpre,
    copier_step_self fs root info _ hdev hino,
    FTSWrapper.foldl_step_stopped _ _ _ _ _ rfl]

/-- C17 for a copy of `/data/a` onto itself. -/
theorem recursive_copy_refuses_self_copy_witness :
    util.copy_dir Fs.quiet "/data/a" "/data/a" util.COPY_ATTRIBUTES
        [(.D, self_copy_root),
          (.F, ⟨"/data/a/f", "/data/a/f", "f", 1,
            ⟨1, 3, 0o100644, 1, 0, 0, 0, 5, 4096, 8, 0, 0, 0⟩⟩),
          (.DP, self_copy_root)] =
      (false,
        { util.RecursiveCopier.new "/data/a" "/data/a" util.COPY_ATTRIBUTES with
          sb_target := ⟨1, 2, 0o040755, 1, 0, 0, 0, 4096, 4096, 8, 0, 0, 0⟩,
          _error_msg := "/data/a: Cannot copy on top of itself",
          calls := [FsCall.mkdir "/data/a" 0o777, FsCall.stat "/data/a"] }) :=
  (recursive_copy_refuses_self_copy Fs.quiet self_copy_root self_copy_root
    (util.RecursiveCopier.new "/data/a" "/data/a" util.COPY_ATTRIBUTES) "/data/a" "/data/a"
    util.COPY_ATTRIBUTES .D _ ⟨1, 2, 0o040755, 1, 0, 0, 0, 4096, 4096, 8, 0, 0, 0⟩).2
    (by decide) (by decide) (by decide) (by decide) (by decide) (by decide)

/-! ## C18 -/

theorem cp_attrs_xattrs_no_stop (fs : Fs) (curr : FTSEntry) (c : util.RecursiveCopier) :
    (util.RecursiveCopier.cp_attrs_xattrs fs curr c).1 &&& Action.FTS_Stop = 0 := by
  simp only [util.RecursiveCopier.cp_attrs_xattrs]
  repeat' split
  all_goals (dsimp only; decide)

theorem skip_fail_no_stop (skip success : Bool) :
    ((if skip then Action.FTS_Skip else 0)
      ||| (if success then Action.FTS_OK else Action.FTS_Fail)) &&& Action.FTS_Stop = 0 := by
  cases skip <;> cases success <;> decide

/-- The action every callback of the three visitors returns. -/
theorem visitor_callback_actions (fs : Fs) (root curr : FTSEntry)
    (h : util.RecursiveChown) (x : util.RecursiveSetContext) (c : util.RecursiveCopier) :
    (((util.RecursiveChown.on_reached_directory_post fs curr h).1 = Action.FTS_OK ∨
        (util.RecursiveChown.on_reached_directory_post fs curr h).1 = Action.FTS_Fail) ∧
      ((util.RecursiveChown.on_reached_file fs curr h).1 = Action.FTS_OK ∨
        (util.RecursiveChown.on_reached_file fs curr h).1 = Action.FTS_Fail) ∧
      ((util.RecursiveChown.on_reached_symlink fs curr h).1 = Action.FTS_OK ∨
        (util.RecursiveChown.on_reached_symlink fs curr h).1 = Action.FTS_Fail) ∧
      ((util.RecursiveChown.on_reached_special_file fs curr h).1 = Action.FTS_OK ∨
        (util.RecursiveChown.on_reached_special_file fs curr h).1 = Action.FTS_Fail)) ∧
    (((util.RecursiveSetContext.on_reached_directory_post fs curr x).1 = Action.FTS_OK ∨
        (util.RecursiveSetContext.on_reached_directory_post fs curr x).1 = Action.FTS_Fail) ∧
      ((util.RecursiveSetContext.on_reached_file fs curr x).1 = Action.FTS_OK ∨
        (util.RecursiveSetContext.on_reached_file fs curr x).1 = Action.FTS_Fail) ∧
      ((util.RecursiveSetContext.on_reached_symlink fs curr x).1 = Action.FTS_OK ∨
        (util.RecursiveSetContext.on_reached_symlink fs curr x).1 = Action.FTS_Fail) ∧
      ((util.RecursiveSetContext.on_reached_special_file fs curr x).1 = Action.FTS_OK ∨
        (util.RecursiveSetContext.on_reached_special_file fs curr x).1 = Action.FTS_Fail)) ∧
    ((util.RecursiveCopier.on_reached_directory_pre fs curr c).1 &&& Action.FTS_Stop = 0 ∧
      (util.RecursiveCopier.on_reached_directory_post fs curr c).1 &&& Action.FTS_Stop = 0 ∧
      (util.RecursiveCopier.on_reached_file fs curr c).1 &&& Action.FTS_Stop = 0 ∧
      (util.RecursiveCopier.on_reached_symlink fs curr c).1 &&& Action.FTS_Stop = 0 ∧
      (util.RecursiveCopier.on_reached_block_device fs curr c).1 &&& Action.FTS_Stop = 0 ∧
      (util.RecursiveCopier.on_reached_character_device fs curr c).1 &&& Action.FTS_Stop = 0 ∧
      (util.RecursiveCopier.on_reached_fifo fs curr c).1 &&& Action.FTS_Stop = 0 ∧
      (util.RecursiveCopier.on_reached_socket c).1 &&& Action.FTS_Stop = 0) ∧
    ((util.RecursiveCopier.on_changed_path root curr c).1 &&& Action.FTS_Stop ≠ 0 ↔
      c.sb_target.st_dev = curr.fts_statp.st_dev ∧
        c.sb_target.st_ino = curr.fts_statp.st_ino) := by
  have hx := cp_attrs_xattrs_no_stop fs curr
  refine ⟨⟨?_, ?_, ?_, ?_⟩, ⟨?_, ?_, ?_, ?_⟩, ⟨?_, ?_, ?_, ?_, ?_, ?_, ?_, ?_⟩, ?_⟩
  · simp only [util.RecursiveChown.on_reached_directory_post]; split <;> simp
  · simp only [util.RecursiveChown.on_reached_file]; split <;> simp
  · simp only [util.RecursiveChown.on_reached_symlink]; split <;> simp
  · simp only [util.RecursiveChown.on_reached_special_file]; split <;> simp
  · simp only [util.RecursiveSetContext.on_reached_directory_post]; split <;> simp
  · simp only [util.RecursiveSetContext.on_reached_file]; split <;> simp
  · simp only [util.RecursiveSetContext.on_reached_symlink]; split <;> simp
  · simp only [util.RecursiveSetContext.on_reached_special_file]; split <;> simp
  · exact skip_fail_no_stop _ _
  · exact hx c
  · simp only [util.RecursiveCopier.on_reached_file]
    repeat' split
    all_goals first | exact hx _ | (dsimp only; decide)
  · simp only [util.RecursiveCopier.on_reached_symlink]
    repeat' split
    all_goals first | exact hx _ | (dsimp only; decide)
  · simp only [util.RecursiveCopier.on_reached_block_device]
    repeat' split
    all_goals first | exact hx _ | (dsimp only; decide)
  · simp only [util.RecursiveCopier.on_reached_character_device]
    repeat' split
    all_goals first | exact hx _ | (dsimp only; decide)
  · simp only [util.RecursiveCopier.on_reached_fifo]
    repeat' split
    all_goals first | exact hx _ | (dsimp only; decide)
  · simp only [util.RecursiveCopier.on_reached_socket]
    decide
  · unfold util.RecursiveCopier.on_changed_path
    split
    · rename_i hc
      simp only [hc, and_self, iff_true]
      decide
    · rename_i hc
      simp only [hc, iff_false, not_not]
      decide

theorem copier_visit_no_stop (fs : Fs) (root curr : FTSEntry) (info : FtsInfo)
    (c : util.RecursiveCopier) :
    (FTSWrapper.visit (util.RecursiveCopier.visitor fs) root info curr c).1
      &&& Action.FTS_Stop = 0 := by
  have h := (visitor_callback_actions fs root curr ⟨0, 0, false, "", []⟩
    ⟨"", false, []⟩ c).2.2.1
  obtain ⟨h1, h2, h3, h4, h5, h6, h7, h8⟩ := h
  cases info <;> simp only [FTSWrapper.visit, util.RecursiveCopier.visitor]
  · exact h1
  · exact h2
  · exact h3
  · exact h4
  · exact h5
  · exact h6
  · exact h7
  · exact h8

theorem copier_process_not_stopped (fs : Fs) (root : FTSEntry)
    (w : WalkState util.RecursiveCopier) (ev : FtsInfo × FTSEntry)
    (hw : w.stopped = false)
    (hne : ¬ (w.visitor.sb_target.st_dev = ev.2.fts_statp.st_dev ∧
      w.visitor.sb_target.st_ino = ev.2.fts_statp.st_ino)) :
    (FTSWrapper.process (util.RecursiveCopier.visitor fs) (fun e => e.fts_level) root w ev).stopped
      = false := by
  have ha : ¬ ((util.RecursiveCopier.on_changed_path root ev.2 w.visitor).1
      &&& Action.FTS_Stop ≠ 0) := by
    rw [(visitor_callback_actions fs root ev.2 ⟨0, 0, false, "", []⟩
      ⟨"", false, []⟩ w.visitor).2.2.2]
    exact hne
  have hb := copier_visit_no_stop fs root ev.2 ev.1
    (util.RecursiveCopier.on_changed_path root ev.2 w.visitor).2
  simp only [FTSWrapper.process]
  have hv : (util.RecursiveCopier.visitor fs).on_changed_path root ev.2 w.visitor =
      util.RecursiveCopier.on_changed_path root ev.2 w.visitor := rfl
  rw [hv, if_neg ha]
  split
  · split <;> exact hw
  · rw [if_neg (by simpa using hb)]
    split <;> exact hw

theorem copier_step_not_stopped (fs : Fs) (root : FTSEntry)
    (w : WalkState util.RecursiveCopier) (ev : FtsInfo × FTSEntry)
    (hw : w.stopped = false)
    (hne : ¬ (w.visitor.sb_target.st_dev = ev.2.fts_statp.st_dev ∧
      w.visitor.sb_target.st_ino = ev.2.fts_statp.st_ino)) :
    (FTSWrapper.step (util.RecursiveCopier.visitor fs) (fun e => e.fts_level) root w ev).stopped
      = false := by
  unfold FTSWrapper.step
  rw [if_neg (by simp [hw])]
  split
  · split
    · exact hw
    · split
      · exact hw
      · exact copier_process_not_stopped fs root _ ev hw hne
  · exact copier_process_not_stopped fs root w ev hw hne

/-- C18: every callback of `RecursiveChown` and of `RecursiveSetContext`
returns OK or Fail and nothing else; every callback of `RecursiveCopier`
returns a value without the stop bit, except `on_changed_path`, which sets
the stop bit exactly in its self-copy check.  So an entry of a recursive copy
that is not the target itself never stops the walk, whatever fails at it. -/
theorem failed_entry_never_stops_walk (fs : Fs) (root curr : FTSEntry)
    (h : util.RecursiveChown) (x : util.RecursiveSetContext) (c : util.RecursiveCopier)
    (w : WalkState util.RecursiveCopier) (ev : FtsInfo × FTSEntry) :
    (((util.RecursiveChown.on_reached_directory_post fs curr h).1 = Action.FTS_OK ∨
        (util.RecursiveChown.on_reached_directory_post fs curr h).1 = Action.FTS_Fail) ∧
      ((util.RecursiveChown.on_reached_file fs curr h).1 = Action.FTS_OK ∨
        (util.RecursiveChown.on_reached_file fs curr h).1 = Action.FTS_Fail) ∧
      ((util.RecursiveChown.on_reached_symlink fs curr h).1 = Action.FTS_OK ∨
        (util.RecursiveChown.on_reached_symlink fs curr h).1 = Action.FTS_Fail) ∧
      ((util.RecursiveChown.on_reached_special_file fs curr h).1 = Action.FTS_OK ∨
        (util.RecursiveChown.on_reached_special_file fs curr h).1 = Action.FTS_Fail)) ∧
    (((util.RecursiveSetContext.on_reached_directory_post fs curr x).1 = Action.FTS_OK ∨
        (util.RecursiveSetContext.on_reached_directory_post fs curr x).1 = Action.FTS_Fail) ∧
      ((util.RecursiveSetContext.on_reached_file fs curr x).1 = Action.FTS_OK ∨
        (util.RecursiveSetContext.on_reached_file fs curr x).1 = Action.FTS_Fail) ∧
      ((util.RecursiveSetContext.on_reached_symlink fs curr x).1 = Action.FTS_OK ∨
        (util.RecursiveSetContext.on_reached_symlink fs curr x).1 = Action.FTS_Fail) ∧
      ((util.RecursiveSetContext.on_reached_special_file fs curr x).1 = Action.FTS_OK ∨
        (util.RecursiveSetContext.on_reached_special_file fs curr x).1 = Action.FTS_Fail)) ∧
    ((util.RecursiveCopier.on_reached_directory_pre fs curr c).1 &&& Action.FTS_Stop = 0 ∧
      (util.RecursiveCopier.on_reached_directory_post fs curr c).1 &&& Action.FTS_Stop = 0 ∧
      (util.RecursiveCopier.on_reached_file fs curr c).1 &&& Action.FTS_Stop = 0 ∧
      (util.RecursiveCopier.on_reached_symlink fs curr c).1 &&& Action.FTS_Stop = 0 ∧
      (util.RecursiveCopier.on_reached_block_device fs curr c).1 &&& Action.FTS_Stop = 0 ∧
      (util.RecursiveCopier.on_reached_character_device fs curr c).1 &&& Action.FTS_Stop = 0 ∧
      (util.RecursiveCopier.on_reached_fifo fs curr c).1 &&& Action.FTS_Stop = 0 ∧
      (util.RecursiveCopier.on_reached_socket c).1 &&& Action.FTS_Stop = 0) ∧
    ((util.RecursiveCopier.on_changed_path root curr c).1 &&& Action.FTS_Stop ≠ 0 ↔
      c.sb_target.st_dev = curr.fts_statp.st_dev ∧
        c.sb_target.st_ino = curr.fts_statp.st_ino) ∧
    (w.stopped = false →
      ¬ (w.visitor.sb_target.st_dev = ev.2.fts_statp.st_dev ∧
        w.visitor.sb_target.st_ino = ev.2.fts_statp.st_ino) →
      (FTSWrapper.step (util.RecursiveCopier.visitor fs) (fun e => e.fts_level) root w ev).stopped
        = false) := by
  obtain ⟨h1, h2, h3, h4⟩ := visitor_callback_actions fs root curr h x c
  exact ⟨h1, h2, h3, h4, copier_step_not_stopped fs root w ev⟩

/-- C18 for a regular file whose data cannot be copied: the callback returns
Fail, the walk is marked failed and is not stopped. -/
theorem failed_entry_never_stops_walk_witness :
    (util.RecursiveCopier.on_reached_file Fs.copy_fails
        ⟨"/data/a/f", "/data/a/f", "f", 1, ⟨1, 3, 0o100644, 1, 0, 0, 0, 5, 4096, 8, 0, 0, 0⟩⟩
        (util.RecursiveCopier.new "/data/a" "/data/b" 0)).1 = Action.FTS_Fail ∧
    (FTSWrapper.step (util.RecursiveCopier.visitor Fs.copy_fails) (fun e => e.fts_level)
        self_copy_root ⟨util.RecursiveCopier.new "/data/a" "/data/b" 0, true, none, false⟩
        (.F, ⟨"/data/a/f", "/data/a/f", "f", 1,
          ⟨1, 3, 0o100644, 1, 0, 0, 0, 5, 4096, 8, 0, 0, 0⟩⟩)).stopped = false ∧
    (FTSWrapper.step (util.RecursiveCopier.visitor Fs.copy_fails) (fun e => e.fts_level)
        self_copy_root ⟨util.RecursiveCopier.new "/data/a" "/data/b" 0, true, none, false⟩
        (.F, ⟨"/data/a/f", "/data/a/f", "f", 1,
          ⟨1, 3, 0o100644, 1, 0, 0, 0, 5, 4096, 8, 0, 0, 0⟩⟩)).ret = false :=
  ⟨by decide,
    (failed_entry_never_stops_walk Fs.copy_fails self_copy_root self_copy_root
      ⟨0, 0, false, "", []⟩ ⟨"", false, []⟩ (util.RecursiveCopier.new "/data/a" "/data/b" 0)
      ⟨util.RecursiveCopier.new "/data/a" "/data/b" 0, true, none, false⟩
      (.F, ⟨"/data/a/f", "/data/a/f", "f", 1,
        ⟨1, 3, 0o100644, 1, 0, 0, 0, 5, 4096, 8, 0, 0, 0⟩⟩)).2.2.2.2 rfl (by decide),
    by decide⟩

/-! ## C19 -/

/-- C19 as stated fails: the source is a regular file with mode `04755`;
`copy_stat` calls `chmod` on the target with `04755`, setuid bit included,
not with the rwx bits `0755` alone. -/
theorem copy_stat_propagates_setuid :
    S_ISLNK 0o104755 = false ∧
    util.copy_stat Fs.setuid_source "/data/a/su" "/data/b/su" [] =
      (true,
        [FsCall.lstat "/data/a/su", FsCall.lchown "/data/b/su" 0 0,
          FsCall.chmod "/data/b/su" 0o4755]) ∧
    (0o4755 : Nat) &&& S_ISUID ≠ 0 ∧
    (0o4755 : Nat) ≠ 0o104755 &&& (S_IRWXU ||| S_IRWXG ||| S_IRWXO) := by
  decide

/-- C19, amended: for every source that `lstat` reports and that is not a
symlink, after a successful `lchown`, `copy_stat` calls `chmod` on the target
with the mode of the source masked by `07777`: the rwx bits of user, group and
other together with the setuid, setgid and sticky bits of the source, and no
file type bit. -/
theorem copy_stat_mode (fs : Fs) (source target : String) (log : List FsCall)
    (hstat : ¬ (fs.lstat source).1 < 0)
    (hchown : ¬ fs.lchown target (fs.lstat source).2.st_uid (fs.lstat source).2.st_gid < 0)
    (hlnk : S_ISLNK (fs.lstat source).2.st_mode = false) :
    (util.copy_stat fs source target log).2 =
      log ++ [FsCall.lstat source,
        FsCall.lchown target (fs.lstat source).2.st_uid (fs.lstat source).2.st_gid,
        FsCall.chmod target ((fs.lstat source).2.st_mode &&& 0o7777)] ∧
    (fs.lstat source).2.st_mode &&& 0o7777 =
      ((fs.lstat source).2.st_mode &&& (S_IRWXU ||| S_IRWXG ||| S_IRWXO)) |||
        ((fs.lstat source).2.st_mode &&& (S_ISUID ||| S_ISGID ||| S_ISVTX)) ∧
    ((fs.lstat source).2.st_mode &&& 0o7777) &&& S_IFMT = 0 := by
  have hmask : (S_ISUID ||| S_ISGID ||| S_ISVTX ||| S_IRWXU ||| S_IRWXG ||| S_IRWXO) = 0o7777 := by
    decide
  refine ⟨?_, ?_, ?_⟩
  · simp only [util.copy_stat, hmask]
    rw [if_neg hstat, if_neg hchown]
    simp only [hlnk]
    split
    · split <;> simp
    · rename_i h
      exact absurd (fun hh => Bool.noConfusion hh) h
  · have h1 : (0o7777 : Nat) =
        (S_IRWXU ||| S_IRWXG ||| S_IRWXO) ||| (S_ISUID ||| S_ISGID ||| S_ISVTX) := by decide
    rw [h1, Nat.and_or_distrib_left]
  · rw [Nat.and_assoc]
    have h2 : (0o7777 : Nat) &&& S_IFMT = 0 := by decide
    rw [h2, Nat.and_zero]

/-- C19, amended, for the setuid source. -/
theorem copy_stat_mode_witness :
    (util.copy_stat Fs.setuid_source "/data/a/su" "/data/b/su" []).2 =
      [FsCall.lstat "/data/a/su", FsCall.lchown "/data/b/su" 0 0,
        FsCall.chmod "/data/b/su" (0o104755 &&& 0o7777)] :=
  (copy_stat_mode Fs.setuid_source "/data/a/su" "/data/b/su" []
    (by decide) (by decide) (by decide)).1

/-! ## C20 -/

/-- C20 as stated fails: without `MS_BIND`, a source that is a directory (so
not a block device) is mounted itself, and so is a regular file when
`MS_REMOUNT` is set; no loop device is involved in either call. -/
theorem mount_without_loop_device :
    (0 : Nat) &&& MS_BIND = 0 ∧
    S_ISBLK (Fs.quiet.stat "/data/dir").2.st_mode = false ∧
    util.mount Fs.quiet "/data/dir" "/mnt" "ext4" 0 "" [] =
      (true, [FsCall.stat "/data/dir", FsCall.mount "/data/dir" "/mnt" "ext4" 0 ""]) ∧
    MS_REMOUNT &&& MS_BIND = 0 ∧
    S_ISBLK (Fs.regular.stat "/data/system.img").2.st_mode = false ∧
    util.mount Fs.regular "/data/system.img" "/mnt" "ext4" MS_REMOUNT "" [] =
      (true, [FsCall.mount "/data/system.img" "/mnt" "ext4" MS_REMOUNT ""]) := by
  decide

/-- C20, amended: when none of `MS_REMOUNT`, `MS_BIND`, `MS_MOVE` is set and
`stat` reports the source as a regular file, `mount` attaches the source to
the unused loop device it finds and mounts that loop device, not the source,
at the target (detaching it again when the mount fails); when no loop device
is found or the attach fails, nothing is mounted and the call fails.  In
every other case the source itself is mounted. -/
theorem mount_uses_loop_device (fs : Fs) (source target fstype : String)
    (mount_flags : Nat) (data : String) (log : List FsCall) :
    (mount_flags &&& (MS_REMOUNT ||| MS_BIND ||| MS_MOVE) = 0 →
      (fs.stat source).1 = 0 →
      S_ISREG (fs.stat source).2.st_mode = true →
      fs.loopdev_find_unused ≠ "" →
      fs.loopdev_set_up_device fs.loopdev_find_unused source 0
        (mount_flags &&& MS_RDONLY != 0) = true →
      util.mount fs source target fstype mount_flags data log =
        if fs.mount fs.loopdev_find_unused target fstype mount_flags data < 0 then
          (false,
            log ++ [FsCall.stat source, FsCall.loopdev_find_unused,
              FsCall.loopdev_set_up_device fs.loopdev_find_unused source 0
                (mount_flags &&& MS_RDONLY != 0),
              FsCall.mount fs.loopdev_find_unused target fstype mount_flags data,
              FsCall.loopdev_remove_device fs.loopdev_find_unused])
        else
          (true,
            log ++ [FsCall.stat source, FsCall.loopdev_find_unused,
              FsCall.loopdev_set_up_device fs.loopdev_find_unused source 0
                (mount_flags &&& MS_RDONLY != 0),
              FsCall.mount fs.loopdev_find_unused target fstype mount_flags data])) ∧
    (mount_flags &&& (MS_REMOUNT ||| MS_BIND ||| MS_MOVE) = 0 →
      (fs.stat source).1 = 0 →
      S_ISREG (fs.stat source).2.st_mode = true →
      (fs.loopdev_find_unused = "" →
        util.mount fs source target fstype mount_flags data log =
          (false, log ++ [FsCall.stat source, FsCall.loopdev_find_unused])) ∧
      (fs.loopdev_find_unused ≠ "" →
        fs.loopdev_set_up_device fs.loopdev_find_unused source 0
          (mount_flags &&& MS_RDONLY != 0) = false →
        util.mount fs source target fstype mount_flags data log =
          (false,
            log ++ [FsCall.stat source, FsCall.loopdev_find_unused,
              FsCall.loopdev_set_up_device fs.loopdev_find_unused source 0
                (mount_flags &&& MS_RDONLY != 0)]))) ∧
    (mount_flags &&& (MS_REMOUNT ||| MS_BIND ||| MS_MOVE) ≠ 0 →
      util.mount fs source target fstype mount_flags data log =
        (decide (fs.mount source target fstype mount_flags data = 0),
          log ++ [FsCall.mount source target fstype mount_flags data])) ∧
    (mount_flags &&& (MS_REMOUNT ||| MS_BIND ||| MS_MOVE) = 0 →
      ((fs.stat source).1 ≠ 0 ∨ S_ISREG (fs.stat source).2.st_mode = false) →
      util.mount fs source target fstype mount_flags data log =
        (decide (fs.mount source target fstype mount_flags data = 0),
          log ++ [FsCall.stat source,
            FsCall.mount source target fstype mount_flags data])) := by
  have hempty : ∀ x : String, x ≠ "" → x.isEmpty = false := by
    intro x hx
    cases hs : x.isEmpty
    · rfl
    · exact absurd ((String.isEmpty_iff x).mp hs) hx
  refine ⟨?_, ?_, ?_, ?_⟩
  · intro hf hs hr hl hu
    have hne := hempty _ hl
    simp only [util.mount, hf, hs, hr, hne, hu]
    simp
  · intro hf hs hr
    constructor
    · intro hl
      have he : fs.loopdev_find_unused.isEmpty = true := (String.isEmpty_iff _).mpr hl
      simp only [util.mount, hf, hs, hr, he]
      simp
    · intro hl hu
      have hne := hempty _ hl
      simp only [util.mount, hf, hs, hr, hne, hu]
      simp
  · intro hf
    simp [util.mount, hf]
  · intro hf hs
    rcases hs with hs | hs
    · simp [util.mount, hf, hs]
    · simp [util.mount, hf, hs]

/-- C20, amended, for an image file mounted read-only. -/
theorem mount_uses_loop_device_witness :
    util.mount Fs.regular "/data/system.img" "/mnt" "ext4" MS_RDONLY "" [] =
      (true,
        [FsCall.stat "/data/system.img", FsCall.loopdev_find_unused,
          FsCall.loopdev_set_up_device "/dev/block/loop0" "/data/system.img" 0 true,
          FsCall.mount "/dev/block/loop0" "/mnt" "ext4" MS_RDONLY ""]) := by
  rw [(mount_uses_loop_device Fs.regular "/data/system.img" "/mnt" "ext4" MS_RDONLY "" []).1
    (by decide) (by decide) (by decide) (by decide) (by decide)]
  decide

/-! ## C21 -/

open util

theorem passes_append_umount (log : List UnmountCall) (target : String)
    (calls : List UmountCall) :
    passes (log ++ [UnmountCall.umount target calls]) = passes log := by
  simp [passes, List.count_append]

theorem passes_append_setmntent (log : List UnmountCall) :
    passes (log ++ [UnmountCall.setmntent]) = passes log + 1 := by
  simp [passes, List.count_append]

theorem unmount_entries_spec (sys : UnmountSys) (dir : String) (tries : Nat)
    (ents : List mntent) :
    ∀ (i : Nat) (failed : Int) (log : List UnmountCall),
      0 ≤ failed → failed + ents.length < 2 ^ 31 →
      passes (unmount_entries sys dir tries i ents failed log).2 = passes log ∧
      failed ≤ (unmount_entries sys dir tries i ents failed log).1 ∧
      ((unmount_entries sys dir tries i ents failed log).1 = failed ↔
        ∀ (j : Nat) (ent : mntent), ents[j]? = some ent → starts_with ent.mnt_dir dir = true →
          (umount (sys.umount_sys tries (i + j)) ent.mnt_dir).1 = true) := by
  induction ents with
  | nil =>
    intro i failed log _ _
    simp [unmount_entries]
  | cons ent rest ih =>
    intro i failed log h0 h1
    simp only [List.length_cons, Nat.cast_add, Nat.cast_one] at h1
    have hshift : ∀ P : Nat → mntent → Prop,
        (∀ (j : Nat) (e : mntent), (ent :: rest)[j]? = some e → P j e) ↔
          (P 0 ent ∧ ∀ (j : Nat) (e : mntent), rest[j]? = some e → P (j + 1) e) := by
      intro P
      constructor
      · intro h
        exact ⟨h 0 ent (by simp), fun j e hj => h (j + 1) e (by simpa using hj)⟩
      · rintro ⟨h0, hs⟩ j e hj
        cases j with
        | zero =>
          simp only [List.getElem?_cons_zero, Option.some.injEq] at hj
          subst hj; exact h0
        | succ j => exact hs j e (by simpa using hj)
    unfold unmount_entries
    by_cases hs : starts_with ent.mnt_dir dir = true
    · rw [if_pos hs]
      dsimp only
      by_cases hu : (umount (sys.umount_sys tries i) ent.mnt_dir).1 = true
      · rw [if_neg (by simp [hu])]
        obtain ⟨p1, p2, p3⟩ := ih (i + 1) failed
          (log ++ [UnmountCall.umount ent.mnt_dir (umount (sys.umount_sys tries i) ent.mnt_dir).2])
          h0 (by omega)
        refine ⟨by rw [p1, passes_append_umount], p2, ?_⟩
        rw [p3, hshift (fun j e => starts_with e.mnt_dir dir = true →
          (umount (sys.umount_sys tries (i + j)) e.mnt_dir).1 = true)]
        have hidx : ∀ j : Nat, i + 1 + j = i + (j + 1) := by omega
        simp only [hidx]
        exact ⟨fun h => ⟨fun _ => hu, h⟩, fun h => h.2⟩
      · rw [if_pos (by simp [hu])]
        have hw : wrap_int (failed + 1) = failed + 1 := wrap_int_eq _ (by omega) (by omega)
        rw [hw]
        obtain ⟨p1, p2, _⟩ := ih (i + 1) (failed + 1)
          (log ++ [UnmountCall.umount ent.mnt_dir (umount (sys.umount_sys tries i) ent.mnt_dir).2])
          (by omega) (by omega)
        refine ⟨by rw [p1, passes_append_umount], by omega, ?_⟩
        constructor
        · intro h; omega
        · intro h
          exact absurd (h 0 ent (by simp) hs) hu
    · rw [if_neg hs]
      obtain ⟨p1, p2, p3⟩ := ih (i + 1) failed log h0 (by omega)
      refine ⟨p1, p2, ?_⟩
      rw [p3, hshift (fun j e => starts_with e.mnt_dir dir = true →
        (umount (sys.umount_sys tries (i + j)) e.mnt_dir).1 = true)]
      have hidx : ∀ j : Nat, i + 1 + j = i + (j + 1) := by omega
      simp only [hidx]
      exact ⟨fun h => ⟨fun hst => absurd hst hs, h⟩, fun h => h.2⟩

theorem unmount_loop_step (sys : UnmountSys) (dir : String)
    (hsize : ∀ (t : Nat) (ents : List mntent), sys.setmntent t = some ents →
      ents.length < 2 ^ 31)
    (rem t : Nat) (log : List UnmountCall) :
    (sys.setmntent t = none →
      unmount_loop sys dir (rem + 1) t log = (false, log ++ [UnmountCall.setmntent])) ∧
    (PassClean sys dir t →
      (unmount_loop sys dir (rem + 1) t log).1 = true ∧
      passes (unmount_loop sys dir (rem + 1) t log).2 = passes log + 1) ∧
    (PassFailing sys dir t →
      ∃ log1, passes log1 = passes log + 1 ∧
        unmount_loop sys dir (rem + 1) t log = unmount_loop sys dir rem (t + 1) log1) ∧
    (sys.setmntent t = none ∨ PassClean sys dir t ∨ PassFailing sys dir t) := by
  cases hopen : sys.setmntent t with
  | none =>
    refine ⟨fun _ => by simp [unmount_loop, hopen], ?_, ?_, Or.inl rfl⟩
    · rintro ⟨ents, he, _⟩
      rw [hopen] at he; cases he
    · rintro ⟨ents, he, _⟩
      rw [hopen] at he; cases he
  | some ents =>
    have hlen := hsize t ents hopen
    obtain ⟨p1, p2, p3⟩ := unmount_entries_spec sys dir t ents 0 0
      (log ++ [UnmountCall.setmntent]) (le_refl _) (by
        have : ((ents.length : Nat) : Int) < 2 ^ 31 := by exact_mod_cast hlen
        omega)
    simp only [Nat.zero_add] at p3
    rw [passes_append_setmntent] at p1
    have hclean : (unmount_entries sys dir t 0 ents 0 (log ++ [UnmountCall.setmntent])).1 = 0 →
        (unmount_loop sys dir (rem + 1) t log).1 = true ∧
        passes (unmount_loop sys dir (rem + 1) t log).2 = passes log + 1 := by
      intro h0
      have e : unmount_loop sys dir (rem + 1) t log =
          (true, (unmount_entries sys dir t 0 ents 0 (log ++ [UnmountCall.setmntent])).2) := by
        simp only [unmount_loop, hopen, h0, if_true]
      rw [e]
      exact ⟨rfl, p1⟩
    have hfail : (unmount_entries sys dir t 0 ents 0 (log ++ [UnmountCall.setmntent])).1 ≠ 0 →
        ∃ log1, passes log1 = passes log + 1 ∧
          unmount_loop sys dir (rem + 1) t log = unmount_loop sys dir rem (t + 1) log1 := by
      intro h0
      refine ⟨_, p1, ?_⟩
      simp only [unmount_loop, hopen, h0, if_false]
    refine ⟨fun h => (by cases h), ?_, ?_, ?_⟩
    · rintro ⟨ents1, he, hall⟩
      rw [hopen] at he
      cases he
      exact hclean (p3.mpr hall)
    · rintro ⟨ents1, he, j, ent, hj, hst, hu⟩
      rw [hopen] at he
      cases he
      apply hfail
      intro h0
      have := p3.mp h0 j ent hj hst
      rw [hu] at this
      cases this
    · by_cases h0 : (unmount_entries sys dir t 0 ents 0 (log ++ [UnmountCall.setmntent])).1 = 0
      · exact Or.inr (Or.inl ⟨ents, hopen, p3.mp h0⟩)
      · right; right
        refine ⟨ents, hopen, ?_⟩
        by_contra hne
        apply h0
        rw [p3]
        intro j ent hj hst
        by_contra hu
        exact hne ⟨j, ent, hj, hst, by simpa using hu⟩

theorem unmount_loop_spec (sys : UnmountSys) (dir : String)
    (hsize : ∀ (t : Nat) (ents : List mntent), sys.setmntent t = some ents →
      ents.length < 2 ^ 31)
    (rem : Nat) :
    ∀ (t : Nat) (log : List UnmountCall),
      ((unmount_loop sys dir rem t log).1 = true →
        ∃ j, j < rem ∧ PassClean sys dir (t + j) ∧ ∀ i, i < j → PassFailing sys dir (t + i)) ∧
      passes (unmount_loop sys dir rem t log).2 ≤ passes log + rem ∧
      (∀ j, j < rem → PassClean sys dir (t + j) → (∀ i, i < j → PassFailing sys dir (t + i)) →
        (unmount_loop sys dir rem t log).1 = true ∧
        passes (unmount_loop sys dir rem t log).2 = passes log + j + 1) ∧
      (∀ j, j < rem → sys.setmntent (t + j) = none →
        (∀ i, i < j → PassFailing sys dir (t + i)) →
        (unmount_loop sys dir rem t log).1 = false ∧
        passes (unmount_loop sys dir rem t log).2 = passes log + j + 1) ∧
      ((∀ i, i < rem → PassFailing sys dir (t + i)) →
        (unmount_loop sys dir rem t log).1 = false ∧
        passes (unmount_loop sys dir rem t log).2 = passes log + rem) := by
  induction rem with
  | zero =>
    intro t log
    refine ⟨fun h => by simp [unmount_loop] at h, by simp [unmount_loop],
      fun j hj => by omega, fun j hj => by omega, fun _ => by simp [unmount_loop]⟩
  | succ rem ih =>
    intro t log
    obtain ⟨snone, sclean, sfail, stri⟩ := unmount_loop_step sys dir hsize rem t log
    have hidx : ∀ j : Nat, t + (j + 1) = t + 1 + j := by omega
    refine ⟨?_, ?_, ?_, ?_, ?_⟩
    · intro hret
      rcases stri with hn | hc | hf
      · rw [snone hn] at hret; cases hret
      · exact ⟨0, by omega, hc, fun i hi => by omega⟩
      · obtain ⟨log1, _, heq⟩ := sfail hf
        rw [heq] at hret
        obtain ⟨j, hj, hcj, hfj⟩ := (ih (t + 1) log1).1 hret
        refine ⟨j + 1, by omega, by rw [hidx]; exact hcj, ?_⟩
        intro i hi
        cases i with
        | zero => exact hf
        | succ i => rw [hidx]; exact hfj i (by omega)
    · rcases stri with hn | hc | hf
      · rw [snone hn, passes_append_setmntent]; omega
      · rw [(sclean hc).2]; omega
      · obtain ⟨log1, hp, heq⟩ := sfail hf
        rw [heq]
        have := (ih (t + 1) log1).2.1
        omega
    · intro j hj hcj hfj
      cases j with
      | zero => exact sclean hcj
      | succ j =>
        obtain ⟨log1, hp, heq⟩ := sfail (hfj 0 (by omega))
        rw [heq]
        have := (ih (t + 1) log1).2.2.1 j (by omega) (by rw [← hidx]; exact hcj)
          (fun i hi => by rw [← hidx]; exact hfj (i + 1) (by omega))
        rw [hp] at this
        exact ⟨this.1, by rw [this.2]; omega⟩
    · intro j hj hnj hfj
      cases j with
      | zero =>
        rw [snone hnj, passes_append_setmntent]
        exact ⟨rfl, rfl⟩
      | succ j =>
        obtain ⟨log1, hp, heq⟩ := sfail (hfj 0 (by omega))
        rw [heq]
        have := (ih (t + 1) log1).2.2.2.1 j (by omega) (by rw [← hidx]; exact hnj)
          (fun i hi => by rw [← hidx]; exact hfj (i + 1) (by omega))
        rw [hp] at this
        exact ⟨this.1, by rw [this.2]; omega⟩
    · intro hall
      obtain ⟨log1, hp, heq⟩ := sfail (hall 0 (by omega))
      rw [heq]
      have := (ih (t + 1) log1).2.2.2.2
        (fun i hi => by rw [← hidx]; exact hall (i + 1) (by omega))
      rw [hp] at this
      exact ⟨this.1, by rw [this.2]; omega⟩

/-- C21: let every mount table have fewer than `2 ^ 31` entries.
`unmount_all` makes at most `MAX_UNMOUNT_TRIES`, that is 5, passes over the
mount table.  It returns true exactly when some pass `t` below 5 opens the
table and sees no failed unmount among the entries whose mount directory
starts with `dir`, every pass before `t` having seen one; it then stops with
pass `t`.  It returns false as soon as the table cannot be opened, and after
the fifth pass with a failed unmount. -/
theorem unmount_all_bounded_retry (sys : UnmountSys) (dir : String)
    (hsize : ∀ (t : Nat) (ents : List mntent), sys.setmntent t = some ents →
      ents.length < 2 ^ 31) :
    MAX_UNMOUNT_TRIES = 5 ∧
    passes (unmount_all sys dir).2 ≤ MAX_UNMOUNT_TRIES ∧
    ((unmount_all sys dir).1 = true ↔
      ∃ t, t < MAX_UNMOUNT_TRIES ∧ PassClean sys dir t ∧
        ∀ j, j < t → PassFailing sys dir j) ∧
    (∀ t, t < MAX_UNMOUNT_TRIES → PassClean sys dir t →
      (∀ j, j < t → PassFailing sys dir j) →
      passes (unmount_all sys dir).2 = t + 1) ∧
    (∀ t, t < MAX_UNMOUNT_TRIES → sys.setmntent t = none →
      (∀ j, j < t → PassFailing sys dir j) →
      (unmount_all sys dir).1 = false ∧ passes (unmount_all sys dir).2 = t + 1) ∧
    ((∀ j, j < MAX_UNMOUNT_TRIES → PassFailing sys dir j) →
      (unmount_all sys dir).1 = false ∧
      passes (unmount_all sys dir).2 = MAX_UNMOUNT_TRIES) := by
  obtain ⟨h1, h2, h3, h4, h5⟩ := unmount_loop_spec sys dir hsize MAX_UNMOUNT_TRIES 0 []
  simp only [Nat.zero_add, passes, List.count_nil] at h1 h2 h3 h4 h5
  refine ⟨rfl, h2, ⟨h1, ?_⟩, ?_, ?_, ?_⟩
  · rintro ⟨t, ht, hc, hf⟩
    exact (h3 t ht hc hf).1
  · intro t ht hc hf
    exact (h3 t ht hc hf).2
  · intro t ht hn hf
    exact h4 t ht hn hf
  · exact h5

/-- C21 for a table whose entry `/raw/data` is busy in the first two passes:
three passes, then success. -/
theorem unmount_all_bounded_retry_witness :
    (unmount_all UnmountSys.busy_twice "/raw").1 = true ∧
    passes (unmount_all UnmountSys.busy_twice "/raw").2 = 3 ∧
    passes (unmount_all UnmountSys.busy_twice "/raw").2 ≤ 5 :=
  ⟨by decide, by decide,
    (unmount_all_bounded_retry UnmountSys.busy_twice "/raw"
      (by
        intro t ents h
        simp only [UnmountSys.busy_twice, Option.some.injEq] at h
        subst h
        decide)).2.1⟩

/-! ## C22 -/

theorem bytes_read_append (a b : List CopyCall) :
    bytes_read (a ++ b) = bytes_read a ++ bytes_read b := by
  induction a with
  | nil => rfl
  | cons c cs ih =>
    cases c with
    | read r =>
      cases r with
      | error => simpa [bytes_read] using ih
      | bytes chunk => simp [bytes_read, ih]
    | write o r => simpa [bytes_read] using ih

theorem write_loop_outcome (write : Nat → List Nat → Int) (hw : WriteProgress write)
    (buf : List Nat) :
    ∀ (fuel k off n : Nat) (out : List Nat) (log : List CopyCall),
      off + n = buf.length → 1 ≤ n → n ≤ fuel →
      ∃ (b : Bool) (k1 : Nat) (out1 : List Nat) (log1 : List CopyCall) (ext : List CopyCall),
        write_loop write buf fuel k (off : Int) (n : Int) out log = some (b, k1, out1, log1) ∧
        CopyOutcome (buf.drop off) out log b out1 log1 ext ∧ bytes_read ext = [] := by
  intro fuel
  induction fuel with
  | zero => intro k off n out log _ h1 h2; omega
  | succ f ih =>
    intro k off n out log hlen hn hf
    have hoff : ((buf.drop off).take n) = buf.drop off := by
      apply List.take_of_length_le
      rw [List.length_drop]; omega
    have hne : buf.drop off ≠ [] := by
      intro h
      have := congrArg List.length h
      rw [List.length_drop] at this
      simp at this
      omega
    have hdl : (buf.drop off).length = n := by rw [List.length_drop]; omega
    unfold write_loop
    simp only [Int.toNat_ofNat, hoff]
    rcases hw k (buf.drop off) hne with hneg | ⟨hpos, hle⟩
    · rw [if_pos hneg]
      refine ⟨false, k + 1, out, _, [CopyCall.write (buf.drop off) (write k (buf.drop off))],
        rfl, ⟨rfl, ?_, ?_, [], by simp, List.nil_prefix⟩, rfl⟩
      · simp only [Bool.false_eq_true, List.mem_singleton, forall_eq, CopyCall.ret, false_iff,
          not_le]
        exact hneg
      · intro h; cases h
    · rw [if_neg (by omega)]
      obtain ⟨w, hwv⟩ : ∃ w : Nat, write k (buf.drop off) = (w : Int) :=
        ⟨(write k (buf.drop off)).toNat, by omega⟩
      rw [hwv] at hpos hle ⊢
      rw [hdl] at hle
      simp only [Int.toNat_ofNat]
      by_cases hmore : (n : Int) - (w : Int) > 0
      · rw [if_pos hmore]
        have e1 : (off : Int) + (w : Int) = ((off + w : Nat) : Int) := by push_cast; rfl
        have e2 : (n : Int) - (w : Int) = ((n - w : Nat) : Int) := by omega
        rw [e1, e2]
        obtain ⟨b, k1, out1, log1, ext, hrun, ⟨hlog, hret, hall, acc, hacc, hpre⟩, hbr⟩ :=
          ih (k + 1) (off + w) (n - w) (out ++ (buf.drop off).take w)
            (log ++ [CopyCall.write (buf.drop off) (w : Int)]) (by omega) (by omega) (by omega)
        have hsplit : buf.drop off = (buf.drop off).take w ++ buf.drop (off + w) := by
          rw [← List.drop_drop, List.take_append_drop]
        refine ⟨b, k1, out1, log1, CopyCall.write (buf.drop off) (w : Int) :: ext, hrun,
          ⟨by rw [hlog]; simp, ?_, ?_, (buf.drop off).take w ++ acc, ?_, ?_⟩, ?_⟩
        · rw [hret]
          simp only [List.mem_cons, forall_eq_or_imp, CopyCall.ret]
          constructor
          · intro h; exact ⟨by omega, h⟩
          · intro h; exact h.2
        · intro hb
          rw [hall hb, List.append_assoc, ← hsplit]
        · rw [hacc, List.append_assoc]
        · have hp : List.take w (List.drop off buf) ++ acc <+:
              List.take w (List.drop off buf) ++ List.drop (off + w) buf :=
            (List.prefix_append_right_inj _).mpr hpre
          rwa [← hsplit] at hp
        · simpa [bytes_read] using hbr
      · rw [if_neg hmore]
        have hwn : w = n := by omega
        refine ⟨true, k + 1, _, _, [CopyCall.write (buf.drop off) (w : Int)], rfl,
          ⟨rfl, ?_, ?_, buf.drop off, ?_, List.prefix_refl _⟩, rfl⟩
        · simp only [List.mem_singleton, forall_eq, CopyCall.ret, true_iff]
          omega
        · intro _
          rw [hwn, ← hdl, List.take_length]
        · rw [hwn, ← hdl, List.take_length]

theorem copy_data_loop_outcome (write : Nat → List Nat → Int) (hw : WriteProgress write)
    (fuel : Nat) (reads : List ReadResult) :
    ∀ (k : Nat) (out : List Nat) (log : List CopyCall),
      (∀ chunk, ReadResult.bytes chunk ∈ reads → chunk.length ≤ fuel) →
      ∃ (b : Bool) (out1 : List Nat) (log1 : List CopyCall) (ext : List CopyCall),
        copy_data_loop write fuel reads k out log = some (b, out1, log1) ∧
        CopyOutcome (bytes_read ext) out log b out1 log1 ext := by
  induction reads with
  | nil =>
    intro k out log _
    refine ⟨true, out, _, [CopyCall.read (.bytes [])], rfl, rfl, ?_, ?_, [], by simp, ?_⟩
    · simp [CopyCall.ret]
    · intro _; simp [bytes_read]
    · exact List.nil_prefix
  | cons r rest ih =>
    intro k out log hfuel
    cases r with
    | error =>
      refine ⟨false, out, _, [CopyCall.read .error], rfl, rfl, ?_, ?_, [], by simp, ?_⟩
      · simp [CopyCall.ret]
      · intro h; cases h
      · exact List.nil_prefix
    | bytes chunk =>
      unfold copy_data_loop
      by_cases hpos : (chunk.length : Int) > 0
      · rw [if_pos hpos]
        obtain ⟨b, k1, out1, log1, ext, hrun, ⟨hlog, hret, hall, acc, hacc, hpre⟩, hbr⟩ :=
          write_loop_outcome write hw chunk fuel k 0 chunk.length out
            (log ++ [CopyCall.read (.bytes chunk)]) (by omega) (by omega)
            (hfuel chunk (List.mem_cons_self _ _))
        simp only [Nat.cast_zero] at hrun
        rw [hrun]
        simp only [List.drop_zero] at hall hpre
        cases b with
        | false =>
          refine ⟨false, out1, log1, CopyCall.read (.bytes chunk) :: ext, rfl,
            by rw [hlog]; simp, ?_, ?_, acc, hacc, ?_⟩
          · simp only [Bool.false_eq_true, false_iff, List.mem_cons, forall_eq_or_imp,
              not_and]
            intro _ h
            exact absurd (hret.mpr h) (by simp)
          · intro h; cases h
          · simp only [bytes_read, hbr, List.append_nil]
            exact hpre
        | true =>
          have hout : out1 = out ++ chunk := hall rfl
          obtain ⟨b2, out2, log2, ext2, hrun2, hlog2, hret2, hall2, acc2, hacc2, hpre2⟩ :=
            ih k1 out1 log1 (fun c hc => hfuel c (List.mem_cons_of_mem _ hc))
          refine ⟨b2, out2, log2, CopyCall.read (.bytes chunk) :: (ext ++ ext2), hrun2,
            by rw [hlog2, hlog]; simp, ?_, ?_, chunk ++ acc2, ?_, ?_⟩
          · rw [hret2]
            simp only [List.mem_cons, List.mem_append, forall_eq_or_imp, CopyCall.ret]
            constructor
            · intro h
              refine ⟨by omega, ?_⟩
              rintro c (hc | hc)
              · exact hret.mp rfl c hc
              · exact h c hc
            · intro h c hc
              exact h.2 c (Or.inr hc)
          · intro hb
            rw [hall2 hb, hout]
            simp [bytes_read, bytes_read_append, hbr]
          · rw [hacc2, hout]; simp
          · simp only [bytes_read, bytes_read_append, hbr, List.nil_append]
            exact (List.prefix_append_right_inj _).mpr hpre2
      · rw [if_neg hpos]
        have hnil : chunk = [] := by
          cases chunk with
          | nil => rfl
          | cons x xs => simp at hpos
        subst hnil
        refine ⟨true, out, _, [CopyCall.read (.bytes [])], rfl, rfl, ?_, ?_, [], by simp, ?_⟩
        · simp [CopyCall.ret]
        · intro _; simp [bytes_read]
        · exact List.nil_prefix

theorem read_results_append (a b : List CopyCall) :
    read_results (a ++ b) = read_results a ++ read_results b :=
  List.filterMap_append _ _ _

theorem write_calls_append (a b : List CopyCall) :
    write_calls (a ++ b) = write_calls a ++ write_calls b :=
  List.filterMap_append _ _ _

theorem accepted_append (a b : List CopyCall) :
    accepted (a ++ b) = accepted a ++ accepted b := by
  simp only [accepted, List.map_append, List.flatten_append]

theorem answered_nil (write : Nat → List Nat → Int) (k : Nat) : Answered write k [] := by
  intro j offered r h
  simp [write_calls] at h

theorem answered_read (write : Nat → List Nat → Int) (k : Nat) (result : ReadResult)
    (ext : List CopyCall) (h : Answered write k ext) :
    Answered write k (CopyCall.read result :: ext) := by
  intro j offered r hj
  exact h j offered r (by simpa [write_calls, CopyCall.write_call] using hj)

theorem answered_write (write : Nat → List Nat → Int) (k : Nat) (offered : List Nat)
    (ext : List CopyCall) (h : Answered write (k + 1) ext) :
    Answered write k (CopyCall.write offered (write k offered) :: ext) := by
  intro j o r hj
  cases j with
  | zero =>
    simp [write_calls, CopyCall.write_call] at hj
    obtain ⟨h1, h2⟩ := hj
    subst h1 h2
    rfl
  | succ j =>
    have := h j o r (by simpa [write_calls, CopyCall.write_call] using hj)
    rw [this]
    congr 1
    omega

theorem answered_append (write : Nat → List Nat → Int) (k : Nat) (a b : List CopyCall)
    (ha : Answered write k a) (hb : Answered write (k + (write_calls a).length) b) :
    Answered write k (a ++ b) := by
  intro j offered r hj
  rw [write_calls_append] at hj
  by_cases hlt : j < (write_calls a).length
  · rw [List.getElem?_append_left hlt] at hj
    exact ha j offered r hj
  · rw [List.getElem?_append_right (by omega)] at hj
    have := hb _ offered r hj
    rw [this]
    congr 1
    omega

theorem write_loop_trace (write : Nat → List Nat → Int) (hw : WriteProgress write)
    (buf : List Nat) :
    ∀ (fuel k off n : Nat) (out : List Nat) (log : List CopyCall),
      off + n = buf.length → 1 ≤ n → n ≤ fuel →
      ∃ (b : Bool) (out1 : List Nat) (ext : List CopyCall),
        write_loop write buf fuel k (off : Int) (n : Int) out log =
          some (b, k + (write_calls ext).length, out1, log ++ ext) ∧
        read_results ext = [] ∧ Answered write k ext ∧ out1 = out ++ accepted ext ∧
        accepted ext <+: buf.drop off ∧
        (b = true → accepted ext = buf.drop off ∧ ∀ c ∈ ext, 0 < c.ret) ∧
        (b = false → ∃ (pre : List CopyCall) (c : CopyCall),
          ext = pre ++ [c] ∧ c.ret < 0 ∧ ∀ d ∈ pre, 0 < d.ret) ∧
        ((∀ (j : Nat) (offered : List Nat), 0 ≤ write j offered) → b = true) := by
  intro fuel
  induction fuel with
  | zero => intro k off n out log _ h1 h2; omega
  | succ f ih =>
    intro k off n out log hlen hn hf
    have hoff : ((buf.drop off).take n) = buf.drop off := by
      apply List.take_of_length_le
      rw [List.length_drop]; omega
    have hne : buf.drop off ≠ [] := by
      intro h
      have := congrArg List.length h
      rw [List.length_drop] at this
      simp at this
      omega
    have hdl : (buf.drop off).length = n := by rw [List.length_drop]; omega
    unfold write_loop
    simp only [Int.toNat_ofNat, hoff]
    rcases hw k (buf.drop off) hne with hneg | ⟨hpos, hle⟩
    · rw [if_pos hneg]
      refine ⟨false, out, [CopyCall.write (buf.drop off) (write k (buf.drop off))],
        rfl, rfl, ?_, ?_, ?_, ?_, ?_, ?_⟩
      · exact answered_write write k _ [] (answered_nil write (k + 1))
      · simp [accepted, CopyCall.accepted, hneg]
      · simp [accepted, CopyCall.accepted, hneg]
      · intro h; cases h
      · intro _
        exact ⟨[], _, rfl, hneg, by simp⟩
      · intro hall
        exact absurd (hall k (buf.drop off)) (by omega)
    · rw [if_neg (by omega)]
      obtain ⟨w, hwv⟩ : ∃ w : Nat, write k (buf.drop off) = (w : Int) :=
        ⟨(write k (buf.drop off)).toNat, by omega⟩
      have hacc1 : accepted [CopyCall.write (buf.drop off) (write k (buf.drop off))] =
          (buf.drop off).take w := by
        simp [accepted, CopyCall.accepted, hwv]
      have hans := answered_write write k (buf.drop off)
      rw [hwv] at hpos hle hacc1 hans ⊢
      rw [hdl] at hle
      simp only [Int.toNat_ofNat]
      by_cases hmore : (n : Int) - (w : Int) > 0
      · rw [if_pos hmore]
        have e1 : (off : Int) + (w : Int) = ((off + w : Nat) : Int) := by push_cast; rfl
        have e2 : (n : Int) - (w : Int) = ((n - w : Nat) : Int) := by omega
        rw [e1, e2]
        obtain ⟨b, out1, ext, hrun, hreads, hansw, hout, hpre, htrue, hfalse, hall⟩ :=
          ih (k + 1) (off + w) (n - w) (out ++ (buf.drop off).take w)
            (log ++ [CopyCall.write (buf.drop off) (w : Int)]) (by omega) (by omega) (by omega)
        have hsplit : buf.drop off = (buf.drop off).take w ++ buf.drop (off + w) := by
          rw [← List.drop_drop, List.take_append_drop]
        have hacc : accepted (CopyCall.write (buf.drop off) (w : Int) :: ext) =
            (buf.drop off).take w ++ accepted ext := by
          have := accepted_append [CopyCall.write (buf.drop off) (w : Int)] ext
          rw [hacc1] at this
          exact this
        refine ⟨b, out1, CopyCall.write (buf.drop off) (w : Int) :: ext, ?_, ?_, ?_, ?_, ?_,
          ?_, ?_, hall⟩
        · rw [hrun]
          simp only [write_calls, List.filterMap_cons, CopyCall.write_call, List.length_cons,
            List.append_assoc, List.singleton_append, Option.some.injEq, Prod.mk.injEq,
            and_true, true_and]
          omega
        · simpa [read_results, CopyCall.read_result] using hreads
        · exact hans ext hansw
        · rw [hout, hacc, List.append_assoc]
        · rw [hacc]
          have hp : List.take w (List.drop off buf) ++ accepted ext <+:
              List.take w (List.drop off buf) ++ List.drop (off + w) buf :=
            (List.prefix_append_right_inj _).mpr hpre
          rwa [← hsplit] at hp
        · intro hb
          obtain ⟨h1, h2⟩ := htrue hb
          refine ⟨?_, ?_⟩
          · rw [hacc, h1, ← hsplit]
          · intro c hc
            rcases List.mem_cons.mp hc with hc | hc
            · subst hc
              simp only [CopyCall.ret]
              omega
            · exact h2 c hc
        · intro hb
          obtain ⟨pre, c, hext, hc, hprepos⟩ := hfalse hb
          refine ⟨CopyCall.write (buf.drop off) (w : Int) :: pre, c, by rw [hext]; rfl, hc, ?_⟩
          intro d hd
          rcases List.mem_cons.mp hd with hd | hd
          · subst hd
            simp only [CopyCall.ret]
            omega
          · exact hprepos d hd
      · rw [if_neg hmore]
        have hwn : w = n := by omega
        refine ⟨true, _, [CopyCall.write (buf.drop off) (w : Int)], rfl, rfl, ?_, ?_, ?_, ?_,
          ?_, ?_⟩
        · exact hans [] (answered_nil write (k + 1))
        · rw [hacc1]
        · rw [hacc1]
          exact List.take_prefix _ _
        · intro _
          refine ⟨?_, ?_⟩
          · rw [hacc1, hwn, ← hdl, List.take_length]
          · intro c hc
            rw [List.mem_singleton] at hc
            subst hc
            simp only [CopyCall.ret]
            omega
        · intro h; cases h
        · intro _; rfl

theorem copy_data_loop_trace (write : Nat → List Nat → Int) (hw : WriteProgress write)
    (fuel : Nat) (reads : List ReadResult) :
    ∀ (k : Nat) (out : List Nat) (log : List CopyCall),
      (∀ chunk, ReadResult.bytes chunk ∈ reads → chunk.length ≤ fuel) →
      ∃ (b : Bool) (out1 : List Nat) (ext : List CopyCall),
        copy_data_loop write fuel reads k out log = some (b, out1, log ++ ext) ∧
        read_results ext <+: reads ++ [ReadResult.bytes []] ∧
        Answered write k ext ∧ out1 = out ++ accepted ext ∧
        accepted ext <+: (chunks_read reads).flatten ∧
        (b = true →
          accepted ext = (chunks_read reads).flatten ∧ read_error_ends reads = false) ∧
        (∃ (pre : List CopyCall) (c : CopyCall),
          ext = pre ++ [c] ∧ c.ret ≤ 0 ∧ (∀ d ∈ pre, 0 < d.ret) ∧ (b = true ↔ c.ret = 0)) ∧
        ((∀ (j : Nat) (offered : List Nat), 0 ≤ write j offered) →
          b = !read_error_ends reads ∧ accepted ext = (chunks_read reads).flatten) := by
  induction reads with
  | nil =>
    intro k out log _
    refine ⟨true, out, [CopyCall.read (.bytes [])], rfl, ?_, answered_read write k _ []
      (answered_nil write k), ?_, ?_, ?_, ⟨[], _, rfl, ?_, ?_, ?_⟩, ?_⟩
    · simp [read_results, CopyCall.read_result]
    · simp [accepted, CopyCall.accepted]
    · simp [accepted, CopyCall.accepted]
    · intro _; simp [accepted, CopyCall.accepted, chunks_read, read_error_ends]
    · simp [CopyCall.ret]
    · simp
    · simp [CopyCall.ret]
    · intro _; simp [accepted, CopyCall.accepted, chunks_read, read_error_ends]
  | cons r rest ih =>
    intro k out log hfuel
    cases r with
    | error =>
      refine ⟨false, out, [CopyCall.read .error], rfl, ?_, answered_read write k _ []
        (answered_nil write k), ?_, ?_, ?_, ⟨[], _, rfl, ?_, ?_, ?_⟩, ?_⟩
      · simp [read_results, CopyCall.read_result]
      · simp [accepted, CopyCall.accepted]
      · simp [accepted, CopyCall.accepted]
      · intro h; cases h
      · simp [CopyCall.ret]
      · simp
      · simp [CopyCall.ret]
      · intro _; simp [accepted, CopyCall.accepted, chunks_read, read_error_ends]
    | bytes chunk =>
      unfold copy_data_loop
      by_cases hpos : (chunk.length : Int) > 0
      · rw [if_pos hpos]
        obtain ⟨x, xs, hchunk⟩ : ∃ x xs, chunk = x :: xs := by
          cases chunk with
          | nil => simp at hpos
          | cons x xs => exact ⟨x, xs, rfl⟩
        have hcr : chunks_read (ReadResult.bytes chunk :: rest) = chunk :: chunks_read rest := by
          rw [hchunk]; rfl
        have hre : read_error_ends (ReadResult.bytes chunk :: rest) = read_error_ends rest := by
          rw [hchunk]; rfl
        obtain ⟨b, out1, ext, hrun, hreads, hansw, hout, hpre, htrue, hfalse, hall⟩ :=
          write_loop_trace write hw chunk fuel k 0 chunk.length out
            (log ++ [CopyCall.read (.bytes chunk)]) (by omega) (by omega)
            (hfuel chunk (List.mem_cons_self _ _))
        simp only [Nat.cast_zero] at hrun
        rw [hrun]
        simp only [List.drop_zero] at htrue hpre
        have hrr : read_results (CopyCall.read (.bytes chunk) :: ext) = [ReadResult.bytes chunk] := by
          have := read_results_append [CopyCall.read (.bytes chunk)] ext
          rw [hreads] at this
          exact this
        have hacc : accepted (CopyCall.read (.bytes chunk) :: ext) = accepted ext :=
          accepted_append [CopyCall.read (.bytes chunk)] ext
        cases b with
        | false =>
          obtain ⟨pre, c, hext, hc, hprepos⟩ := hfalse rfl
          refine ⟨false, out1, CopyCall.read (.bytes chunk) :: ext, ?_, ?_,
            answered_read write k _ ext hansw, ?_, ?_, ?_,
            ⟨CopyCall.read (.bytes chunk) :: pre, c, by rw [hext]; rfl, by omega, ?_, ?_⟩, ?_⟩
          · simp
          · rw [hrr]
            simp
          · rw [hacc]; exact hout
          · rw [hacc, hcr, List.flatten_cons]
            exact hpre.trans (List.prefix_append _ _)
          · intro h; cases h
          · intro d hd
            rcases List.mem_cons.mp hd with hd | hd
            · subst hd
              simp only [CopyCall.ret]
              omega
            · exact hprepos d hd
          · constructor
            · intro h; cases h
            · intro h; omega
          · intro hnn
            exact absurd (hall hnn) (by simp)
        | true =>
          obtain ⟨hful, hextpos⟩ := htrue rfl
          obtain ⟨b2, out2, ext2, hrun2, hreads2, hansw2, hout2, hpre2, htrue2,
              ⟨pre2, c2, hext2, hc2, hprepos2, hiff2⟩, hall2⟩ :=
            ih (k + (write_calls ext).length) out1 (log ++ [CopyCall.read (.bytes chunk)] ++ ext)
              (fun c hc => hfuel c (List.mem_cons_of_mem _ hc))
          have hacc2 : accepted (CopyCall.read (.bytes chunk) :: (ext ++ ext2)) =
              chunk ++ accepted ext2 := by
            have := accepted_append (CopyCall.read (.bytes chunk) :: ext) ext2
            rw [hacc, hful] at this
            exact this
          refine ⟨b2, out2, CopyCall.read (.bytes chunk) :: (ext ++ ext2), ?_, ?_, ?_, ?_, ?_, ?_,
            ⟨CopyCall.read (.bytes chunk) :: (ext ++ pre2), c2, ?_, hc2, ?_, hiff2⟩, ?_⟩
          · simp only
            rw [hrun2]
            simp
          · have := read_results_append (CopyCall.read (.bytes chunk) :: ext) ext2
            rw [hrr] at this
            rw [List.cons_append] at this
            rw [this]
            simp only [List.singleton_append, List.cons_append]
            exact (List.prefix_append_right_inj [ReadResult.bytes chunk]).mpr hreads2
          · have := answered_append write k (CopyCall.read (.bytes chunk) :: ext) ext2
              (answered_read write k _ ext hansw)
              (by
                have e : write_calls (CopyCall.read (.bytes chunk) :: ext) = write_calls ext := rfl
                rw [e]; exact hansw2)
            exact this
          · rw [hout2, hout, hacc2, hful, List.append_assoc]
          · rw [hacc2, hcr, List.flatten_cons]
            exact (List.prefix_append_right_inj _).mpr hpre2
          · intro hb
            obtain ⟨h1, h2⟩ := htrue2 hb
            rw [hacc2, hcr, hre, List.flatten_cons, h1]
            exact ⟨rfl, h2⟩
          · rw [hext2]; simp
          · intro d hd
            rcases List.mem_cons.mp hd with hd | hd
            · subst hd
              simp only [CopyCall.ret]
              omega
            · rcases List.mem_append.mp hd with hd | hd
              · exact hextpos d hd
              · exact hprepos2 d hd
          · intro hnn
            obtain ⟨h1, h2⟩ := hall2 hnn
            rw [hacc2, hcr, hre, List.flatten_cons, h2]
            exact ⟨h1, rfl⟩
      · rw [if_neg hpos]
        have hnil : chunk = [] := by
          cases chunk with
          | nil => rfl
          | cons x xs => simp at hpos
        subst hnil
        refine ⟨true, out, [CopyCall.read (.bytes [])], rfl, ?_, answered_read write k _ []
          (answered_nil write k), ?_, ?_, ?_, ⟨[], _, rfl, ?_, ?_, ?_⟩, ?_⟩
        · simp [read_results, CopyCall.read_result]
        · simp [accepted, CopyCall.accepted]
        · simp [accepted, CopyCall.accepted]
        · intro _; simp [accepted, CopyCall.accepted, chunks_read, read_error_ends]
        · simp [CopyCall.ret]
        · simp
        · simp [CopyCall.ret]
        · intro _; simp [accepted, CopyCall.accepted, chunks_read, read_error_ends]

/-- C22: let every `write` that is offered bytes fail or accept at least one
and at most all of them, and let `fuel` be no less than the length of any
chunk that `read` returns (a chunk has at most `sizeof buf` bytes).  Then
`copy_data_fd` returns.  Its `read` calls return the leading results of
`reads`, in order (and 0 once they are used up); its `k`-th `write` returns
what `write k` answers to the bytes offered; every call but the last returns
a positive value and the last does not; the bytes accepted by the target are
those the `write` calls took.  It returns true exactly when no `read` and no
`write` returned a negative value, and then the bytes accepted by the target
are, in order, the bytes read from the source: the concatenation of the chunks
of `reads` before the first `read` without a byte, which is not an error.  In
every case the bytes accepted are a leading part of the bytes read; and when
no `write` fails, the result is true unless that `read` is an error, and all
the chunks are accepted. -/
theorem copy_data_fd_copies_all (reads : List ReadResult) (write : Nat → List Nat → Int)
    (fuel : Nat)
    (hw : ∀ (k : Nat) (offered : List Nat), offered ≠ [] →
      write k offered < 0 ∨ (1 ≤ write k offered ∧ write k offered ≤ offered.length))
    (hfuel : ∀ chunk, ReadResult.bytes chunk ∈ reads → chunk.length ≤ fuel) :
    ∃ (ret : Bool) (out : List Nat) (log : List CopyCall),
      copy_data_fd reads write fuel = some (ret, out, log) ∧
      read_results log <+: reads ++ [ReadResult.bytes []] ∧
      (∀ (k : Nat) (offered : List Nat) (r : Int),
        (write_calls log)[k]? = some (offered, r) → r = write k offered) ∧
      (∃ (pre : List CopyCall) (c : CopyCall),
        log = pre ++ [c] ∧ c.ret ≤ 0 ∧ ∀ d ∈ pre, 0 < d.ret) ∧
      out = accepted log ∧
      (ret = true ↔ ∀ c ∈ log, 0 ≤ c.ret) ∧
      (ret = true →
        out = bytes_read log ∧ out = (chunks_read reads).flatten ∧
          read_error_ends reads = false) ∧
      out <+: bytes_read log ∧
      out <+: (chunks_read reads).flatten ∧
      ((∀ (k : Nat) (offered : List Nat), 0 ≤ write k offered) →
        ret = !read_error_ends reads ∧ out = (chunks_read reads).flatten) := by
  obtain ⟨b, out1, log1, ext, hrun, hlog, hret, hall, acc, hacc, hpre⟩ :=
    copy_data_loop_outcome write hw fuel reads 0 [] [] hfuel
  obtain ⟨b2, out2, ext2, hrun2, hreads2, hansw2, hout2, hpre2, htrue2,
      ⟨pre, c, hext, hc, hprepos, _⟩, hall2⟩ :=
    copy_data_loop_trace write hw fuel reads 0 [] [] hfuel
  rw [hrun] at hrun2
  simp only [List.nil_append, Option.some.injEq, Prod.mk.injEq] at hrun2 hlog hall hacc hout2
  obtain ⟨hb, ho, hl⟩ := hrun2
  subst hb ho hl hlog
  refine ⟨b, out1, log1, hrun, hreads2, ?_, ⟨pre, c, hext, hc, hprepos⟩, hout2, hret, ?_, ?_,
    ?_, ?_⟩
  · intro k offered r hk
    have := hansw2 k offered r hk
    rwa [Nat.zero_add] at this
  · intro h
    obtain ⟨h1, h2⟩ := htrue2 h
    exact ⟨hall h, by rw [hout2, h1], h2⟩
  · rw [hacc]
    exact hpre
  · rw [hout2]
    exact hpre2
  · intro hnn
    obtain ⟨h1, h2⟩ := hall2 hnn
    exact ⟨h1, by rw [hout2, h2]⟩

/-- C22 for two chunks and a target that accepts at most three bytes per
`write`. -/
theorem copy_data_fd_copies_all_witness :
    copy_data_fd [.bytes [1, 2, 3, 4, 5, 6, 7], .bytes [8]] write_three 7 =
      some (true, [1, 2, 3, 4, 5, 6, 7, 8],
        [.read (.bytes [1, 2, 3, 4, 5, 6, 7]), .write [1, 2, 3, 4, 5, 6, 7] 3,
          .write [4, 5, 6, 7] 3, .write [7] 1, .read (.bytes [8]), .write [8] 1,
          .read (.bytes [])]) ∧
    ∃ (ret : Bool) (out : List Nat) (log : List CopyCall),
      copy_data_fd [.bytes [1, 2, 3, 4, 5, 6, 7], .bytes [8]] write_three 7 =
        some (ret, out, log) ∧
      out = accepted log ∧
      (ret = true ↔ ∀ c ∈ log, 0 ≤ c.ret) ∧
      (ret = true → out = bytes_read log) ∧
      ret = true ∧ out = [1, 2, 3, 4, 5, 6, 7, 8] := by
  refine ⟨by decide, ?_⟩
  obtain ⟨ret, out, log, hrun, _, _, _, hacc, hiff, htrue, _, _, hnn⟩ :=
    copy_data_fd_copies_all [.bytes [1, 2, 3, 4, 5, 6, 7], .bytes [8]] write_three 7
      (by
        intro k offered h
        right
        unfold write_three
        cases offered with
        | nil => exact absurd rfl h
        | cons x xs => simp only [List.length_cons]; omega)
      (by
        intro chunk h
        simp only [List.mem_cons, ReadResult.bytes.injEq, List.mem_singleton] at h
        rcases h with h | h | h
        · subst h; decide
        · subst h; decide
        · cases h)
  obtain ⟨h1, h2⟩ := hnn (by intro k offered; unfold write_three; omega)
  exact ⟨ret, out, log, hrun, hacc, hiff, fun h => (htrue h).1, h1.trans (by decide),
    h2.trans (by decide)⟩

/-! ## C23 -/

theorem vector_resize_length (buf : List Char) (n : Nat) : (vector_resize buf n).length = n := by
  simp only [vector_resize, List.length_append, List.length_take, List.length_replicate]
  omega

theorem c_str_append_nul (t rest : List Char) (h : Char.ofNat 0 ∉ t) :
    c_str (t ++ Char.ofNat 0 :: rest) = t := by
  induction t with
  | nil => simp [c_str, List.takeWhile]
  | cons x xs ih =>
    simp only [List.mem_cons, not_or] at h
    have hx : (x != Char.ofNat 0) = true := by
      simp only [bne_iff_ne, ne_eq]
      exact fun e => h.1 e.symm
    have := ih h.2
    simp only [c_str] at this ⊢
    simp only [List.cons_append, List.takeWhile_cons, hx, if_true, this]

theorem read_link_loop_target (readlink : String → Nat → Int × List Char)
    (path target out : String)
    (hrl : ∀ n, readlink path n = readlink_of target path n)
    (hnul : Char.ofNat 0 ∉ target.data) (hlen : target.length < 2 ^ 62) :
    ∀ (fuel : Nat) (buf : List Char), 2 ≤ buf.length → target.length + 2 < buf.length + fuel →
      1 ≤ fuel →
      util.read_link_loop readlink path out fuel buf = some (true, target) := by
  intro fuel
  induction fuel with
  | zero => intro buf _ _ h; omega
  | succ f ih =>
    intro buf hs hf _
    have hL : target.length = target.data.length := rfl
    unfold util.read_link_loop
    simp only [hrl, readlink_of]
    have h0 : ¬ ((min (target.length : Int) ((buf.length - 1 : Nat) : Int)) < 0) := by omega
    rw [if_neg h0]
    by_cases hc : buf.length - 1 ≤ target.length
    · have h1 : (min (target.length : Int) ((buf.length - 1 : Nat) : Int)).toNat =
          buf.length - 1 := by omega
      rw [if_pos h1]
      have h2 : (buf.length <<< 1) % 2 ^ 64 = 2 * buf.length := by
        rw [Nat.shiftLeft_eq, Nat.mod_eq_of_lt] <;> omega
      rw [h2]
      apply ih
      · rw [vector_resize_length]; omega
      · rw [vector_resize_length]; omega
      · omega
    · have h1 : (min (target.length : Int) ((buf.length - 1 : Nat) : Int)).toNat =
          target.length := by omega
      rw [h1, if_neg (by omega)]
      have ht : List.take (buf.length - 1) target.data = target.data :=
        List.take_of_length_le (by omega)
      rw [ht]
      obtain ⟨x, xs, hx⟩ : ∃ x xs, buf.drop target.data.length = x :: xs := by
        cases hd : buf.drop target.data.length with
        | nil =>
          have := List.drop_eq_nil_iff.mp hd
          omega
        | cons x xs => exact ⟨x, xs, rfl⟩
      rw [hx, hL, List.set_append_right _ _ (le_refl _), Nat.sub_self, List.set_cons_zero,
        c_str_append_nul _ _ hnul]

theorem copy_stat_calls_mono (fs : Fs) (source target : String) (log : List FsCall)
    (x : FsCall) (h : x ∈ log) : x ∈ (copy_stat fs source target log).2 := by
  unfold copy_stat
  dsimp only
  repeat' split
  all_goals simp [h]

theorem cp_attrs_xattrs_calls_mono (fs : Fs) (curr : FTSEntry) (c : RecursiveCopier)
    (x : FsCall) (h : x ∈ c.calls) :
    x ∈ (RecursiveCopier.cp_attrs_xattrs fs curr c).2.calls := by
  have h1 : x ∈ (RecursiveCopier.cp_attrs fs curr c).2.calls := by
    unfold RecursiveCopier.cp_attrs
    dsimp only
    repeat' split
    all_goals first | exact h | exact copy_stat_calls_mono fs _ _ _ x h
  have h2 : ∀ k : RecursiveCopier, x ∈ k.calls →
      x ∈ (RecursiveCopier.cp_xattrs fs curr k).2.calls := by
    intro k hk
    unfold RecursiveCopier.cp_xattrs
    dsimp only
    repeat' split
    all_goals first | exact hk | simp [RecursiveCopier.call, hk]
  unfold RecursiveCopier.cp_attrs_xattrs
  dsimp only
  repeat' split
  all_goals first | exact h1 | exact h2 _ h1

/-- C23: let `readlink(path, buf, n)` place the first `min(L, n)` bytes of a
NUL-free target of length `L` in the buffer and return their number, `L` being
below `2 ^ 62`.  Given more than `L` iterations, `read_link` returns true and
sets `*out` to the whole target.  A recursive copy that reads the link with it
then calls `symlink` with that same target for the entry's target path. -/
theorem read_link_returns_target (readlink : String → Nat → Int × List Char)
    (path target out : String) (fuel : Nat)
    (hrl : ∀ n, readlink path n = readlink_of target path n)
    (hnul : Char.ofNat 0 ∉ target.data) (hlen : target.length < 2 ^ 62)
    (hfuel : target.length < fuel) :
    read_link readlink path out fuel = some (true, target) ∧
    (∀ (fs : Fs) (curr : FTSEntry) (c : RecursiveCopier),
      curr.fts_accpath = path →
      fs.read_link path =
        (read_link readlink path out fuel).bind (fun r => if r.1 then some r.2 else none) →
      (RecursiveCopier.remove_existing_file fs c).1 = true →
      FsCall.symlink target c._curtgtpath ∈
        (RecursiveCopier.on_reached_symlink fs curr c).2.calls) := by
  have h1 : read_link readlink path out fuel = some (true, target) := by
    unfold read_link
    apply read_link_loop_target readlink path target out hrl hnul hlen
    · rw [vector_resize_length]; omega
    · rw [vector_resize_length]; omega
    · omega
  refine ⟨h1, ?_⟩
  intro fs curr c hpath hfs hrm
  rw [h1] at hfs
  simp only [Option.some_bind, if_true] at hfs
  subst hpath
  simp only [RecursiveCopier.on_reached_symlink, hrm, hfs, not_true_eq_false, if_false]
  split
  · simp [RecursiveCopier.call]
  · apply cp_attrs_xattrs_calls_mono
    simp [RecursiveCopier.call]

/-- C23 for a link to `../../system/bin/toolbox`. -/
theorem read_link_returns_target_witness :
    read_link (readlink_of "../../system/bin/toolbox") "/data/a/link" "" 25 =
      some (true, "../../system/bin/toolbox") :=
  (read_link_returns_target (readlink_of "../../system/bin/toolbox") "/data/a/link"
    "../../system/bin/toolbox" "" 25 (fun _ => rfl) (by decide) (by decide) (by decide)).1

/-! ## C24 -/

theorem wipe_targets_cons (sys : Sys) (rom : Rom) (target : Int) (rest : List Int)
    (i : Nat) (succeeded failed : List Int) (s : State) :
    wipe_targets sys rom i (target :: rest) succeeded failed s =
      if wipe_result sys rom i target then
        wipe_targets sys rom (i + 1) rest (succeeded ++ [target]) failed
          { s with calls := s.calls ++ wipe_call rom target }
      else
        wipe_targets sys rom (i + 1) rest succeeded (failed ++ [target])
          { s with calls := s.calls ++ wipe_call rom target } := by
  simp only [wipe_targets, wipe_result, wipe_call]
  by_cases h1 : target = MbWipeTarget_SYSTEM
  · simp only [h1, if_true]; rfl
  by_cases h2 : target = MbWipeTarget_CACHE
  · simp only [h1, h2, if_true, if_false]; rfl
  by_cases h3 : target = MbWipeTarget_DATA
  · simp only [h1, h2, h3, if_true, if_false]; rfl
  by_cases h4 : target = MbWipeTarget_DALVIK_CACHE
  · simp only [h1, h2, h3, h4, if_true, if_false]; rfl
  by_cases h5 : target = MbWipeTarget_MULTIBOOT
  · simp only [h1, h2, h3, h4, h5, if_true, if_false]; rfl
  · simp only [h1, h2, h3, h4, h5, if_false]
    simp

theorem wipe_targets_eq (sys : Sys) (rom : Rom) (targets : List Int) :
    ∀ (i : Nat) (succeeded failed : List Int) (s : State),
      wipe_targets sys rom i targets succeeded failed s =
        (succeeded ++ wiped sys rom true i targets,
          failed ++ wiped sys rom false i targets,
          { s with calls := s.calls ++ (targets.map (wipe_call rom)).flatten }) := by
  induction targets with
  | nil => intro i succeeded failed s; simp [wipe_targets, wiped]
  | cons target rest ih =>
    intro i succeeded failed s
    rw [wipe_targets_cons]
    cases h : wipe_result sys rom i target
    · simp [ih, wiped, List.enumFrom_cons, List.filter_cons, h]
    · simp [ih, wiped, List.enumFrom_cons, List.filter_cons, h]

theorem wiped_partition (sys : Sys) (rom : Rom) (i : Nat) (targets : List Int) :
    (wiped sys rom true i targets ++ wiped sys rom false i targets).Perm targets ∧
    (wiped sys rom true i targets).Sublist targets ∧
    (wiped sys rom false i targets).Sublist targets := by
  refine ⟨?_, ?_, ?_⟩
  · have h := List.filter_append_perm (fun p : Nat × Int => wipe_result sys rom p.1 p.2 == true)
      (targets.enumFrom i)
    have h2 := h.map Prod.snd
    rw [List.map_append, List.enumFrom_map_snd] at h2
    have e : (fun x : Nat × Int => !(wipe_result sys rom x.1 x.2 == true)) =
        (fun p : Nat × Int => wipe_result sys rom p.1 p.2 == false) := by
      funext x; cases wipe_result sys rom x.1 x.2 <;> rfl
    rw [e] at h2
    exact h2
  · have h := (List.filter_sublist (p := fun p : Nat × Int => wipe_result sys rom p.1 p.2 == true)
      (targets.enumFrom i)).map Prod.snd
    rwa [List.enumFrom_map_snd] at h
  · have h := (List.filter_sublist (p := fun p : Nat × Int => wipe_result sys rom p.1 p.2 == false)
      (targets.enumFrom i)).map Prod.snd
    rwa [List.enumFrom_map_snd] at h

/-- C24: for a `MbWipeRomRequest` with a list of targets whose ROM is
installed and not the booted one, the handler calls, after the remount of
`/system`, the wipe function of each target in request order, none for a
target code that is none of the five, and writes one `MbWipeRomResponse`.
Its list `succeeded` holds the occurrences whose wipe function returned true
and its list `failed` all other occurrences, each in request order: together
they are a rearrangement of the request, and a code that is none of the five
is in `failed`. -/
theorem wipe_rom_partitions_targets (sys : Sys) (fd : Int) (rom_id : String)
    (targets : List Int) (rom : Rom) (s : State)
    (hfind : sys.find_by_id sys.add_installed rom_id = some rom)
    (hboot : ∀ current_rom, sys.get_current_rom = some current_rom →
      current_rom.id ≠ rom.id) :
    (v3_mb_wipe_rom sys fd ⟨some rom_id, some targets⟩ s).2.calls =
      s.calls ++
        [Call.add_installed, Call.find_by_id rom_id, Call.get_current_rom,
          Call.get_raw_path "/system",
          Call.mount "" (sys.get_raw_path "/system") "" MS_REMOUNT ""] ++
        (targets.map (wipe_call rom)).flatten ++
        [Call.socket_write_bytes fd
          ⟨ResponseType.MbWipeRomResponse,
            Payload.MbWipeRomResponse (wiped sys rom true 0 targets)
              (wiped sys rom false 0 targets)⟩] ∧
    (wiped sys rom true 0 targets ++ wiped sys rom false 0 targets).Perm targets ∧
    (wiped sys rom true 0 targets).Sublist targets ∧
    (wiped sys rom false 0 targets).Sublist targets ∧
    (wiped sys rom true 0 targets).length + (wiped sys rom false 0 targets).length =
      targets.length ∧
    (∀ (i : Nat) (target : Int),
      target ≠ MbWipeTarget_SYSTEM → target ≠ MbWipeTarget_CACHE →
      target ≠ MbWipeTarget_DATA → target ≠ MbWipeTarget_DALVIK_CACHE →
      target ≠ MbWipeTarget_MULTIBOOT →
      wipe_result sys rom i target = false ∧ wipe_call rom target = []) := by
  obtain ⟨hp, hs, hf⟩ := wiped_partition sys rom 0 targets
  refine ⟨?_, hp, hs, hf, ?_, ?_⟩
  · cases hc : sys.get_current_rom with
    | none =>
      simp only [v3_mb_wipe_rom, hfind, hc, wipe_targets_eq]
      simp [v3_send_response, State.call]
    | some cur =>
      have hne := hboot cur hc
      simp only [v3_mb_wipe_rom, hfind, hc, wipe_targets_eq]
      simp [hne, v3_send_response, State.call]
  · have := hp.length_eq
    rwa [List.length_append] at this
  · intro i target h1 h2 h3 h4 h5
    simp [wipe_result, wipe_call, h1, h2, h3, h4, h5]

/-- C24 for the targets cache, data, 7, cache, the wipe of the cache
failing. -/
theorem wipe_rom_partitions_targets_witness :
    (v3_mb_wipe_rom Sys.wiping 9
        ⟨some "dual", some [MbWipeTarget_CACHE, MbWipeTarget_DATA, 7, MbWipeTarget_CACHE]⟩
        State.init).2.calls.getLast? =
      some (Call.socket_write_bytes 9
        ⟨ResponseType.MbWipeRomResponse,
          Payload.MbWipeRomResponse [MbWipeTarget_DATA]
            [MbWipeTarget_CACHE, 7, MbWipeTarget_CACHE]⟩) := by
  rw [(wipe_rom_partitions_targets Sys.wiping 9 "dual"
    [MbWipeTarget_CACHE, MbWipeTarget_DATA, 7, MbWipeTarget_CACHE]
    ⟨"dual", false, "/raw/system/multiboot/dual/system",
      "/raw/cache/multiboot/dual/cache", "/raw/data/multiboot/dual/data"⟩ State.init
    (by decide) (by decide)).1]
  decide

/-! ## C25 -/

/-- C25: when `find_by_id` does not find the requested ROM among the
installed ones, or finds a ROM whose id is that of the booted ROM,
`v3_mb_wipe_rom` writes an Invalid response; the only other calls are
`add_installed`, `find_by_id` and, in the second case, `get_current_rom`: no
wipe function and no `mount`, whatever targets are listed. -/
theorem wipe_rom_refuses_missing_or_booted (sys : Sys) (fd : Int) (rom_id : String)
    (targets : Option (List Int)) (s : State) :
    (sys.find_by_id sys.add_installed rom_id = none →
      v3_mb_wipe_rom sys fd ⟨some rom_id, targets⟩ s =
        (sys.socket_write_bytes fd ⟨ResponseType.Invalid, Payload.Invalid⟩,
          { s with
            calls := s.calls ++
              [Call.add_installed, Call.find_by_id rom_id,
                Call.socket_write_bytes fd ⟨ResponseType.Invalid, Payload.Invalid⟩] })) ∧
    (∀ rom current_rom : Rom,
      sys.find_by_id sys.add_installed rom_id = some rom →
      sys.get_current_rom = some current_rom →
      current_rom.id = rom.id →
      v3_mb_wipe_rom sys fd ⟨some rom_id, targets⟩ s =
        (sys.socket_write_bytes fd ⟨ResponseType.Invalid, Payload.Invalid⟩,
          { s with
            calls := s.calls ++
              [Call.add_installed, Call.find_by_id rom_id, Call.get_current_rom,
                Call.socket_write_bytes fd ⟨ResponseType.Invalid, Payload.Invalid⟩] })) ∧
    ((sys.find_by_id sys.add_installed rom_id = none ∨
        ∃ rom current_rom : Rom,
          sys.find_by_id sys.add_installed rom_id = some rom ∧
          sys.get_current_rom = some current_rom ∧ current_rom.id = rom.id) →
      ∀ c ∈ (v3_mb_wipe_rom sys fd ⟨some rom_id, targets⟩ s).2.calls.drop s.calls.length,
        c.wipes_or_mounts = false) := by
  have h1 : sys.find_by_id sys.add_installed rom_id = none →
      v3_mb_wipe_rom sys fd ⟨some rom_id, targets⟩ s =
        (sys.socket_write_bytes fd ⟨ResponseType.Invalid, Payload.Invalid⟩,
          { s with
            calls := s.calls ++
              [Call.add_installed, Call.find_by_id rom_id,
                Call.socket_write_bytes fd ⟨ResponseType.Invalid, Payload.Invalid⟩] }) := by
    intro h
    simp [v3_mb_wipe_rom, h, v3_send_response_invalid, v3_send_response, State.call]
  have h2 : ∀ rom current_rom : Rom,
      sys.find_by_id sys.add_installed rom_id = some rom →
      sys.get_current_rom = some current_rom →
      current_rom.id = rom.id →
      v3_mb_wipe_rom sys fd ⟨some rom_id, targets⟩ s =
        (sys.socket_write_bytes fd ⟨ResponseType.Invalid, Payload.Invalid⟩,
          { s with
            calls := s.calls ++
              [Call.add_installed, Call.find_by_id rom_id, Call.get_current_rom,
                Call.socket_write_bytes fd ⟨ResponseType.Invalid, Payload.Invalid⟩] }) := by
    intro rom cur hf hc hid
    simp [v3_mb_wipe_rom, hf, hc, hid, v3_send_response_invalid, v3_send_response, State.call]
  refine ⟨h1, h2, ?_⟩
  rintro (h | ⟨rom, cur, hf, hc, hid⟩)
  · rw [h1 h]
    intro c hc
    simp only [List.drop_left] at hc
    simp only [List.mem_cons, List.mem_singleton, List.not_mem_nil, or_false] at hc
    rcases hc with rfl | rfl | rfl <;> rfl
  · rw [h2 rom cur hf hc hid]
    intro c hc
    simp only [List.drop_left] at hc
    simp only [List.mem_cons, List.mem_singleton, List.not_mem_nil, or_false] at hc
    rcases hc with rfl | rfl | rfl | rfl <;> rfl

/-- C25 for a ROM id that is not installed. -/
theorem wipe_rom_refuses_missing_or_booted_witness :
    (v3_mb_wipe_rom Sys.wiping 9 ⟨some "absent", some [MbWipeTarget_DATA]⟩ State.init).2.calls =
      [Call.add_installed, Call.find_by_id "absent",
        Call.socket_write_bytes 9 ⟨ResponseType.Invalid, Payload.Invalid⟩] :=
  congrArg (fun r => r.2.calls)
    ((wipe_rom_refuses_missing_or_booted Sys.wiping 9 "absent" (some [MbWipeTarget_DATA])
      State.init).1 (by decide))

/-! ## C26 -/

theorem strtok_r_loop_append_delim (d : Char) (a b : List Char) :
    ∀ tok : List Char,
      strtok_r_loop [d] (a ++ d :: b) tok = strtok_r_loop [d] a tok ++ strtok_r_loop [d] b [] := by
  induction a with
  | nil =>
    intro tok
    simp only [List.nil_append, strtok_r_loop, List.mem_singleton, if_true]
    split <;> simp
  | cons c cs ih =>
    intro tok
    simp only [List.cons_append, strtok_r_loop, List.mem_singleton]
    split
    · split
      · exact ih []
      · exact congrArg (List.cons tok) (ih [])
    · exact ih _

theorem path_components_append_sep (a b : List Char) :
    strtok_r (a ++ '/' :: b) ['/'] = strtok_r a ['/'] ++ strtok_r b ['/'] :=
  strtok_r_loop_append_delim '/' a b []

theorem strtok_r_sep_cons (b : List Char) :
    strtok_r ('/' :: b) ['/'] = strtok_r b ['/'] := by
  simp [strtok_r, strtok_r_loop]

theorem strtok_r_append_sep (a : List Char) :
    strtok_r (a ++ ['/']) ['/'] = strtok_r a ['/'] := by
  rw [path_components_append_sep]
  simp [strtok_r, strtok_r_loop]

/-- The components of `a ++ b` are those of `a` followed by those of `b` when
`a` ends with a separator. -/
theorem path_components_append_of_back (a b : List Char)
    (h : a.getLastD (Char.ofNat 0) = '/') :
    strtok_r (a ++ b) ['/'] = strtok_r a ['/'] ++ strtok_r b ['/'] := by
  rcases List.eq_nil_or_concat a with rfl | ⟨a0, c, rfl⟩
  · simp only [List.getLastD] at h
    exact absurd h (by decide)
  · simp only [List.concat_eq_append] at h ⊢
    have hc : c = '/' := by
      simpa [List.getLastD_eq_getLast?] using h
    subst hc
    rw [List.append_assoc, List.singleton_append, path_components_append_sep,
      strtok_r_append_sep]

/-- The components of `a ++ b` are those of `a` followed by those of `b` when
`b` begins with a separator or is empty. -/
theorem path_components_append_of_head (a b : List Char)
    (h : b.headD (Char.ofNat 0) = '/' ∨ b = []) :
    strtok_r (a ++ b) ['/'] = strtok_r a ['/'] ++ strtok_r b ['/'] := by
  rcases h with h | rfl
  · cases b with
    | nil => exact absurd h (by decide)
    | cons c cs =>
      simp only [List.headD_cons] at h
      subst h
      rw [path_components_append_sep, strtok_r_sep_cons]
  · simp [strtok_r, strtok_r_loop]

theorem target_components_step1 (t n : List Char) :
    strtok_r ((if t.getLastD (Char.ofNat 0) ≠ '/' then t ++ ['/'] else t) ++ n) ['/'] =
      strtok_r t ['/'] ++ strtok_r n ['/'] := by
  by_cases h : t.getLastD (Char.ofNat 0) = '/'
  · rw [if_neg (not_not.mpr h)]
    exact path_components_append_of_back t n h
  · rw [if_pos h, List.append_assoc, List.singleton_append]
    exact path_components_append_sep t n

theorem target_components_step2 (t r : List Char)
    (hr : r.headD (Char.ofNat 0) = Char.ofNat 0 → r = []) :
    strtok_r
        ((if t.getLastD (Char.ofNat 0) ≠ '/' ∧ r.headD (Char.ofNat 0) ≠ '/' ∧
              r.headD (Char.ofNat 0) ≠ Char.ofNat 0 then t ++ ['/'] else t) ++ r) ['/'] =
      strtok_r t ['/'] ++ strtok_r r ['/'] := by
  by_cases h : t.getLastD (Char.ofNat 0) ≠ '/' ∧ r.headD (Char.ofNat 0) ≠ '/' ∧
      r.headD (Char.ofNat 0) ≠ Char.ofNat 0
  · rw [if_pos h, List.append_assoc, List.singleton_append]
    exact path_components_append_sep t r
  · rw [if_neg h]
    by_cases h1 : t.getLastD (Char.ofNat 0) = '/'
    · exact path_components_append_of_back t r h1
    · by_cases h2 : r.headD (Char.ofNat 0) = '/'
      · exact path_components_append_of_head t r (Or.inl h2)
      · by_cases h3 : r.headD (Char.ofNat 0) = Char.ofNat 0
        · exact path_components_append_of_head t r (Or.inr (hr h3))
        · exact absurd ⟨h1, h2, h3⟩ h

theorem strtok_r_single (d : Char) (s : List Char) :
    ∀ tok : List Char, d ∉ s → (tok ≠ [] ∨ s ≠ []) → strtok_r_loop [d] s tok = [tok ++ s] := by
  induction s with
  | nil =>
    intro tok _ h
    rcases h with h | h
    · simp [strtok_r_loop, h]
    · exact absurd rfl h
  | cons c cs ih =>
    intro tok hd _
    simp only [List.mem_cons, not_or] at hd
    have hc : c ≠ d := fun h => hd.1 h.symm
    simp only [strtok_r_loop, List.mem_singleton, hc, if_false]
    rw [ih (tok ++ [c]) hd.2 (Or.inl (by simp))]
    simp

/-- C26: for a non-empty target root and an entry that is not the target
itself, whose path is a C string, `RecursiveCopier::on_changed_path` returns
OK and sets the current target path to a path whose non-empty components are
those of the target root, followed by those of the root entry's name unless
`COPY_EXCLUDE_TOP_LEVEL` is set, followed by those of the entry's path with the
first `_path.size()` bytes removed.  A non-empty name without `/` is one
component. -/
theorem copier_target_path_mirrors_entry (root curr : FTSEntry) (c : RecursiveCopier)
    (_htarget : c._target ≠ "")
    (hself : ¬ (c.sb_target.st_dev = curr.fts_statp.st_dev ∧
      c.sb_target.st_ino = curr.fts_statp.st_ino))
    (hnul : Char.ofNat 0 ∉ curr.fts_path.data) :
    (RecursiveCopier.on_changed_path root curr c).1 = Action.FTS_OK ∧
    path_components (RecursiveCopier.on_changed_path root curr c).2._curtgtpath =
      path_components c._target ++
        (if c._copyflags &&& COPY_EXCLUDE_TOP_LEVEL = 0 then path_components root.fts_name
          else []) ++
        path_components ⟨curr.fts_path.data.drop c._path.length⟩ ∧
    (root.fts_name ≠ "" → '/' ∉ root.fts_name.data →
      path_components root.fts_name = [root.fts_name.data]) := by
  have hr : (curr.fts_path.data.drop c._path.length).headD (Char.ofNat 0) = Char.ofNat 0 →
      curr.fts_path.data.drop c._path.length = [] := by
    intro h
    cases hd : curr.fts_path.data.drop c._path.length with
    | nil => rfl
    | cons x xs =>
      rw [hd] at h
      simp only [List.headD_cons] at h
      have hx : x ∈ curr.fts_path.data :=
        List.mem_of_mem_drop (by rw [hd]; exact List.mem_cons_self _ _)
      rw [h] at hx
      exact absurd hx hnul
  refine ⟨?_, ?_, ?_⟩
  · unfold RecursiveCopier.on_changed_path
    rw [if_neg hself]
  · unfold RecursiveCopier.on_changed_path
    rw [if_neg hself]
    simp only [path_components, String.data_append, RecursiveCopier.back,
      RecursiveCopier.deref]
    by_cases hf : c._copyflags &&& COPY_EXCLUDE_TOP_LEVEL = 0
    · simp only [hf, if_true]
      have e1 : ∀ s : String, (if s.data.getLastD (Char.ofNat 0) ≠ '/' then s ++ "/" else s).data =
          (if s.data.getLastD (Char.ofNat 0) ≠ '/' then s.data ++ ['/'] else s.data) := by
        intro s; split <;> simp [String.data_append]
      have e2 : ∀ (s : String) (p : Prop) [Decidable p],
          (if p then s ++ "/" else s).data = (if p then s.data ++ ['/'] else s.data) := by
        intro s p _; split <;> simp [String.data_append]
      rw [e2, String.data_append, e1, target_components_step2 _ _ hr, target_components_step1]
    · simp only [hf, if_false]
      have e2 : ∀ (s : String) (p : Prop) [Decidable p],
          (if p then s ++ "/" else s).data = (if p then s.data ++ ['/'] else s.data) := by
        intro s p _; split <;> simp [String.data_append]
      rw [e2, target_components_step2 _ _ hr]
      simp
  · intro hne hsep
    have h2 : root.fts_name.data ≠ [] := fun h => hne (String.ext h)
    have := strtok_r_single '/' root.fts_name.data [] hsep (Or.inr h2)
    simpa [path_components, strtok_r] using this

/-- C26 for the entry `/data/a/sub/f` of a copy of `/data/a` to `/mnt/b/`. -/
theorem copier_target_path_mirrors_entry_witness :
    path_components
        (RecursiveCopier.on_changed_path self_copy_root
          ⟨"/data/a/sub/f", "/data/a/sub/f", "f", 2,
            ⟨1, 3, 0o100644, 1, 0, 0, 0, 5, 4096, 8, 0, 0, 0⟩⟩
          (RecursiveCopier.new "/data/a" "/mnt/b/" 0)).2._curtgtpath =
      ["mnt".data, "b".data, "a".data, "sub".data, "f".data] := by
  rw [(copier_target_path_mirrors_entry self_copy_root
    ⟨"/data/a/sub/f", "/data/a/sub/f", "f", 2, ⟨1, 3, 0o100644, 1, 0, 0, 0, 5, 4096, 8, 0, 0, 0⟩⟩
    (RecursiveCopier.new "/data/a" "/mnt/b/" 0) (by decide) (by decide) (by decide)).2.1]
  decide

/-! ## C27 -/

theorem options_to_flags_loop_flags (size : Int) (tokens : List (List Char)) :
    ∀ (new_args : Option (List Char)),
      (util.options_to_flags_loop size tokens 0 new_args).1 = 0 := by
  induction tokens with
  | nil => intro new_args; rfl
  | cons temp rest ih =>
    intro new_args
    unfold util.options_to_flags_loop
    split
    · exact ih new_args
    · split
      · exact ih _
      · exact ih _

/-- C27 fails on the code: `options_to_flags` returns 0 for every option
string, since its loop ORs the constant 0, not the flag of the table entry it
found, into `flags`.  For `"ro,noatime"` the table assigns `MS_RDONLY` and
`MS_NOATIME`, whose OR is 1025, and the function returns 0. -/
theorem options_to_flags_returns_zero :
    (∀ (args : String) (new_args : Option (List Char)) (size : Int),
      (util.options_to_flags args new_args size).1 = 0) ∧
    util.options_to_flags "ro,noatime" (some []) 1024 = (0, some []) ∧
    strtok_r "ro,noatime".data [','] = ["ro".data, "noatime".data] ∧
    util.mount_flag_of "ro".data = MS_RDONLY ∧
    util.mount_flag_of "noatime".data = MS_NOATIME ∧
    util.flags_of_options "ro,noatime" = MS_RDONLY ||| MS_NOATIME ∧
    wrap_int (MS_RDONLY ||| MS_NOATIME : Nat) = 1025 := by
  refine ⟨?_, by decide, by decide, by decide, by decide, by decide, by decide⟩
  intro args new_args size
  simp only [util.options_to_flags, options_to_flags_loop_flags]
  decide

/-! ## C28 -/

theorem join_components_cons (t : List Char) (rest : List (List Char)) (h : rest ≠ []) :
    join_components (t :: rest) = t ++ '/' :: join_components rest := by
  cases rest with
  | nil => exact absurd rfl h
  | cons _ _ => rfl

theorem strtok_r_loop_ne_nil (delim : List Char) (cs : List Char) :
    ∀ tok : List Char, ∀ t ∈ strtok_r_loop delim cs tok, t ≠ [] := by
  induction cs with
  | nil =>
    intro tok t ht
    unfold strtok_r_loop at ht
    split at ht
    · cases ht
    · simp only [List.mem_singleton] at ht
      subst ht; assumption
  | cons c cs ih =>
    intro tok t ht
    unfold strtok_r_loop at ht
    split at ht
    · split at ht
      · exact ih [] t ht
      · simp only [List.mem_cons] at ht
        rcases ht with rfl | ht
        · assumption
        · exact ih [] t ht
    · exact ih _ t ht

theorem path_join_loop_data (ts : List (List Char)) :
    ∀ path : String, (∀ t ∈ ts, t ≠ []) →
      (util.path_join_loop (ts.map String.mk) path).data = path.data ++ join_components ts := by
  induction ts with
  | nil => intro path _; simp [util.path_join_loop, join_components]
  | cons t rest ih =>
    intro path h
    have ht : t ≠ [] := h t (List.mem_cons_self _ _)
    have hrest : ∀ x ∈ rest, x ≠ [] := fun x hx => h x (List.mem_cons_of_mem _ hx)
    have he : (String.mk t).isEmpty = false := by
      cases hs : (String.mk t).isEmpty
      · rfl
      · have := (String.isEmpty_iff _).mp hs
        exact absurd (congrArg String.data this) ht
    simp only [List.map_cons, util.path_join_loop, he]
    cases rest with
    | nil => simp [util.path_join_loop, join_components]
    | cons r rs =>
      simp only [List.map_cons, List.isEmpty_cons]
      have := ih (path ++ String.mk t ++ "/") hrest
      simp only [List.map_cons] at this
      simp only [Bool.false_eq_true, if_false]
      rw [this, join_components_cons _ _ (List.cons_ne_nil _ _)]
      simp [String.data_append]

theorem join_strtok_r_loop (cs : List Char) :
    ∀ tok : List Char,
      ¬ ['/', '/'] <:+: cs → cs.getLast? ≠ some '/' → (cs.head? = some '/' → tok ≠ []) →
      join_components (strtok_r_loop ['/'] cs tok) = tok ++ cs := by
  induction cs with
  | nil =>
    intro tok _ _ _
    unfold strtok_r_loop
    split
    · rename_i h; simp [h, join_components]
    · simp [join_components]
  | cons c cs ih =>
    intro tok hinf hlast hhead
    have hinf2 : ¬ ['/', '/'] <:+: cs := fun h => hinf (h.trans (List.suffix_cons c cs).isInfix)
    unfold strtok_r_loop
    split
    · rename_i hc
      simp only [List.mem_singleton] at hc
      subst hc
      have htok : tok ≠ [] := hhead rfl
      rw [if_neg htok]
      have hcs : cs ≠ [] := by
        intro h; subst h; exact hlast rfl
      have hlast2 : cs.getLast? ≠ some '/' := by
        intro h
        apply hlast
        cases cs with
        | nil => exact absurd rfl hcs
        | cons d ds =>
          rw [List.getLast?_cons_cons]
          exact h
      have hhead2 : cs.head? ≠ some '/' := by
        intro h
        apply hinf
        cases cs with
        | nil => exact absurd rfl hcs
        | cons d ds =>
          simp only [List.head?_cons, Option.some.injEq] at h
          subst h
          exact (List.prefix_append ['/', '/'] ds).isInfix
      have h1 := ih [] hinf2 hlast2 (fun h => absurd h hhead2)
      have hne : strtok_r_loop ['/'] cs [] ≠ [] := by
        intro h
        rw [h] at h1
        simp only [join_components, List.nil_append] at h1
        exact hcs h1.symm
      rw [join_components_cons _ _ hne, h1]
      simp
    · have h1 := ih (tok ++ [c]) hinf2
        (by
          intro h
          cases cs with
          | nil => simp at h
          | cons d ds =>
            apply hlast
            rw [List.getLast?_cons_cons]
            exact h)
        (fun _ => by simp)
      rw [h1]
      simp

/-- C28: for every path without `//` whose last byte is not `/`, unless the
path is `/` itself, `path_join(path_split(p))` is `p`. -/
theorem path_join_split (p : String)
    (hsep : ¬ ['/', '/'] <:+: p.data)
    (htrail : p.data.getLast? = some '/' → p = "/") :
    util.path_join (util.path_split p) = p := by
  apply String.ext
  unfold util.path_join util.path_split
  cases hp : p.data with
  | nil =>
    simp [strtok_r, strtok_r_loop, util.path_join_loop]
  | cons c cs =>
    rw [hp] at hsep
    have hne : ∀ t ∈ strtok_r_loop ['/'] cs [], t ≠ [] := strtok_r_loop_ne_nil _ _ _
    by_cases hc : c = '/'
    · subst hc
      have hsep2 : ¬ ['/', '/'] <:+: cs :=
        fun h => hsep (h.trans (List.suffix_cons _ cs).isInfix)
      have hlast : cs.getLast? ≠ some '/' := by
        intro h
        cases cs with
        | nil => simp at h
        | cons d ds =>
          have h2 : p.data.getLast? = some '/' := by
            rw [hp, List.getLast?_cons_cons]; exact h
          have h3 := congrArg String.data (htrail h2)
          rw [hp] at h3
          simp at h3
      have hhead : cs.head? ≠ some '/' := by
        intro h
        apply hsep
        cases cs with
        | nil => simp at h
        | cons d ds =>
          simp only [List.head?_cons, Option.some.injEq] at h
          subst h
          exact (List.prefix_append ['/', '/'] ds).isInfix
      have h1 := join_strtok_r_loop cs [] hsep2 hlast (fun h => absurd h hhead)
      have e : strtok_r ('/' :: cs) ['/'] = strtok_r_loop ['/'] cs [] := by
        simp [strtok_r, strtok_r_loop]
      simp only [List.head?_cons, if_true, e, List.cons_append, List.nil_append]
      have he : ("" : String).isEmpty = true := by decide
      rw [util.path_join_loop, if_pos he, path_join_loop_data _ _ hne, h1]
      rfl
    · have hlast : (c :: cs).getLast? ≠ some '/' := by
        intro h
        have h2 : p.data.getLast? = some '/' := by rw [hp]; exact h
        have h3 := congrArg String.data (htrail h2)
        rw [hp] at h3
        simp only [List.cons.injEq] at h3
        exact hc h3.1
      have h1 := join_strtok_r_loop (c :: cs) [] hsep hlast
        (fun h => by
          simp only [List.head?_cons, Option.some.injEq] at h
          exact absurd h hc)
      have hne2 : ∀ t ∈ strtok_r_loop ['/'] (c :: cs) [], t ≠ [] := strtok_r_loop_ne_nil _ _ _
      have hh : ¬ ((c :: cs).head? = some '/') := by
        simp only [List.head?_cons, Option.some.injEq]; exact hc
      rw [if_neg hh, List.nil_append, strtok_r, path_join_loop_data _ _ hne2, h1]
      rfl

/-- C28 for `/data/media/0`. -/
theorem path_join_split_witness :
    util.path_split "/data/media/0" = ["", "data", "media", "0"] ∧
    util.path_join (util.path_split "/data/media/0") = "/data/media/0" :=
  ⟨by decide, path_join_split "/data/media/0" (by decide) (by decide)⟩

/-! ## C29 -/

theorem set_bits_range (n : Nat) (pdb : util.policydb_t) (b : Nat) :
    ((List.range n).foldl
      (fun p i =>
        { p with permissive_map := util.ebitmap_set_bit p.permissive_map (i + 1) true })
      pdb).permissive_map b =
      if 1 ≤ b ∧ b ≤ n then true else pdb.permissive_map b := by
  induction n with
  | zero =>
    simp only [List.range_zero, List.foldl_nil]
    rw [if_neg (by omega)]
  | succ n ih =>
    rw [List.range_succ, List.foldl_append]
    simp only [List.foldl_cons, List.foldl_nil, util.ebitmap_set_bit, ih]
    by_cases hb : b = n + 1
    · subst hb; simp
    · have h1 : (1 ≤ b ∧ b ≤ n + 1) ↔ (1 ≤ b ∧ b ≤ n) := by omega
      simp [hb, h1]

/-- C29 fails on the code: for a policy database with `nprim` types,
`1 ≤ nprim < 2 ^ 32`, `selinux_make_all_permissive` sets the permissive bit of
the type values 1 to `nprim - 1` and leaves the bit of the type value `nprim`
as it was.  With three types and an empty map the bit of type 3 stays clear;
with one type no bit is set at all. -/
theorem make_all_permissive_misses_last_type (pdb : util.policydb_t) :
    (1 ≤ pdb.p_types_nprim → pdb.p_types_nprim < 2 ^ 32 →
      (∀ b, 1 ≤ b → b < pdb.p_types_nprim →
        util.ebitmap_get_bit (util.selinux_make_all_permissive pdb).permissive_map b = true) ∧
      util.ebitmap_get_bit (util.selinux_make_all_permissive pdb).permissive_map
          pdb.p_types_nprim =
        util.ebitmap_get_bit pdb.permissive_map pdb.p_types_nprim) ∧
    util.ebitmap_get_bit
      (util.selinux_make_all_permissive ⟨3, fun _ => false⟩).permissive_map 3 = false ∧
    util.ebitmap_get_bit
      (util.selinux_make_all_permissive ⟨1, fun _ => false⟩).permissive_map 1 = false := by
  refine ⟨?_, by decide, by decide⟩
  intro h1 h2
  have hb : (((pdb.p_types_nprim : Int) - 1) % 2 ^ 32).toNat = pdb.p_types_nprim - 1 := by
    omega
  simp only [util.selinux_make_all_permissive, util.ebitmap_get_bit, hb, set_bits_range]
  constructor
  · intro b hb1 hb2
    have : 1 ≤ b ∧ b ≤ pdb.p_types_nprim - 1 := by omega
    simp [this]
  · have : ¬ (1 ≤ pdb.p_types_nprim ∧ pdb.p_types_nprim ≤ pdb.p_types_nprim - 1) := by omega
    simp [this]

/-- C29 for three types and an empty permissive map. -/
theorem make_all_permissive_misses_last_type_witness :
    util.ebitmap_get_bit
        (util.selinux_make_all_permissive ⟨3, fun _ => false⟩).permissive_map 2 = true ∧
    util.ebitmap_get_bit
        (util.selinux_make_all_permissive ⟨3, fun _ => false⟩).permissive_map 3 = false :=
  ⟨((make_all_permissive_misses_last_type ⟨3, fun _ => false⟩).1 (by decide) (by decide)).1 2
      (by decide) (by decide),
    (make_all_permissive_misses_last_type ⟨3, fun _ => false⟩).2.1⟩

/-! ## C30 -/

theorem strtok_r_loop_size (delim : List Char) (cs : List Char) :
    ∀ tok : List Char,
      ((strtok_r_loop delim cs tok).map (fun t => t.length + 1)).sum ≤
        tok.length + cs.length + 1 := by
  induction cs with
  | nil =>
    intro tok
    unfold strtok_r_loop
    split <;> simp
  | cons c cs ih =>
    intro tok
    unfold strtok_r_loop
    split
    · split
      · have := ih []
        simp only [List.length_nil, List.length_cons] at this ⊢
        omega
      · have := ih []
        simp only [List.map_cons, List.sum_cons, List.length_nil, List.length_cons] at this ⊢
        omega
    · have := ih (tok ++ [c])
      simp only [List.length_append, List.length_singleton, List.length_cons,
        List.length_nil] at this ⊢
      omega

theorem mkdir_recursive_loop_temps (fs : Fs) (mode : Nat) (bound : Nat)
    (tokens : List (List Char)) :
    ∀ (temp : List Char) (calls : List FsCall) (temps : List (List Char)),
      (∀ t ∈ temps, t.length ≤ bound) →
      temp.length + (tokens.map (fun t => t.length + 1)).sum ≤ bound →
      ∀ t ∈ (util.mkdir_recursive_loop fs mode tokens temp calls temps).2.2,
        t.length ≤ bound := by
  induction tokens with
  | nil =>
    intro temp calls temps h _
    exact h
  | cons p rest ih =>
    intro temp calls temps h hb
    simp only [List.map_cons, List.sum_cons] at hb
    have h2 : ∀ t ∈ temps ++ [temp ++ p, temp ++ p ++ ['/']], t.length ≤ bound := by
      intro t ht
      simp only [List.mem_append, List.mem_cons, List.mem_singleton, List.not_mem_nil,
        or_false] at ht
      rcases ht with ht | rfl | rfl
      · exact h t ht
      · simp only [List.length_append]; omega
      · simp only [List.length_append, List.length_singleton]; omega
    unfold util.mkdir_recursive_loop
    dsimp only
    split
    · exact h2
    · apply ih _ _ _ h2
      simp only [List.length_append, List.length_singleton]
      omega

/-- C30: every content of the buffer `temp` of `mkdir_recursive`, after
`temp[0] = 0` and after each `strcat`, has at most `strlen(dir) + 1` bytes, so
with its terminator it fits in the `strlen(dir) + 2` bytes allocated.  For
`/a//b` the contents are `/`, `/a`, `/a/`, `/a/b`, `/a/b/`; for `a` the bound
is reached by `a/`. -/
theorem mkdir_recursive_temp_fits (fs : Fs) (dir : String) (mode : Nat) :
    (∀ t ∈ (util.mkdir_recursive fs dir mode).2.2, t.length ≤ dir.length + 1) ∧
    (util.mkdir_recursive Fs.quiet "/a//b" 0o755).2.2 =
      ["".data, "/".data, "/a".data, "/a/".data, "/a/b".data, "/a/b/".data] ∧
    (util.mkdir_recursive Fs.quiet "a" 0o755).2.2 = ["".data, "a".data, "a/".data] := by
  refine ⟨?_, by decide, by decide⟩
  unfold util.mkdir_recursive
  split
  · intro t ht; cases ht
  · rename_i hne
    have hlen : dir.length = dir.data.length := rfl
    split
    · rename_i hhead
      obtain ⟨rest, hrest⟩ : ∃ rest, dir.data = '/' :: rest := by
        cases hd : dir.data with
        | nil => exact absurd hd hne
        | cons c cs =>
          rw [hd] at hhead
          simp only [List.head?_cons, Option.some.injEq] at hhead
          exact ⟨cs, by rw [hhead]⟩
      apply mkdir_recursive_loop_temps
      · intro t ht
        simp only [List.mem_cons, List.mem_singleton, List.not_mem_nil, or_false] at ht
        rcases ht with rfl | rfl <;> simp
      · have h := strtok_r_loop_size ['/'] rest []
        have e : strtok_r dir.data ['/'] = strtok_r_loop ['/'] rest [] := by
          rw [hrest]
          simp [strtok_r, strtok_r_loop]
        rw [e, hlen, hrest]
        simp only [List.length_cons, List.length_nil, List.length_singleton] at h ⊢
        omega
    · apply mkdir_recursive_loop_temps
      · intro t ht
        simp only [List.mem_singleton] at ht
        subst ht; simp
      · have h := strtok_r_loop_size ['/'] dir.data []
        rw [hlen]
        simp only [strtok_r, List.length_nil] at h ⊢
        omega

end mb
